import Mathlib

/-!
# ergonomadic: the IRC server core

A shallow embedding of `irc/server.go`, `irc/client.go`, `irc/conn.go` and
`types.go`, and the properties of the specification checked against it.
-/

namespace Ergonomadic

/-! ## Message of the day: reading and line wrapping (`Server.MOTD`, server.go:233-247) -/

/-- A Go string is a sequence of bytes; `len` and slicing count bytes. -/
abbrev GoString := List UInt8

/-- The constant `MaxScanTokenSize` of the Go library `bufio`: the size to which the
buffer of a `Scanner` made by `bufio.NewScanner` grows, 64 KiB. -/
def MaxScanTokenSize : Nat := 64 * 1024

/-- The function `dropCR` of the Go library `bufio`: one trailing carriage return is
dropped. -/
def dropCR (data : GoString) : GoString :=
  if data.getLast? = some 13 then data.dropLast else data

/-- The values `scanner.Text()` takes in the loop `for scanner.Scan() { ... }` of
`Server.MOTD` (server.go:233-235), for a scanner of `bufio.NewScanner` (split function
`ScanLines`, buffer of at most `MaxScanTokenSize` bytes) over the bytes `data` that are
left to read.  A line is the bytes before the next newline.  When the buffer holds
`MaxScanTokenSize` bytes and no newline, `Scan` fails with `ErrTooLong` and the loop
ends; `Server.MOTD` does not read `scanner.Err()`.  A line ended by a newline is
delivered without the newline and without a carriage return before it; bytes after the
last newline are delivered as a last line when there are any.  The first argument
bounds the number of lines. -/
def scanLoop : Nat → GoString → List GoString
  | 0, _ => []
  | fuel + 1, data =>
    let line := data.takeWhile (fun b => b != 10)
    if line.length ≥ MaxScanTokenSize then []
    else if line.length < data.length then
      dropCR line :: scanLoop fuel (data.drop (line.length + 1))
    else if data.length > 0 then [dropCR data]
    else []

/-- The lines the scanner loop of `Server.MOTD` sees for a file with the bytes `file`;
a file has at most `len(file)` lines. -/
def scanLines (file : GoString) : List GoString := scanLoop (file.length + 1) file

/-- The constant `MOTD_MAX_LINE_LENGTH` (server.go:17). -/
def MOTD_MAX_LINE_LENGTH : Nat := 80

/-- The inner loop of `Server.MOTD` (server.go:237-240):
`for len(line) > MOTD_MAX_LINE_LENGTH { RplMOTD(line[0:80]); line = line[80:] }`.
Returns the texts passed to `RplMOTD`, in order, and the value of `line` when
the loop is left.  The first argument bounds the number of iterations. -/
def motdLoop : Nat → GoString → List GoString × GoString
  | 0, line => ([], line)
  | fuel + 1, line =>
    if line.length > MOTD_MAX_LINE_LENGTH then
      let r := motdLoop fuel (line.drop MOTD_MAX_LINE_LENGTH)
      (line.take MOTD_MAX_LINE_LENGTH :: r.1, r.2)
    else ([], line)

/-- The body of the scanner loop of `Server.MOTD` (server.go:235-246) for one
source line: the texts passed to `client.RplMOTD`, in emission order.  The
inner loop runs with `len(line)` iterations available, which it never uses up
(`motdLoop_exit`). -/
def motdLine (line : GoString) : List GoString :=
  if line.length > MOTD_MAX_LINE_LENGTH then
    let r := motdLoop line.length line
    if r.2.length > 0 then r.1 ++ [r.2] else r.1
  else [line]

/-! ## Data model (`irc/client.go`, `irc/conn.go`, `irc/server.go`, `types.go`) -/

/-- The type `Name` of the sources: nicknames, usernames, channel and server names. -/
abbrev Name := String

/-- The type `Text` of the sources: free text such as messages and reasons. -/
abbrev Text := String

/-- Modelled from the spec: `Name.ToLower` is declared outside the sources at hand;
names are compared and used as map keys in a canonicalized, lower-cased form. -/
def Name.ToLower (name : Name) : Name := String.mk (name.data.map Char.toLower)

/-- Modelled from the spec: `Name.IsChannel` is declared outside the sources at hand; a
name is channel-shaped when it starts with one of the channel prefixes. -/
def Name.IsChannel (name : Name) : Bool :=
  name.front == '#' || name.front == '&' || name.front == '+' || name.front == '!'

/-- Modelled from the spec: the matching of masks is outside the sources at hand; a mask
matches an identity exactly or, when it ends in a star, as a prefix, up to letter
case. -/
def Name.matchesMask (id mask : Name) : Bool :=
  if mask.back == '*' then (Name.ToLower (mask.dropRight 1)).isPrefixOf (Name.ToLower id)
  else Name.ToLower mask == Name.ToLower id

/-- A `*Client`: clients are named by the order of their allocation. -/
abbrev ClientId := Nat

/-- A `*Channel`. -/
abbrev ChanId := Nat

/-- The constant `CONN_BAD_PASSWORD` (client.go:13). -/
def CONN_BAD_PASSWORD : Text := "bad password"

/-- The constant `CONN_CLOSED` (client.go:14). -/
def CONN_CLOSED : Text := "connection closed"

/-- The constant `CONN_TIMEOUT` (client.go:15). -/
def CONN_TIMEOUT : Text := "connection timeout"

/-- The constant `CONN_UNEXPECTED` (client.go:16). -/
def CONN_UNEXPECTED : Text := "unexpected command"

/-- The constant `IDLE_TIMEOUT` (client.go:10), one minute, in seconds. -/
def IDLE_TIMEOUT : Nat := 60

/-- The constant `QUIT_TIMEOUT` (client.go:11), one minute, in seconds. -/
def QUIT_TIMEOUT : Nat := 60

/-- User modes; the sources name `Away`, `Invisible` and `Operator` (their
declaration is outside the sources at hand, every other mode is `other`). -/
inductive UserMode
  | Away
  | Invisible
  | Operator
  | other (r : Nat)
  deriving DecidableEq, Repr

/-- The statement `client.flags[mode] = true`. -/
def setFlag (flags : List UserMode) (mode : UserMode) : List UserMode :=
  if mode ∈ flags then flags else flags ++ [mode]

/-- The statement `delete(client.flags, mode)`. -/
def clearFlag (flags : List UserMode) (mode : UserMode) : List UserMode :=
  flags.filter (fun m => m != mode)

/-- Channel modes; the sources name `Private`, `ChannelOperator` and `Voice`, and the
modes of the three mask lists, `BanMask`, `ExceptMask` and `InviteMask`
(server.go:108-110).  `InviteOnly` and `OpOnlyTopic` are the modes the specification
calls invite-only semantics and topic protection. -/
inductive ChannelMode
  | Private
  | ChannelOperator
  | Voice
  | BanMask
  | ExceptMask
  | InviteMask
  | InviteOnly
  | OpOnlyTopic
  | other (r : Nat)
  deriving DecidableEq, Repr

/-- The capability-negotiation state `CapState` of a client. -/
inductive CapState
  | CapNone
  | CapNegotiating
  | CapNegotiated
  deriving DecidableEq, Repr

/-- Modelled from the spec: the reply formatters the handlers of server.go:389-746 and
the channel operations call are outside the sources at hand.  A reply line is kept as
the name of its formatter together with the arguments the caller passes, as for
`Reply` below. -/
inductive SessionReply
  | RplJoin (source : Name) (channel : ChanId)
  | RplPart (source : Name) (channel : ChanId) (message : Text)
  | RplKick (source : Name) (channel : ChanId) (target : ClientId) (comment : Text)
  | RplTopic (channel : ChanId)
  | RplNoTopic (channel : ChanId)
  | RplTopicMsg (source : Name) (channel : ChanId)
  | RplAway (target : ClientId)
  | RplNowAway
  | RplUnAway
  | RplYoureOper
  | RplModeChanges (source : Name) (target : Name) (mode : UserMode) (add : Bool)
  | RplIsOn (nicks : List Name)
  | RplWhois (target : ClientId)
  | RplVersion
  | RplTime
  | RplInviting (target : ClientId) (channel : Name)
  | RplInviteMsg (source : Name) (target : Name) (channel : Name)
  | RplWhoWasUser (entry : Name × Name × Name × Text)
  | RplEndOfWhoWas (nickname : Name)
  | ErrWasNoSuchNick (nickname : Name)
  | ErrNotOnChannel (channel : ChanId)
  | ErrUserNotInChannel (channel : ChanId) (target : ClientId)
  | ErrUserOnChannel (channel : ChanId) (target : ClientId)
  | ErrChanOPrivIsNeeded (channel : ChanId)
  | ErrBadChannelKey (channel : ChanId)
  | ErrChannelIsFull (channel : ChanId)
  | ErrBannedFromChan (channel : ChanId)
  deriving DecidableEq, Repr

/-- Modelled from the spec: the reply formatters (`RplPing`, `RplError`, `RplQuit`, ... and
the numeric-reply helpers of `Client`) are outside the sources at hand.  A reply line is
kept as the name of its formatter together with the arguments the caller passes; a
client that is passed as the source of a reply is kept by its `Id()` at the time of the
call, a channel or a client a reply is about by its pointer. -/
inductive Reply
  | RplError (reason : Text)
  | RplPing (server : Name)
  | RplPong (client : Name) (text : Text)
  | RplQuit (source : Name) (message : Text)
  | RplNick (source : Name) (nickname : Name)
  | RplNotice (source : Name) (target : Name) (message : Text)
  | RplPrivMsg (source : Name) (target : Name) (message : Text)
  | RplWelcome
  | RplYourHost
  | RplCreated
  | RplMyInfo
  | RplMOTDStart
  | RplMOTD (line : GoString)
  | RplMOTDEnd
  | RplUModeIs (modes : List UserMode)
  | ErrNoMOTD
  | ErrPasswdMismatch
  | ErrAlreadyRegistered
  | ErrUnknownCommand (code : String)
  | ErrNoPrivileges
  | ErrNoSuchNick (nickname : Name)
  | ErrNoSuchChannel (name : Name)
  | ErrNoSuchServer (target : Name)
  | RplList (channel : ChanId)
  | RplListEnd (server : Name)
  | RplWhoReply (channel : Option ChanId) (member : ClientId)
  | RplEndOfWho (mask : Name)
  | RplNamReply (channel : ChanId)
  | RplEndOfNames (channel : ChanId)
  | Session (reply : SessionReply)
  deriving DecidableEq, Repr

/-- The errors a transport write returns; `IRCConn.Write` returns `io.EOF` on a closed
connection. -/
inductive IOError
  | EOF
  deriving DecidableEq, Repr

/-- The struct `IRCConn` (conn.go:14): the `closed` flag and, for the wrapped
`net.Conn`, the lines flushed to it so far, oldest first. -/
structure IRCConn where
  closed : Bool
  written : List Reply
  deriving DecidableEq, Repr

/-- The function `NewIRCConn` (conn.go:21). -/
def NewIRCConn : IRCConn := { closed := false, written := [] }

/-- The method `IRCConn.Close` (conn.go:33). -/
def IRCConn.Close (socket : IRCConn) : IRCConn :=
  if socket.closed then socket else { socket with closed := true }

/-- The method `IRCConn.Write` (conn.go:65): on a closed connection nothing is written
and `io.EOF` is returned; otherwise the line and the line terminator are written and
flushed.  The buffered writer of an open connection is taken not to fail. -/
def IRCConn.Write (socket : IRCConn) (line : Reply) : IRCConn × Option IOError :=
  if socket.closed then (socket, some IOError.EOF)
  else ({ socket with written := socket.written ++ [line] }, none)

/-- A `*time.Timer`: whether it is pending, and the clock reading at which it fires. -/
structure Timer where
  running : Bool
  deadline : Nat
  deriving DecidableEq, Repr

/-- The call `time.AfterFunc(d, f)` at clock reading `now`. -/
def Timer.AfterFunc (now d : Nat) : Timer := { running := true, deadline := now + d }

/-- The method `Timer.Stop`. -/
def Timer.Stop (t : Timer) : Timer := { t with running := false }

/-- The method `Timer.Reset(d)` at clock reading `now`. -/
def Timer.Reset (_t : Timer) (now d : Nat) : Timer := { running := true, deadline := now + d }

/-- The struct `Client` (client.go:19); the `server` pointer is the state the
operations below are run on. -/
structure Client where
  atime : Nat
  authorized : Bool
  awayMessage : Text
  capabilities : List String
  capState : CapState
  channels : List ChanId
  ctime : Nat
  flags : List UserMode
  hasQuit : Bool
  hops : Nat
  hostname : Name
  idleTimer : Option Timer
  nick : Name
  quitTimer : Option Timer
  realname : Text
  registered : Bool
  conn : IRCConn
  username : Name
  deriving DecidableEq, Repr

/-- The zero value of `Client`. -/
instance : Inhabited Client :=
  ⟨{ atime := 0, authorized := false, awayMessage := "", capabilities := [],
     capState := CapState.CapNone, channels := [], ctime := 0, flags := [],
     hasQuit := false, hops := 0, hostname := "", idleTimer := none, nick := "",
     quitTimer := none, realname := "", registered := false, conn := NewIRCConn,
     username := "" }⟩

/-- The method `Client.HasNick` (client.go:198). -/
def Client.HasNick (client : Client) : Bool := client.nick != ""

/-- The method `Client.HasUsername` (client.go:202). -/
def Client.HasUsername (client : Client) : Bool := client.username != ""

/-- The method `Client.Nick` (client.go:226). -/
def Client.Nick (c : Client) : Name := if c.HasNick then c.nick else "*"

/-- The method `Client.UserHost` (client.go:218): `nick!user@host`. -/
def Client.UserHost (c : Client) : Name :=
  let username := if c.HasUsername then c.username else "*"
  c.Nick ++ "!" ++ username ++ "@" ++ c.hostname

/-- The method `Client.Id` (client.go:233). -/
def Client.Id (c : Client) : Name := c.UserHost

/-- The struct `Channel`, with the fields the sources at hand read: `flags`, `key`,
`lists` (the mask lists, by mode, server.go:89), `members` (a `MemberSet`, types.go:63:
member and per-member modes), `name`, `topic`, `userLimit`. -/
structure Channel where
  flags : List ChannelMode
  key : Text
  lists : List (ChannelMode × List Name)
  members : List (ClientId × List ChannelMode)
  name : Name
  topic : Text
  userLimit : Nat
  deriving DecidableEq, Repr

/-- Modelled from the spec: the mask sets are outside the sources at hand; whether a
mask of the list of the mode `mode` matches the identity `id`. -/
def Channel.listMatches (ch : Channel) (mode : ChannelMode) (id : Name) : Bool :=
  ch.lists.any (fun e => e.1 == mode && e.2.any (fun mask => id.matchesMask mask))

/-- The zero value of `Channel`. -/
instance : Inhabited Channel :=
  ⟨{ flags := [], key := "", lists := [], members := [], name := "", topic := "",
     userLimit := 0 }⟩

/-- A Go map with `Name` keys, as an association list without repeated keys. -/
abbrev NameMap (V : Type) := List (Name × V)

/-- The map read `m[key]` (`none` for an absent key). -/
def NameMap.get {V : Type} : NameMap V → Name → Option V
  | [], _ => none
  | (k, v) :: rest, key => if k = key then some v else NameMap.get rest key

/-- The builtin `delete(m, key)`. -/
def NameMap.delete {V : Type} : NameMap V → Name → NameMap V
  | [], _ => []
  | (k, v) :: rest, key =>
    if k = key then NameMap.delete rest key else (k, v) :: NameMap.delete rest key

/-- The map write `m[key] = value`. -/
def NameMap.set {V : Type} (m : NameMap V) (key : Name) (value : V) : NameMap V :=
  (key, value) :: NameMap.delete m key

/-- The type `ClientSet` (types.go:49), as a list without repetition. -/
abbrev ClientSet := List ClientId

/-- The method `ClientSet.Add` (types.go:51). -/
def ClientSet.Add (clients : ClientSet) (client : ClientId) : ClientSet :=
  if client ∈ clients then clients else clients ++ [client]

/-- The method `ClientSet.Remove` (types.go:55). -/
def ClientSet.Remove (clients : ClientSet) (client : ClientId) : ClientSet :=
  clients.filter (fun c => c != client)

/-- The method `ClientSet.Has` (types.go:59). -/
def ClientSet.Has (clients : ClientSet) (client : ClientId) : Bool :=
  decide (client ∈ clients)

/-- The type `ChannelNameMap` (types.go:12). -/
abbrev ChannelNameMap := NameMap ChanId

/-- The method `ChannelNameMap.Get` (types.go:14). -/
def ChannelNameMap.Get (channels : ChannelNameMap) (name : Name) : Option ChanId :=
  NameMap.get channels name.ToLower

/-- The method `ChannelNameMap.Add` (types.go:18), for the channel `id` with the struct
`channel`: the map afterwards and the error returned (`none` is `nil`). -/
def ChannelNameMap.Add (channels : ChannelNameMap) (id : ChanId) (channel : Channel) :
    ChannelNameMap × Option String :=
  if (NameMap.get channels channel.name.ToLower).isSome then
    (channels, some (channel.name ++ ": already set"))
  else (NameMap.set channels channel.name.ToLower id, none)

/-- The method `ChannelNameMap.Remove` (types.go:26). -/
def ChannelNameMap.Remove (channels : ChannelNameMap) (id : ChanId) (channel : Channel) :
    ChannelNameMap × Option String :=
  if NameMap.get channels channel.name.ToLower ≠ some id then
    (channels, some (channel.name ++ ": mismatch"))
  else (NameMap.delete channels channel.name.ToLower, none)

/-- The type `MemberSet` (types.go:63): the members of a channel, each with its modes in
the channel. -/
abbrev MemberSet := List (ClientId × List ChannelMode)

/-- The method `MemberSet.Add` (types.go:65): `members[member] = make(ChannelModeSet)`. -/
def MemberSet.Add (members : MemberSet) (member : ClientId) : MemberSet :=
  members.filter (fun m => m.1 != member) ++ [(member, [])]

/-- The method `MemberSet.Remove` (types.go:69). -/
def MemberSet.Remove (members : MemberSet) (member : ClientId) : MemberSet :=
  members.filter (fun m => m.1 != member)

/-- The method `MemberSet.Has` (types.go:73). -/
def MemberSet.Has (members : MemberSet) (member : ClientId) : Bool :=
  members.any (fun m => m.1 == member)

/-- The method `MemberSet.HasMode` (types.go:78). -/
def MemberSet.HasMode (members : MemberSet) (member : ClientId) (mode : ChannelMode) : Bool :=
  members.any (fun m => m.1 == member && decide (mode ∈ m.2))

/-- The type `ChannelSet` (types.go:98), as a list without repetition. -/
abbrev ChannelSet := List ChanId

/-- The method `ChannelSet.Add` (types.go:100). -/
def ChannelSet.Add (channels : ChannelSet) (channel : ChanId) : ChannelSet :=
  if channel ∈ channels then channels else channels ++ [channel]

/-- The method `ChannelSet.Remove` (types.go:104). -/
def ChannelSet.Remove (channels : ChannelSet) (channel : ChanId) : ChannelSet :=
  channels.filter (fun ch => ch != channel)

/-- An entry of the history buffer: a snapshot of a client's identity. -/
structure WhoWas where
  nickname : Name
  username : Name
  hostname : Name
  realname : Text
  deriving DecidableEq, Repr

/-- Modelled from the spec: `WhoWasList` is outside the sources at hand; a buffer of at
most `capacity` snapshots, most recent first. -/
structure WhoWasList where
  buffer : List WhoWas
  capacity : Nat
  deriving DecidableEq, Repr

/-- Modelled from the spec: `WhoWasList.Append` is outside the sources at hand; it
archives a snapshot of the client's identity (nick, username, hostname, real name) and
evicts the oldest entry once the buffer is full. -/
def WhoWasList.Append (list : WhoWasList) (client : Client) : WhoWasList :=
  { list with
    buffer := ({ nickname := client.nick, username := client.username,
                 hostname := client.hostname, realname := client.realname }
                :: list.buffer).take list.capacity }

/-- Modelled from the spec: `WhoWasList.Find` is outside the sources at hand; lookup is
by nickname, most recent first, capped to `limit` entries when `limit` is not zero. -/
def WhoWasList.Find (list : WhoWasList) (nickname : Name) (limit : Nat) : List WhoWas :=
  let found := list.buffer.filter (fun w => w.nickname.ToLower == nickname.ToLower)
  if limit = 0 then found else found.take limit

/-- Modelled from the spec: `ClientLookupSet` is outside the sources at hand (server.go
reads its field `byNick`); the registry indexes clients by canonicalized nickname. -/
structure ClientLookupSet where
  byNick : NameMap ClientId
  deriving DecidableEq, Repr

/-- Modelled from the spec: `ClientLookupSet.Get` is outside the sources at hand; lookup
by nickname up to letter case. -/
def ClientLookupSet.Get (clients : ClientLookupSet) (nick : Name) : Option ClientId :=
  clients.byNick.get nick.ToLower

/-- Modelled from the spec: `ClientLookupSet.Add` is outside the sources at hand; the
client is indexed under its canonicalized nickname.  An unset nickname is not a key,
and, as `ChannelNameMap.Add` (types.go:18) does, a key already set is not replaced. -/
def ClientLookupSet.Add (clients : ClientLookupSet) (id : ClientId) (client : Client) :
    ClientLookupSet :=
  if !client.HasNick then clients
  else if (clients.Get client.nick).isSome then clients
  else { clients with byNick := clients.byNick.set client.nick.ToLower id }

/-- Modelled from the spec: `ClientLookupSet.Remove` is outside the sources at hand; the
client's entry under its canonicalized nickname is deleted.  As `ChannelNameMap.Remove`
(types.go:26) does, an entry that is not this client is left alone. -/
def ClientLookupSet.Remove (clients : ClientLookupSet) (id : ClientId) (client : Client) :
    ClientLookupSet :=
  if !client.HasNick then clients
  else if clients.Get client.nick ≠ some id then clients
  else { clients with byNick := clients.byNick.delete client.nick.ToLower }

/-- Modelled from the spec: `ClientLookupSet.FindAll` is outside the sources at hand; the
clients whose nickname the mask matches. -/
def ClientLookupSet.FindAll (clients : ClientLookupSet) (mask : Name) : ClientSet :=
  (clients.byNick.filter (fun e => e.1.matchesMask mask)).foldl
    (fun found e => ClientSet.Add found e.2) []

/-- The struct `Server` (server.go:31).  Pointers are resolved through `clientAt` and
`channelAt`; `nextClient` and `nextChannel` are the next client and the next channel to
allocate.  The environment the event loop reads is part of the state: `now` is the
reading of the clock, `motdSource` the bytes of the file `motdFile` (`none` when it
cannot be opened). -/
structure Server where
  channels : NameMap ChanId
  clients : ClientLookupSet
  ctime : Nat
  motdFile : String
  name : Name
  password : Option (List UInt8)
  whoWas : WhoWasList
  clientAt : ClientId → Client
  channelAt : ChanId → Channel
  nextClient : ClientId
  nextChannel : ChanId
  now : Nat
  motdSource : Option GoString

/-- The assignment `*client = f(*client)`. -/
def Server.modifyClient (s : Server) (c : ClientId) (f : Client → Client) : Server :=
  { s with clientAt := Function.update s.clientAt c (f (s.clientAt c)) }

/-- The assignment `*channel = f(*channel)`. -/
def Server.modifyChannel (s : Server) (ch : ChanId) (f : Channel → Channel) : Server :=
  { s with channelAt := Function.update s.channelAt ch (f (s.channelAt ch)) }

/-! ## Client operations (`irc/client.go`) -/

/-- The method `Client.Reply` (client.go:273): `client.conn.Write(reply)`. -/
def Client.Reply (s : Server) (client : ClientId) (reply : Reply) : Server × Option IOError :=
  let r := (s.clientAt client).conn.Write reply
  (s.modifyClient client (fun cl => { cl with conn := r.1 }), r.2)

/-- Modelled from the spec: the numeric-reply helpers of `Client` (`RplWelcome`,
`ErrNoMOTD`, `ErrUnknownCommand`, ...) are outside the sources at hand; each sends
exactly one reply line to the client it is called on. -/
def Client.Numeric (s : Server) (client : ClientId) (reply : Ergonomadic.Reply) : Server :=
  (Client.Reply s client reply).1

/-- The method `Client.Active` (client.go:127). -/
def Client.Active (s : Server) (client : ClientId) : Server :=
  s.modifyClient client (fun cl => { cl with atime := s.now })

/-- The body of the method `Client.Touch` (client.go:131), on the struct of the client,
at the clock reading `now`: a quit timer is stopped, the idle timer is created or
reset. -/
def Client.touched (cl : Client) (now : Nat) : Client :=
  let cl := match cl.quitTimer with
    | some t => { cl with quitTimer := some t.Stop }
    | none => cl
  match cl.idleTimer with
  | none => { cl with idleTimer := some (Timer.AfterFunc now IDLE_TIMEOUT) }
  | some t => { cl with idleTimer := some (t.Reset now IDLE_TIMEOUT) }

/-- The method `Client.Touch` (client.go:131). -/
def Client.Touch (s : Server) (client : ClientId) : Server :=
  s.modifyClient client (fun cl => cl.touched s.now)

/-- The statements of the method `Client.Idle` (client.go:146-150) after the reply, on
the struct of the client, at the clock reading `now`: the quit timer is created or
reset. -/
def Client.idled (cl : Client) (now : Nat) : Client :=
  match cl.quitTimer with
  | none => { cl with quitTimer := some (Timer.AfterFunc now QUIT_TIMEOUT) }
  | some t => { cl with quitTimer := some (t.Reset now QUIT_TIMEOUT) }

/-- The method `Client.Idle` (client.go:143). -/
def Client.Idle (s : Server) (client : ClientId) : Server :=
  let s := (Client.Reply s client (Reply.RplPing s.name)).1
  s.modifyClient client (fun cl => cl.idled s.now)

/-- The method `Client.Register` (client.go:153). -/
def Client.Register (s : Server) (client : ClientId) : Server :=
  if (s.clientAt client).registered then s
  else
    let s := s.modifyClient client (fun cl => { cl with registered := true })
    Client.Touch s client

/-- Modelled from the spec: `Channel.Quit` is outside the sources at hand; the client
is removed from the channel's members and the channel from the client's channel set. -/
def Channel.Quit (s : Server) (channel : ChanId) (client : ClientId) : Server :=
  let s := s.modifyChannel channel (fun ch =>
    { ch with members := ch.members.filter (fun m => m.1 != client) })
  s.modifyClient client (fun cl =>
    { cl with channels := cl.channels.filter (fun ch => ch != channel) })

/-- The method `Client.destroy` (client.go:161). -/
def Client.destroy (s : Server) (client : ClientId) : Server :=
  let s := (s.clientAt client).channels.foldl (fun s channel => Channel.Quit s channel client) s
  let s := { s with clients := s.clients.Remove client (s.clientAt client) }
  s.modifyClient client (fun cl =>
    { cl with
      idleTimer := cl.idleTimer.map Timer.Stop
      quitTimer := cl.quitTimer.map Timer.Stop
      conn := cl.conn.Close })

/-- The method `Client.Friends` (client.go:241). -/
def Client.Friends (s : Server) (client : ClientId) : ClientSet :=
  (s.clientAt client).channels.foldl
    (fun friends channel =>
      (s.channelAt channel).members.foldl (fun friends member => ClientSet.Add friends member.1)
        friends)
    (ClientSet.Add [] client)

/-- The method `Client.SetNickname` (client.go:252). -/
def Client.SetNickname (s : Server) (client : ClientId) (nickname : Name) : Server :=
  if (s.clientAt client).HasNick then s
  else
    let s := s.modifyClient client (fun cl => { cl with nick := nickname })
    { s with clients := s.clients.Add client (s.clientAt client) }

/-- The method `Client.ChangeNickname` (client.go:261). -/
def Client.ChangeNickname (s : Server) (client : ClientId) (nickname : Name) : Server :=
  let reply := Reply.RplNick (s.clientAt client).Id nickname
  let s := { s with clients := s.clients.Remove client (s.clientAt client) }
  let s := { s with whoWas := s.whoWas.Append (s.clientAt client) }
  let s := s.modifyClient client (fun cl => { cl with nick := nickname })
  let s := { s with clients := s.clients.Add client (s.clientAt client) }
  (Client.Friends s client).foldl (fun s friend => (Client.Reply s friend reply).1) s

/-- The method `Client.Quit` (client.go:277). -/
def Client.Quit (s : Server) (client : ClientId) (message reason : Text) : Server :=
  if (s.clientAt client).hasQuit then s
  else
    let s := s.modifyClient client (fun cl => { cl with hasQuit := true })
    let s := (Client.Reply s client (Reply.RplError reason)).1
    let s := { s with whoWas := s.whoWas.Append (s.clientAt client) }
    let friends := ClientSet.Remove (Client.Friends s client) client
    let s := Client.destroy s client
    if friends.length > 0 then
      let reply := Reply.RplQuit (s.clientAt client).Id message
      friends.foldl (fun s friend => (Client.Reply s friend reply).1) s
    else s

/-- The function `NewClient` (client.go:41), without the start of the read loop: the
new client and the state in which it is allocated. -/
def NewClient (s : Server) : Server × ClientId :=
  let id := s.nextClient
  let client : Client :=
    { (default : Client) with
      authorized := s.password.isNone
      capState := CapState.CapNone
      ctime := s.now
      conn := NewIRCConn }
  let s := { s with clientAt := Function.update s.clientAt id client, nextClient := id + 1 }
  (Client.Touch s id, id)

/-! ## Channel operations -/

/-- Modelled from the spec: `Channel.Names` is outside the sources at hand; it sends the
full name list of the channel to the client, a names reply and its end marker. -/
def Channel.Names (s : Server) (channel : ChanId) (client : ClientId) : Server :=
  let s := Client.Numeric s client (Reply.RplNamReply channel)
  Client.Numeric s client (Reply.RplEndOfNames channel)

/-- Modelled from the spec: `NewChannel` is outside the sources at hand (server.go:111,
407 call it); a channel of that name with no member is allocated and filed in the
channel index of the server. -/
def NewChannel (s : Server) (name : Name) : Server × ChanId :=
  let id := s.nextChannel
  let channel : Channel := { (default : Channel) with name := name }
  ({ s with
      channels := (ChannelNameMap.Add s.channels id channel).1
      channelAt := Function.update s.channelAt id channel
      nextChannel := id + 1 }, id)

/-- The loop `for member := range members { member.Reply(reply) }`. -/
def Channel.broadcast (s : Server) (members : MemberSet) (reply : Reply) : Server :=
  members.foldl (fun s member => (Client.Reply s member.1 reply).1) s

/-- Modelled from the spec: `Channel.GetTopic` is outside the sources at hand; the topic
of the channel is sent to the client, the no-topic reply when there is none. -/
def Channel.GetTopic (s : Server) (channel : ChanId) (client : ClientId) : Server :=
  if (s.channelAt channel).topic == "" then
    Client.Numeric s client (Reply.Session (SessionReply.RplNoTopic channel))
  else Client.Numeric s client (Reply.Session (SessionReply.RplTopic channel))

/-- Modelled from the spec: `Channel.SetTopic` is outside the sources at hand; changing
the topic is restricted to the operators of the channel when the channel protects its
topic, and the change is broadcast to the members. -/
def Channel.SetTopic (s : Server) (channel : ChanId) (client : ClientId) (topic : Text) :
    Server :=
  if decide (ChannelMode.OpOnlyTopic ∈ (s.channelAt channel).flags)
      && !MemberSet.HasMode (s.channelAt channel).members client ChannelMode.ChannelOperator then
    Client.Numeric s client (Reply.Session (SessionReply.ErrChanOPrivIsNeeded channel))
  else
    let s := s.modifyChannel channel (fun ch => { ch with topic := topic })
    Channel.broadcast s (s.channelAt channel).members
      (Reply.Session (SessionReply.RplTopicMsg (s.clientAt client).Id channel))

/-- Modelled from the spec: `Channel.Join` is outside the sources at hand.  The join is
rejected with a reply when the channel has a key that does not match, is at its member
limit, or the client is banned and neither excepted nor invited.  Otherwise the client
is added with an empty mode set, the first member is made an operator of the channel,
the join is broadcast to the members, the new one included, and the topic and the name
list are sent to the new member. -/
def Channel.Join (s : Server) (channel : ChanId) (client : ClientId) (key : Text) : Server :=
  let ch := s.channelAt channel
  let id := (s.clientAt client).UserHost
  if ch.key != "" && ch.key != key then
    Client.Numeric s client (Reply.Session (SessionReply.ErrBadChannelKey channel))
  else if decide (0 < ch.userLimit) && decide (ch.userLimit ≤ ch.members.length) then
    Client.Numeric s client (Reply.Session (SessionReply.ErrChannelIsFull channel))
  else if ch.listMatches ChannelMode.BanMask id && !ch.listMatches ChannelMode.ExceptMask id
      && !ch.listMatches ChannelMode.InviteMask id then
    Client.Numeric s client (Reply.Session (SessionReply.ErrBannedFromChan channel))
  else
    let first := ch.members.length == 0
    let s := s.modifyClient client (fun cl => { cl with channels := ChannelSet.Add cl.channels channel })
    let s := s.modifyChannel channel (fun ch =>
      { ch with
        members :=
          if first then MemberSet.Remove ch.members client ++ [(client, [ChannelMode.ChannelOperator])]
          else MemberSet.Add ch.members client })
    let s := Channel.broadcast s (s.channelAt channel).members
      (Reply.Session (SessionReply.RplJoin (s.clientAt client).Id channel))
    let s := Channel.GetTopic s channel client
    Channel.Names s channel client

/-- Modelled from the spec: `Channel.Part` is outside the sources at hand; a client that
is not a member gets an error reply; otherwise the part notice is broadcast to the
members as they are before the removal, the leaving client included, and the
membership is removed. -/
def Channel.Part (s : Server) (channel : ChanId) (client : ClientId) (message : Text) :
    Server :=
  if !MemberSet.Has (s.channelAt channel).members client then
    Client.Numeric s client (Reply.Session (SessionReply.ErrNotOnChannel channel))
  else
    let s := Channel.broadcast s (s.channelAt channel).members
      (Reply.Session (SessionReply.RplPart (s.clientAt client).Id channel message))
    Channel.Quit s channel client

/-- Modelled from the spec: `Channel.Kick` is outside the sources at hand; the actor
must be an operator of the channel and the target a member, an error reply is sent
otherwise; the kick notice is broadcast to the members as they are before the removal
and the target is removed. -/
def Channel.Kick (s : Server) (channel : ChanId) (actor target : ClientId) (comment : Text) :
    Server :=
  if !MemberSet.HasMode (s.channelAt channel).members actor ChannelMode.ChannelOperator then
    Client.Numeric s actor (Reply.Session (SessionReply.ErrChanOPrivIsNeeded channel))
  else if !MemberSet.Has (s.channelAt channel).members target then
    Client.Numeric s actor (Reply.Session (SessionReply.ErrUserNotInChannel channel target))
  else
    let s := Channel.broadcast s (s.channelAt channel).members
      (Reply.Session (SessionReply.RplKick (s.clientAt actor).Id channel target comment))
    Channel.Quit s channel target

/-- Modelled from the spec: `Channel.Invite` is outside the sources at hand; inviting a
member is an error; otherwise the target is added to the invite list when the channel
is invite-only, and the target is notified. -/
def Channel.Invite (s : Server) (channel : ChanId) (invitee inviter : ClientId) : Server :=
  if MemberSet.Has (s.channelAt channel).members invitee then
    Client.Numeric s inviter (Reply.Session (SessionReply.ErrUserOnChannel channel invitee))
  else
    let s :=
      if ChannelMode.InviteOnly ∈ (s.channelAt channel).flags then
        s.modifyChannel channel (fun ch =>
          { ch with lists := (ChannelMode.InviteMask, [(s.clientAt invitee).UserHost]) :: ch.lists })
      else s
    (Client.Reply s invitee
      (Reply.Session (SessionReply.RplInviteMsg (s.clientAt inviter).Id (s.clientAt invitee).Nick
        (s.channelAt channel).name))).1

/-- Modelled from the spec: `Channel.PrivMsg` is outside the sources at hand; the message
is sent to every member except the sender. -/
def Channel.PrivMsg (s : Server) (channel : ChanId) (client : ClientId) (message : Text) :
    Server :=
  Channel.broadcast s (MemberSet.Remove (s.channelAt channel).members client)
    (Reply.RplPrivMsg (s.clientAt client).Id (s.channelAt channel).name message)

/-- Modelled from the spec: `Channel.Notice` is outside the sources at hand; the notice
is sent to every member except the sender. -/
def Channel.Notice (s : Server) (channel : ChanId) (client : ClientId) (message : Text) :
    Server :=
  Channel.broadcast s (MemberSet.Remove (s.channelAt channel).members client)
    (Reply.RplNotice (s.clientAt client).Id (s.channelAt channel).name message)

/-! ## Server operations (`irc/server.go`) -/

/-- The method `Server.MOTD` (server.go:219). -/
def Server.MOTD (s : Server) (client : ClientId) : Server :=
  if s.motdFile = "" then Client.Numeric s client Reply.ErrNoMOTD
  else
    match s.motdSource with
    | none => Client.Numeric s client Reply.ErrNoMOTD
    | some file =>
      let s := Client.Numeric s client Reply.RplMOTDStart
      let s := (scanLines file).foldl
        (fun s line =>
          (motdLine line).foldl (fun s text => Client.Numeric s client (Reply.RplMOTD text)) s)
        s
      Client.Numeric s client Reply.RplMOTDEnd

/-- The method `Server.tryRegister` (server.go:205). -/
def Server.tryRegister (s : Server) (c : ClientId) : Server :=
  if (s.clientAt c).registered || !(s.clientAt c).HasNick || !(s.clientAt c).HasUsername
      || (s.clientAt c).capState == CapState.CapNegotiating then s
  else
    let s := Client.Register s c
    let s := Client.Numeric s c Reply.RplWelcome
    let s := Client.Numeric s c Reply.RplYourHost
    let s := Client.Numeric s c Reply.RplCreated
    let s := Client.Numeric s c Reply.RplMyInfo
    Server.MOTD s c

/-! ## Commands and their handlers (`irc/server.go`) -/

/-- The struct `BaseCommand` embedded in every command: the client set by `SetClient`
and the command code. -/
structure BaseCommand where
  client : ClientId
  code : String
  deriving DecidableEq, Repr

/-! ## Handlers of further commands (`irc/server.go`) -/

/-- The struct `ListCommand`, with the fields `ListCommand.HandleServer` reads. -/
structure ListCommand where
  base : BaseCommand
  target : Name
  channels : List Name
  deriving DecidableEq, Repr

/-- The test `client.flags[Operator]`. -/
def Client.isOperator (cl : Client) : Bool := decide (UserMode.Operator ∈ cl.flags)

/-- The test `channel.flags[Private]`. -/
def Channel.isPrivate (ch : Channel) : Bool := decide (ChannelMode.Private ∈ ch.flags)

/-- The method `ListCommand.HandleServer` (server.go:630). -/
def ListCommand.HandleServer (s : Server) (msg : ListCommand) : Server :=
  let client := msg.base.client
  if msg.target != "" then Client.Numeric s client (Reply.ErrNoSuchServer msg.target)
  else
    let s :=
      if msg.channels.length == 0 then
        s.channels.foldl
          (fun s entry =>
            if !(s.clientAt client).isOperator && (s.channelAt entry.2).isPrivate then s
            else Client.Numeric s client (Reply.RplList entry.2))
          s
      else
        msg.channels.foldl
          (fun s chname =>
            match ChannelNameMap.Get s.channels chname with
            | none => Client.Numeric s client (Reply.ErrNoSuchChannel chname)
            | some channel =>
              if !(s.clientAt client).isOperator && (s.channelAt channel).isPrivate then
                Client.Numeric s client (Reply.ErrNoSuchChannel chname)
              else Client.Numeric s client (Reply.RplList channel))
          s
    Client.Numeric s client (Reply.RplListEnd s.name)

/-- The struct `KillCommand`, with the fields `KillCommand.HandleServer` reads. -/
structure KillCommand where
  base : BaseCommand
  nickname : Name
  comment : Text
  deriving DecidableEq, Repr

/-- The text `fmt.Sprintf("KILLed by %s: %s", client.Nick(), msg.comment)` of
`KillCommand.HandleServer` (server.go:729). -/
def KillCommand.quitMsg (actor : Client) (comment : Text) : Text :=
  "KILLed by " ++ actor.Nick ++ ": " ++ comment

/-- The method `KillCommand.HandleServer` (server.go:716). -/
def KillCommand.HandleServer (s : Server) (msg : KillCommand) : Server :=
  let client := msg.base.client
  if !(s.clientAt client).isOperator then Client.Numeric s client Reply.ErrNoPrivileges
  else
    match s.clients.Get msg.nickname with
    | none => Client.Numeric s client (Reply.ErrNoSuchNick msg.nickname)
    | some target =>
      Client.Quit s target (KillCommand.quitMsg (s.clientAt client) msg.comment) CONN_CLOSED

/-- The struct `WhoCommand`, with the field `WhoCommand.HandleServer` reads. -/
structure WhoCommand where
  base : BaseCommand
  mask : Name
  deriving DecidableEq, Repr

/-- The function `whoChannel` (server.go:502). -/
def whoChannel (s : Server) (client : ClientId) (channel : ChanId) (friends : ClientSet) :
    Server :=
  (s.channelAt channel).members.foldl
    (fun s member =>
      if !decide (UserMode.Invisible ∈ (s.clientAt client).flags) || friends.Has client then
        Client.Numeric s client (Reply.RplWhoReply (some channel) member.1)
      else s)
    s

/-- The method `WhoCommand.HandleServer` (server.go:510).  `isChannel` is `Name.IsChannel`
and `findAll` is `ClientLookupSet.FindAll`, both outside the sources at hand. -/
def WhoCommand.HandleServer (isChannel : Name → Bool)
    (findAll : ClientLookupSet → Name → ClientSet) (s : Server) (msg : WhoCommand) : Server :=
  let client := msg.base.client
  let friends := Client.Friends s client
  let mask := msg.mask
  let s :=
    if mask == "" then
      s.channels.foldl (fun s entry => whoChannel s client entry.2 friends) s
    else if isChannel mask then
      match ChannelNameMap.Get s.channels mask with
      | some channel => whoChannel s client channel friends
      | none => s
    else
      (findAll s.clients mask).foldl
        (fun s mclient => Client.Numeric s client (Reply.RplWhoReply none mclient)) s
  Client.Numeric s client (Reply.RplEndOfWho mask)

/-- The struct `NamesCommand`, with the field `NamesCommand.HandleServer` reads. -/
structure NamesCommand where
  base : BaseCommand
  channels : List Name
  deriving DecidableEq, Repr

/-- The method `NamesCommand.HandleServer` (server.go:659). -/
def NamesCommand.HandleServer (s : Server) (msg : NamesCommand) : Server :=
  let client := msg.base.client
  if s.channels.length == 0 then
    s.channels.foldl (fun s entry => Channel.Names s entry.2 client) s
  else
    msg.channels.foldl
      (fun s chname =>
        match ChannelNameMap.Get s.channels chname with
        | none => Client.Numeric s client (Reply.ErrNoSuchChannel chname)
        | some channel => Channel.Names s channel client)
      s

/-- The method `JoinCommand.HandleServer` (server.go:389).  `channels` is the map
`m.channels` from channel names to keys. -/
def JoinCommand.HandleServer (s : Server) (client : ClientId) (channels : List (Name × Text))
    (zero : Bool) : Server :=
  if zero then
    (s.clientAt client).channels.foldl
      (fun s channel => Channel.Part s channel client (s.clientAt client).Nick) s
  else
    channels.foldl
      (fun s entry =>
        if !entry.1.IsChannel then Client.Numeric s client (Reply.ErrNoSuchChannel entry.1)
        else
          match ChannelNameMap.Get s.channels entry.1 with
          | some channel => Channel.Join s channel client entry.2
          | none =>
            let r := NewChannel s entry.1
            Channel.Join r.1 r.2 client entry.2)
      s

/-- The method `PartCommand.HandleServer` (server.go:413).  `message` is the value of
`m.Message()`. -/
def PartCommand.HandleServer (s : Server) (client : ClientId) (channels : List Name)
    (message : Text) : Server :=
  channels.foldl
    (fun s chname =>
      match ChannelNameMap.Get s.channels chname with
      | none => Client.Numeric s client (Reply.ErrNoSuchChannel chname)
      | some channel => Channel.Part s channel client message)
    s

/-- The method `TopicCommand.HandleServer` (server.go:427). -/
def TopicCommand.HandleServer (s : Server) (client : ClientId) (channel : Name)
    (setTopic : Bool) (topic : Text) : Server :=
  match ChannelNameMap.Get s.channels channel with
  | none => Client.Numeric s client (Reply.ErrNoSuchChannel channel)
  | some ch =>
    if setTopic then Channel.SetTopic s ch client topic else Channel.GetTopic s ch client

/-- The method `PrivMsgCommand.HandleServer` (server.go:442). -/
def PrivMsgCommand.HandleServer (s : Server) (client : ClientId) (target : Name)
    (message : Text) : Server :=
  if target.IsChannel then
    match ChannelNameMap.Get s.channels target with
    | none => Client.Numeric s client (Reply.ErrNoSuchChannel target)
    | some channel => Channel.PrivMsg s channel client message
  else
    match s.clients.Get target with
    | none => Client.Numeric s client (Reply.ErrNoSuchNick target)
    | some tclient =>
      let s := (Client.Reply s tclient
        (Reply.RplPrivMsg (s.clientAt client).Id (s.clientAt tclient).Nick message)).1
      if UserMode.Away ∈ (s.clientAt tclient).flags then
        Client.Numeric s client (Reply.Session (SessionReply.RplAway tclient))
      else s

/-- The method `WhoisCommand.HandleServer` (server.go:485). -/
def WhoisCommand.HandleServer (s : Server) (client : ClientId) (masks : List Name) : Server :=
  masks.foldl
    (fun s mask =>
      let found := s.clients.FindAll mask
      if found.length == 0 then Client.Numeric s client (Reply.ErrNoSuchNick mask)
      else
        found.foldl
          (fun s mclient => Client.Numeric s client (Reply.Session (SessionReply.RplWhois mclient)))
          s)
    s

/-- The method `OperCommand.HandleServer` (server.go:534).  `hash` and `err` are the
fields the password check of the read loop has filled in (`none` is `nil`). -/
def OperCommand.HandleServer (s : Server) (client : ClientId) (hash : Option (List UInt8))
    (err : Option String) : Server :=
  if hash.isNone || err.isSome then Client.Numeric s client Reply.ErrPasswdMismatch
  else
    let s := s.modifyClient client (fun cl =>
      { cl with flags := setFlag cl.flags UserMode.Operator })
    let s := Client.Numeric s client (Reply.Session SessionReply.RplYoureOper)
    (Client.Reply s client
      (Reply.Session (SessionReply.RplModeChanges (s.clientAt client).Id (s.clientAt client).Nick
        UserMode.Operator true))).1

/-- The method `AwayCommand.HandleServer` (server.go:549). -/
def AwayCommand.HandleServer (s : Server) (client : ClientId) (text : Text) : Server :=
  let s := s.modifyClient client (fun cl =>
    { cl with
      flags := if text.length > 0 then setFlag cl.flags UserMode.Away
        else clearFlag cl.flags UserMode.Away })
  let s := s.modifyClient client (fun cl => { cl with awayMessage := text })
  let away := decide (UserMode.Away ∈ (s.clientAt client).flags)
  let s :=
    if away then Client.Numeric s client (Reply.Session SessionReply.RplNowAway)
    else Client.Numeric s client (Reply.Session SessionReply.RplUnAway)
  (Client.Reply s client
    (Reply.Session
      (SessionReply.RplModeChanges (s.clientAt client).Id (s.clientAt client).Nick
        UserMode.Away away))).1

/-- The method `IsOnCommand.HandleServer` (server.go:573). -/
def IsOnCommand.HandleServer (s : Server) (client : ClientId) (nicks : List Name) : Server :=
  let ison := nicks.filterMap (fun nick =>
    (s.clients.Get nick).map (fun iclient => (s.clientAt iclient).Nick))
  Client.Numeric s client (Reply.Session (SessionReply.RplIsOn ison))

/-- The method `NoticeCommand.HandleServer` (server.go:590). -/
def NoticeCommand.HandleServer (s : Server) (client : ClientId) (target : Name)
    (message : Text) : Server :=
  if target.IsChannel then
    match ChannelNameMap.Get s.channels target with
    | none => Client.Numeric s client (Reply.ErrNoSuchChannel target)
    | some channel => Channel.Notice s channel client message
  else
    match s.clients.Get target with
    | none => Client.Numeric s client (Reply.ErrNoSuchNick target)
    | some tclient =>
      (Client.Reply s tclient
        (Reply.RplNotice (s.clientAt client).Id (s.clientAt tclient).Nick message)).1

/-- The method `KickCommand.HandleServer` (server.go:610).  `kicks` is the map
`msg.kicks` from channel names to nicknames, `comment` the value of `msg.Comment()`. -/
def KickCommand.HandleServer (s : Server) (client : ClientId) (kicks : List (Name × Name))
    (comment : Text) : Server :=
  kicks.foldl
    (fun s kick =>
      match ChannelNameMap.Get s.channels kick.1 with
      | none => Client.Numeric s client (Reply.ErrNoSuchChannel kick.1)
      | some channel =>
        match s.clients.Get kick.2 with
        | none => Client.Numeric s client (Reply.ErrNoSuchNick kick.2)
        | some target => Channel.Kick s channel client target comment)
    s

/-- The method `VersionCommand.HandleServer` (server.go:678). -/
def VersionCommand.HandleServer (s : Server) (client : ClientId) (target : Name) : Server :=
  if target != "" && target != s.name then
    Client.Numeric s client (Reply.ErrNoSuchServer target)
  else Client.Numeric s client (Reply.Session SessionReply.RplVersion)

/-- The method `InviteCommand.HandleServer` (server.go:688). -/
def InviteCommand.HandleServer (s : Server) (client : ClientId) (nickname : Name)
    (channel : Name) : Server :=
  match s.clients.Get nickname with
  | none => Client.Numeric s client (Reply.ErrNoSuchNick nickname)
  | some target =>
    match ChannelNameMap.Get s.channels channel with
    | none =>
      let s := Client.Numeric s client (Reply.Session (SessionReply.RplInviting target channel))
      (Client.Reply s target
        (Reply.Session
          (SessionReply.RplInviteMsg (s.clientAt client).Id (s.clientAt target).Nick channel))).1
    | some ch => Channel.Invite s ch target client

/-- The method `TimeCommand.HandleServer` (server.go:707). -/
def TimeCommand.HandleServer (s : Server) (client : ClientId) (target : Name) : Server :=
  if target != "" && target != s.name then
    Client.Numeric s client (Reply.ErrNoSuchServer target)
  else Client.Numeric s client (Reply.Session SessionReply.RplTime)

/-- The method `WhoWasCommand.HandleServer` (server.go:733). -/
def WhoWasCommand.HandleServer (s : Server) (client : ClientId) (nicknames : List Name)
    (count : Nat) : Server :=
  nicknames.foldl
    (fun s nickname =>
      let results := s.whoWas.Find nickname count
      let s :=
        if results.length == 0 then
          Client.Numeric s client (Reply.Session (SessionReply.ErrWasNoSuchNick nickname))
        else
          results.foldl
            (fun s w =>
              Client.Numeric s client
                (Reply.Session
                  (SessionReply.RplWhoWasUser (w.nickname, w.username, w.hostname, w.realname))))
            s
      Client.Numeric s client (Reply.Session (SessionReply.RplEndOfWhoWas nickname)))
    s

/-- The method `Server.Shutdown` (server.go:143), the database apart: every client of
the registry is sent the notice `shutting down` through `Server.Reply`. -/
def Server.Shutdown (s : Server) : Server :=
  s.clients.byNick.foldl
    (fun s entry =>
      (Client.Reply s entry.2
        (Reply.RplPrivMsg s.name (s.clientAt entry.2).Nick "shutting down")).1)
    s

/-- The command types of server.go:389-746: they have a `HandleServer` method, no
`HandleRegServer` method, and the `PreHandleServer` of the embedded `BaseCommand`.
Each is kept with the fields its handler reads. -/
inductive SessionCommand
  | JoinCommand (base : BaseCommand) (channels : List (Name × Text)) (zero : Bool)
  | PartCommand (base : BaseCommand) (channels : List Name) (message : Text)
  | TopicCommand (base : BaseCommand) (channel : Name) (setTopic : Bool) (topic : Text)
  | PrivMsgCommand (base : BaseCommand) (target : Name) (message : Text)
  | WhoisCommand (base : BaseCommand) (masks : List Name)
  | WhoCommand (msg : WhoCommand)
  | OperCommand (base : BaseCommand) (hash : Option (List UInt8)) (err : Option String)
  | AwayCommand (base : BaseCommand) (text : Text)
  | IsOnCommand (base : BaseCommand) (nicks : List Name)
  | NoticeCommand (base : BaseCommand) (target : Name) (message : Text)
  | KickCommand (base : BaseCommand) (kicks : List (Name × Name)) (comment : Text)
  | ListCommand (msg : ListCommand)
  | NamesCommand (msg : NamesCommand)
  | VersionCommand (base : BaseCommand) (target : Name)
  | InviteCommand (base : BaseCommand) (nickname : Name) (channel : Name)
  | TimeCommand (base : BaseCommand) (target : Name)
  | KillCommand (msg : KillCommand)
  | WhoWasCommand (base : BaseCommand) (nicknames : List Name) (count : Nat)
  deriving DecidableEq, Repr

/-- The embedded `BaseCommand` of a command of server.go:389-746. -/
def SessionCommand.base : SessionCommand → BaseCommand
  | .JoinCommand b _ _ => b
  | .PartCommand b _ _ => b
  | .TopicCommand b _ _ _ => b
  | .PrivMsgCommand b _ _ => b
  | .WhoisCommand b _ => b
  | .WhoCommand msg => msg.base
  | .OperCommand b _ _ => b
  | .AwayCommand b _ => b
  | .IsOnCommand b _ => b
  | .NoticeCommand b _ _ => b
  | .KickCommand b _ _ => b
  | .ListCommand msg => msg.base
  | .NamesCommand msg => msg.base
  | .VersionCommand b _ => b
  | .InviteCommand b _ _ => b
  | .TimeCommand b _ => b
  | .KillCommand msg => msg.base
  | .WhoWasCommand b _ _ => b

/-- The method `SetClient` of a command of server.go:389-746. -/
def SessionCommand.SetClient (cmd : SessionCommand) (client : ClientId) : SessionCommand :=
  match cmd with
  | .JoinCommand b x y => .JoinCommand { b with client := client } x y
  | .PartCommand b x y => .PartCommand { b with client := client } x y
  | .TopicCommand b x y z => .TopicCommand { b with client := client } x y z
  | .PrivMsgCommand b x y => .PrivMsgCommand { b with client := client } x y
  | .WhoisCommand b x => .WhoisCommand { b with client := client } x
  | .WhoCommand msg => .WhoCommand { msg with base := { msg.base with client := client } }
  | .OperCommand b x y => .OperCommand { b with client := client } x y
  | .AwayCommand b x => .AwayCommand { b with client := client } x
  | .IsOnCommand b x => .IsOnCommand { b with client := client } x
  | .NoticeCommand b x y => .NoticeCommand { b with client := client } x y
  | .KickCommand b x y => .KickCommand { b with client := client } x y
  | .ListCommand msg => .ListCommand { msg with base := { msg.base with client := client } }
  | .NamesCommand msg => .NamesCommand { msg with base := { msg.base with client := client } }
  | .VersionCommand b x => .VersionCommand { b with client := client } x
  | .InviteCommand b x y => .InviteCommand { b with client := client } x y
  | .TimeCommand b x => .TimeCommand { b with client := client } x
  | .KillCommand msg => .KillCommand { msg with base := { msg.base with client := client } }
  | .WhoWasCommand b x y => .WhoWasCommand { b with client := client } x y

/-- The method `HandleServer` of a command of server.go:389-746. -/
def SessionCommand.HandleServer (cmd : SessionCommand) (s : Server) : Server :=
  match cmd with
  | .JoinCommand b channels zero =>
    Ergonomadic.JoinCommand.HandleServer s b.client channels zero
  | .PartCommand b channels message =>
    Ergonomadic.PartCommand.HandleServer s b.client channels message
  | .TopicCommand b channel setTopic topic =>
    Ergonomadic.TopicCommand.HandleServer s b.client channel setTopic topic
  | .PrivMsgCommand b target message =>
    Ergonomadic.PrivMsgCommand.HandleServer s b.client target message
  | .WhoisCommand b masks => Ergonomadic.WhoisCommand.HandleServer s b.client masks
  | .WhoCommand msg =>
    Ergonomadic.WhoCommand.HandleServer Name.IsChannel ClientLookupSet.FindAll s msg
  | .OperCommand b hash err => Ergonomadic.OperCommand.HandleServer s b.client hash err
  | .AwayCommand b text => Ergonomadic.AwayCommand.HandleServer s b.client text
  | .IsOnCommand b nicks => Ergonomadic.IsOnCommand.HandleServer s b.client nicks
  | .NoticeCommand b target message =>
    Ergonomadic.NoticeCommand.HandleServer s b.client target message
  | .KickCommand b kicks comment =>
    Ergonomadic.KickCommand.HandleServer s b.client kicks comment
  | .ListCommand msg => Ergonomadic.ListCommand.HandleServer s msg
  | .NamesCommand msg => Ergonomadic.NamesCommand.HandleServer s msg
  | .VersionCommand b target => Ergonomadic.VersionCommand.HandleServer s b.client target
  | .InviteCommand b nickname channel =>
    Ergonomadic.InviteCommand.HandleServer s b.client nickname channel
  | .TimeCommand b target => Ergonomadic.TimeCommand.HandleServer s b.client target
  | .KillCommand msg => Ergonomadic.KillCommand.HandleServer s msg
  | .WhoWasCommand b nicknames count =>
    Ergonomadic.WhoWasCommand.HandleServer s b.client nicknames count

/-- The command types of `irc/server.go` and `irc/client.go`: the ones with a
registration handler, the liveness commands and MOTD, with the fields the handlers
read, and, under `Session`, the command types of server.go:389-746.  `flags` of
`RFC2812UserCommand` is the value of `msg.Flags()`. -/
inductive Command
  | PassCommand (base : BaseCommand) (err : Option String)
  | ProxyCommand (base : BaseCommand) (hostname : Name)
  | RFC1459UserCommand (base : BaseCommand) (username : Name) (realname : Text)
  | RFC2812UserCommand (base : BaseCommand) (username : Name) (realname : Text)
      (flags : List UserMode)
  | QuitCommand (base : BaseCommand) (message : Text) (reason : Text)
  | PingCommand (base : BaseCommand) (server : Name)
  | PongCommand (base : BaseCommand)
  | IdleCommand (base : BaseCommand)
  | MOTDCommand (base : BaseCommand)
  | Session (cmd : SessionCommand)
  deriving DecidableEq, Repr

/-- The embedded `BaseCommand` of a command. -/
def Command.base : Command → BaseCommand
  | .PassCommand b _ => b
  | .ProxyCommand b _ => b
  | .RFC1459UserCommand b _ _ => b
  | .RFC2812UserCommand b _ _ _ => b
  | .QuitCommand b _ _ => b
  | .PingCommand b _ => b
  | .PongCommand b => b
  | .IdleCommand b => b
  | .MOTDCommand b => b
  | .Session cmd => cmd.base

/-- The method `Client()` of the interface `Command`. -/
def Command.Client (cmd : Command) : ClientId := cmd.base.client

/-- The method `Code()` of the interface `Command`. -/
def Command.Code (cmd : Command) : String := cmd.base.code

/-- The method `SetClient` of the interface `Command`. -/
def Command.SetClient (cmd : Command) (client : ClientId) : Command :=
  match cmd with
  | .PassCommand b e => .PassCommand { b with client := client } e
  | .ProxyCommand b h => .ProxyCommand { b with client := client } h
  | .RFC1459UserCommand b u r => .RFC1459UserCommand { b with client := client } u r
  | .RFC2812UserCommand b u r f => .RFC2812UserCommand { b with client := client } u r f
  | .QuitCommand b m r => .QuitCommand { b with client := client } m r
  | .PingCommand b x => .PingCommand { b with client := client } x
  | .PongCommand b => .PongCommand { b with client := client }
  | .IdleCommand b => .IdleCommand { b with client := client }
  | .MOTDCommand b => .MOTDCommand { b with client := client }
  | .Session cmd => .Session (cmd.SetClient client)

/-- The method `PassCommand.HandleRegServer` (server.go:279). -/
def PassCommand.HandleRegServer (s : Server) (client : ClientId) (err : Option String) :
    Server :=
  if err.isSome then
    let s := Client.Numeric s client Reply.ErrPasswdMismatch
    Client.Quit s client CONN_BAD_PASSWORD CONN_BAD_PASSWORD
  else s.modifyClient client (fun cl => { cl with authorized := true })

/-- The method `ProxyCommand.HandleRegServer` (server.go:290). -/
def ProxyCommand.HandleRegServer (s : Server) (client : ClientId) (hostname : Name) : Server :=
  s.modifyClient client (fun cl => { cl with hostname := hostname })

/-- The method `UserCommand.setUserInfo` (server.go:321). -/
def UserCommand.setUserInfo (s : Server) (client : ClientId) (username : Name)
    (realname : Text) : Server :=
  let s :=
    if (s.clientAt client).capState == CapState.CapNegotiating then
      s.modifyClient client (fun cl => { cl with capState := CapState.CapNegotiated })
    else s
  let s := { s with clients := s.clients.Remove client (s.clientAt client) }
  let s := s.modifyClient client (fun cl => { cl with username := username, realname := realname })
  let s := { s with clients := s.clients.Add client (s.clientAt client) }
  Server.tryRegister s client

/-- The method `RFC1459UserCommand.HandleRegServer` (server.go:294). -/
def RFC1459UserCommand.HandleRegServer (s : Server) (client : ClientId) (username : Name)
    (realname : Text) : Server :=
  if !(s.clientAt client).authorized then
    let s := Client.Numeric s client Reply.ErrPasswdMismatch
    Client.Quit s client CONN_BAD_PASSWORD CONN_BAD_PASSWORD
  else UserCommand.setUserInfo s client username realname

/-- The method `RFC2812UserCommand.HandleRegServer` (server.go:304). -/
def RFC2812UserCommand.HandleRegServer (s : Server) (client : ClientId) (username : Name)
    (realname : Text) (flags : List UserMode) : Server :=
  if !(s.clientAt client).authorized then
    let s := Client.Numeric s client Reply.ErrPasswdMismatch
    Client.Quit s client CONN_BAD_PASSWORD CONN_BAD_PASSWORD
  else
    let s :=
      if flags.length > 0 then
        let s := s.modifyClient client (fun cl => { cl with flags := flags.foldl setFlag cl.flags })
        Client.Numeric s client (Reply.RplUModeIs (s.clientAt client).flags)
      else s
    UserCommand.setUserInfo s client username realname

/-- The type assertion `cmd.(RegServerCommand)` of `processCommand` together with the
method `HandleRegServer` it finds: the command types with a `HandleRegServer` method
are `PassCommand`, `ProxyCommand`, `RFC1459UserCommand`, `RFC2812UserCommand` and
`QuitCommand` (server.go:279-336). -/
def Command.HandleRegServer? : Command → Option (Server → Server)
  | .PassCommand b err => some (fun s => PassCommand.HandleRegServer s b.client err)
  | .ProxyCommand b hostname => some (fun s => ProxyCommand.HandleRegServer s b.client hostname)
  | .RFC1459UserCommand b u r => some (fun s => RFC1459UserCommand.HandleRegServer s b.client u r)
  | .RFC2812UserCommand b u r f =>
    some (fun s => RFC2812UserCommand.HandleRegServer s b.client u r f)
  | .QuitCommand b message reason => some (fun s => Client.Quit s b.client message reason)
  | _ => none

/-- The method `BaseCommand.PreHandleServer` (server.go:342). -/
def BaseCommand.PreHandleServer (s : Server) (client : ClientId) : Server :=
  Client.Touch (Client.Active s client) client

/-- The method `PreHandleServer` of a command (server.go:342-362): the one of the
embedded `BaseCommand`, overridden by `PingCommand`, `PongCommand`, `IdleCommand` and
`QuitCommand`. -/
def Command.PreHandleServer (cmd : Command) (s : Server) : Server :=
  match cmd with
  | .PingCommand b _ => Client.Touch s b.client
  | .PongCommand b => Client.Touch s b.client
  | .IdleCommand _ => s
  | .QuitCommand _ _ _ => s
  | _ => BaseCommand.PreHandleServer s cmd.Client

/-- The type assertion `cmd.(ServerCommand)` of `processCommand` together with the
method `HandleServer` it finds (server.go:368-748); `ProxyCommand` has no
`HandleServer` method. -/
def Command.HandleServer? : Command → Option (Server → Server)
  | .PassCommand b _ => some (fun s => Client.Numeric s b.client Reply.ErrAlreadyRegistered)
  | .PingCommand b server =>
    some (fun s => (Client.Reply s b.client (Reply.RplPong (s.clientAt b.client).Id server)).1)
  | .PongCommand _ => some (fun s => s)
  | .RFC1459UserCommand b _ _ =>
    some (fun s => Client.Numeric s b.client Reply.ErrAlreadyRegistered)
  | .RFC2812UserCommand b _ _ _ =>
    some (fun s => Client.Numeric s b.client Reply.ErrAlreadyRegistered)
  | .QuitCommand b message reason => some (fun s => Client.Quit s b.client message reason)
  | .MOTDCommand b => some (fun s => Server.MOTD s b.client)
  | .IdleCommand b => some (fun s => Client.Idle s b.client)
  | .Session cmd => some cmd.HandleServer
  | .ProxyCommand _ _ => none

/-- The method `Server.processCommand` (server.go:124). -/
def Server.processCommand (s : Server) (cmd : Command) : Server :=
  let client := cmd.Client
  if !(s.clientAt client).registered then
    match cmd.HandleRegServer? with
    | none => Client.Quit s client CONN_UNEXPECTED CONN_UNEXPECTED
    | some handleRegServer => handleRegServer s
  else
    match cmd.HandleServer? with
    | none => Client.Numeric s client (Reply.ErrUnknownCommand cmd.Code)
    | some handleServer => handleServer (cmd.PreHandleServer s)

/-! ## The event loop (`Server.Run`, server.go:157) -/

/-- Modelled from the spec: the handlers of the nickname and capability commands are
outside the sources at hand; the events `setNickname`, `changeNickname` and
`tryRegister` stand for the former, through the methods by which they enter the
sources (`Client.SetNickname`, `Client.ChangeNickname`, `Server.tryRegister`); the
events `capBegin` and `capEnd` stand for the latter, the start and the end of a
capability negotiation.  `shutdown`, `newConn` and `command` are the cases of the
`select` in `Server.Run`; `tick` lets the clock advance between two events. -/
inductive Event
  | newConn
  | command (cmd : Command)
  | setNickname (client : ClientId) (nickname : Name)
  | changeNickname (client : ClientId) (nickname : Name)
  | tryRegister (client : ClientId)
  | capBegin (client : ClientId)
  | capEnd (client : ClientId)
  | shutdown
  | tick (seconds : Nat)
  deriving DecidableEq, Repr

/-- Modelled from the spec: the start of a capability negotiation; the negotiation state
of the client becomes `CapNegotiating`, which holds back its registration. -/
def Client.capBegin (s : Server) (client : ClientId) : Server :=
  s.modifyClient client (fun cl => { cl with capState := CapState.CapNegotiating })

/-- Modelled from the spec: the end of a capability negotiation; the negotiation state of
the client becomes `CapNegotiated` and its registration is attempted. -/
def Client.capEnd (s : Server) (client : ClientId) : Server :=
  let s := s.modifyClient client (fun cl => { cl with capState := CapState.CapNegotiated })
  s.tryRegister client

/-- One turn of the loop of `Server.Run`. -/
def Server.handle (s : Server) : Event → Server
  | .newConn => (NewClient s).1
  | .command cmd => s.processCommand cmd
  | .setNickname client nickname => Client.SetNickname s client nickname
  | .changeNickname client nickname => Client.ChangeNickname s client nickname
  | .tryRegister client => s.tryRegister client
  | .capBegin client => Client.capBegin s client
  | .capEnd client => Client.capEnd s client
  | .shutdown => s.Shutdown
  | .tick seconds => { s with now := s.now + seconds }

/-- Modelled from the spec: the nickname handlers are outside the sources at hand; a
nickname is given to a client only when it is non-empty and not in use (the nick-in-use
reply is sent otherwise).  A capability negotiation starts before registration and
ends when one is in progress.  Every event names a client that has been allocated. -/
def Server.admits (s : Server) : Event → Bool
  | .newConn => true
  | .command cmd => decide (cmd.Client < s.nextClient)
  | .setNickname client nickname =>
    decide (client < s.nextClient) && (nickname != "") && (s.clients.Get nickname).isNone
  | .changeNickname client nickname =>
    decide (client < s.nextClient) && (nickname != "") && (s.clients.Get nickname).isNone
  | .tryRegister client => decide (client < s.nextClient)
  | .capBegin client => decide (client < s.nextClient) && !(s.clientAt client).registered
  | .capEnd client =>
    decide (client < s.nextClient) && ((s.clientAt client).capState == CapState.CapNegotiating)
  | .shutdown => true
  | .tick _ => true

/-- The state `NewServer` returns (server.go:47) before any connection is accepted: no
client has been allocated, the registry is empty. -/
def Server.Initial (s : Server) : Prop :=
  s.nextClient = 0 ∧ s.clients.byNick = [] ∧ ∀ c, s.clientAt c = default

/-- The states of the event loop: those `Server.Run` reaches from an initial state. -/
inductive Reachable : Server → Prop
  | init (s : Server) : s.Initial → Reachable s
  | step (s : Server) (e : Event) : Reachable s → s.admits e = true → Reachable (s.handle e)

/-- The loop of `Server.Run` over a list of events. -/
def Server.Run (s : Server) (events : List Event) : Server := events.foldl Server.handle s

/-- A server as `NewServer` returns it, with an empty channel index: named
`irc.example`, no password, the MOTD file `motd` holding the bytes `file`. -/
def sampleServer (file : GoString) : Server :=
  { channels := [], clients := { byNick := [] }, ctime := 0, motdFile := "motd",
    name := "irc.example", password := none, whoWas := { buffer := [], capacity := 100 },
    clientAt := fun _ => default, channelAt := fun _ => default, nextClient := 0,
    nextChannel := 0, now := 0, motdSource := some file }

/-! ## The read loop of a client (`Client.run`, client.go:62) -/

/-- The errors of `ParseCommand` the read loop tells apart (client.go:77-83). -/
inductive ParseError
  | ErrParseCommand
  | NotEnoughArgsError
  | other
  deriving DecidableEq, Repr

/-- Modelled from the spec: the constructor `NewProxyCommand` is outside the sources at
hand; it yields the proxy-hostname command for a hostname. -/
def NewProxyCommand (hostname : Name) : Command :=
  .ProxyCommand { client := 0, code := "PROXY" } hostname

/-- Modelled from the spec: the constructor `NewQuitCommand` is outside the sources at
hand; it yields the quit command with a message and a reason. -/
def NewQuitCommand (message reason : Text) : Command :=
  .QuitCommand { client := 0, code := "QUIT" } message reason

/-- The variables of `Client.run` and what the loop has done so far: `err` (`none` is
`nil`), the lines `client.conn.Read()` has yet to return (a read with none left fails),
the commands passed to `client.send`, oldest first, and the messages passed to
`client.server.Notice`. -/
structure RunState where
  err : Option String
  input : List String
  sent : List Command
  notices : List String
  deriving DecidableEq, Repr

/-- The method `Client.send` (client.go:100), recorded in the list of sent commands. -/
def Client.send (client : ClientId) (st : RunState) (command : Command) : RunState :=
  { st with sent := st.sent ++ [command.SetClient client] }

/-- The body of the loop of `Client.run` (client.go:73-96).  `parse` is `ParseCommand`
and `check` is what the branch for a `checkPasswordCommand` does to the command
(`LoadPassword`, then `CheckPassword`), both outside the sources at hand. -/
def Client.runBody (parse : String → Except ParseError Command) (check : Command → Command)
    (client : ClientId) (st : RunState) : RunState :=
  match st.input with
  | [] =>
    -- `line, err = client.conn.Read()` fails
    Client.send client { st with err := some "read" }
      (NewQuitCommand CONN_CLOSED CONN_CLOSED)
  | line :: rest =>
    match parse line with
    | .error e =>
      -- `command, err = ParseCommand(line)` fails: `err` is set, then `continue`
      let st := { st with err := some "parse", input := rest }
      match e with
      | .ErrParseCommand => { st with notices := st.notices ++ ["failed to parse command"] }
      | _ => st
    | .ok command =>
      Client.send client { st with err := none, input := rest } (check command)

/-- The loop `for err == nil { ... }` of `Client.run` (client.go:72); the first
argument bounds the number of iterations. -/
def Client.runLoop (parse : String → Except ParseError Command) (check : Command → Command)
    (client : ClientId) : Nat → RunState → RunState
  | 0, st => st
  | fuel + 1, st =>
    if st.err = none then
      Client.runLoop parse check client fuel (Client.runBody parse check client st)
    else st

/-- The method `Client.run` (client.go:62) on a transport that yields the lines `lines`
and then fails: the proxy-hostname command is sent first, then the loop runs.  Every
iteration reads a line or ends the loop, so `len(lines) + 1` iterations are enough
(`run_stops`). -/
def Client.run (parse : String → Except ParseError Command) (check : Command → Command)
    (client : ClientId) (hostname : Name) (lines : List String) : RunState :=
  Client.runLoop parse check client (lines.length + 1)
    (Client.send client { err := none, input := lines, sent := [], notices := [] }
      (NewProxyCommand hostname))

/-- A `ParseCommand` for the examples: `PING <server>` and `QUIT` parse, everything
else is malformed. -/
def sampleParse (line : String) : Except ParseError Command :=
  if line = "QUIT" then .ok (.QuitCommand { client := 0, code := "QUIT" } "" "")
  else if line = "PING irc" then .ok (.PingCommand { client := 0, code := "PING" } "irc")
  else .error .ErrParseCommand

/-! ## Notions used to state the properties -/

/-- Successive calls of `IRCConn.Write`, errors ignored as the callers do. -/
def IRCConn.WriteAll (socket : IRCConn) (lines : List Reply) : IRCConn :=
  lines.foldl (fun k line => (k.Write line).1) socket

/-- A client after the lines `lines` have been passed to `Client.Reply` one by one. -/
def Client.wrote (cl : Client) (lines : List Ergonomadic.Reply) : Client :=
  { cl with conn := cl.conn.WriteAll lines }

/-- The replies `Server.MOTD` sends to a client, in order. -/
def Server.motdReplies (s : Server) : List Reply :=
  if s.motdFile = "" then [Reply.ErrNoMOTD]
  else
    match s.motdSource with
    | none => [Reply.ErrNoMOTD]
    | some file =>
      [Reply.RplMOTDStart]
        ++ ((scanLines file).map (fun line => (motdLine line).map Reply.RplMOTD)).flatten
        ++ [Reply.RplMOTDEnd]

/-- A client without its channel set and without the lines written to its transport:
what is left is its identity, its flags, its timers and whether its transport is
closed. -/
def Client.view (cl : Client) : Client :=
  { cl with channels := [], conn := { cl.conn with written := [] } }

/-- Two states that differ at most in the channels (index, members, the channel sets of
the clients), the history buffer and the lines written to the transports. -/
def Server.Frame (s t : Server) : Prop :=
  t.clients = s.clients ∧ t.nextClient = s.nextClient ∧ t.now = s.now ∧ t.name = s.name ∧
  t.motdFile = s.motdFile ∧ t.motdSource = s.motdSource ∧ t.password = s.password ∧
  ∀ c, (t.clientAt c).view = (s.clientAt c).view

/-- A client without its channel set, the lines written to its transport, its user modes
and its away message: what the handlers of server.go:389-746 leave as it is. -/
def Client.ident (cl : Client) : Client :=
  { cl.view with flags := [], awayMessage := "" }

/-- Two states that differ at most in the channels, the history buffer, the lines written
to the transports, and the user modes and away messages of the clients. -/
def Server.Talk (s t : Server) : Prop :=
  t.clients = s.clients ∧ t.nextClient = s.nextClient ∧ t.now = s.now ∧ t.name = s.name ∧
  t.motdFile = s.motdFile ∧ t.motdSource = s.motdSource ∧ t.password = s.password ∧
  ∀ c, (t.clientAt c).ident = (s.clientAt c).ident

/-- The registry invariant, for a registry `reg`, the number `next` of allocated clients,
the nickname `nick c` of every client and whether it has quit: every entry of the
registry is an allocated client with a nickname, filed under that nickname in
canonical form; and every allocated client that has a nickname and has not quit is in
the registry under its nickname. -/
def RegInv (reg : ClientLookupSet) (next : ClientId) (nick : ClientId → Name)
    (quit : ClientId → Bool) : Prop :=
  (∀ k c, reg.byNick.get k = some c → c < next ∧ nick c ≠ "" ∧ k = (nick c).ToLower) ∧
  (∀ c, c < next → quit c = false → nick c ≠ "" → reg.Get (nick c) = some c)

/-- The invariants of the event loop: a transport is closed exactly when its client has
quit, and the registry invariant holds. -/
def Server.Inv (s : Server) : Prop :=
  (∀ c, (s.clientAt c).conn.closed = (s.clientAt c).hasQuit) ∧
  RegInv s.clients s.nextClient (fun c => (s.clientAt c).nick) (fun c => (s.clientAt c).hasQuit)

/-- What `Client.Quit` makes of the client it is called on, its channel set apart:
flagged as quit, sent the error reply, its timers stopped and its transport closed. -/
def Client.quitted (cl : Client) (reason : Text) : Client :=
  { cl with
    hasQuit := true
    idleTimer := cl.idleTimer.map Timer.Stop
    quitTimer := cl.quitTimer.map Timer.Stop
    conn := ((cl.conn.Write (Reply.RplError reason)).1).Close }

/-- Two states with the same registry, the same allocated clients and, for every
client, the same nickname, quit flag and transport state: the invariants of the event
loop do not tell them apart. -/
def Server.Same (s t : Server) : Prop :=
  t.clients = s.clients ∧ t.nextClient = s.nextClient ∧
  ∀ c, (t.clientAt c).nick = (s.clientAt c).nick ∧
    (t.clientAt c).hasQuit = (s.clientAt c).hasQuit ∧
    (t.clientAt c).conn.closed = (s.clientAt c).conn.closed

/-- The guard of `Server.tryRegister` (server.go:206-207), negated: the client is not
registered, has a nickname and a username, and is not negotiating capabilities. -/
def Client.canRegister (cl : Client) : Bool :=
  !(cl.registered || !cl.HasNick || !cl.HasUsername || cl.capState == CapState.CapNegotiating)

/-- The replies of a registration, in order: welcome, your-host, created, my-info, then
the message of the day. -/
def Server.welcomeReplies (s : Server) : List Reply :=
  [Reply.RplWelcome, Reply.RplYourHost, Reply.RplCreated, Reply.RplMyInfo] ++ s.motdReplies

/-- What registration asks of a client besides not being registered yet (server.go:206):
a nickname, a username, and no capability negotiation in progress. -/
def Client.identified (cl : Client) : Bool :=
  cl.HasNick && cl.HasUsername && (cl.capState != CapState.CapNegotiating)

/-- A step that changes the `registered` flag of no client and takes the nickname from
no client. -/
def Server.Keeps (s t : Server) : Prop :=
  ∀ c, (t.clientAt c).registered = (s.clientAt c).registered ∧
    ((s.clientAt c).HasNick = true → (t.clientAt c).HasNick = true)

/-- A step under which the `registered` flag of every client stays set once it is set
(and the client keeps a nickname), and is set only for a client that then has a
nickname and a username and is not negotiating capabilities. -/
def Server.RegStep (s t : Server) : Prop :=
  ∀ c, ((s.clientAt c).registered = true →
      (t.clientAt c).registered = true ∧
      ((s.clientAt c).HasNick = true → (t.clientAt c).HasNick = true)) ∧
    ((s.clientAt c).registered = false → (t.clientAt c).registered = true →
      (t.clientAt c).identified = true)

/-- Whether the event loop can meet the events `events` one after the other, starting
in the state `s`. -/
def Server.admitsAll (s : Server) : List Event → Bool
  | [] => true
  | e :: events => s.admits e && (s.handle e).admitsAll events

/-- A session: a client connects, is given the nickname `alice` and declares its
identity, which registers it. -/
def registration : List Event :=
  [Event.newConn, Event.setNickname 0 "alice",
   Event.command (Command.RFC1459UserCommand { client := 0, code := "USER" } "a" "Alice")]

/-- The server after a client has connected. -/
def connectedServer : Server := (sampleServer []).Run [Event.newConn]

/-- The server after a client has connected and registered as `alice`. -/
def registeredServer : Server := (sampleServer []).Run registration

/-- The commands whose `PreHandleServer` only touches the timers (server.go:348-354). -/
def Command.touchesOnly : Command → Bool
  | .PingCommand _ _ => true
  | .PongCommand _ => true
  | _ => false

/-- The commands whose `PreHandleServer` is a no-op (server.go:356-362). -/
def Command.hookIsNoOp : Command → Bool
  | .IdleCommand _ => true
  | .QuitCommand _ _ _ => true
  | _ => false

/-! ## States of the examples -/

/-- A registered client of the examples below: nickname, channel set and user modes. -/
def sampleClient (nick : Name) (channels : List ChanId) (flags : List UserMode) : Client :=
  { (default : Client) with
    authorized := true
    channels := channels
    flags := flags
    hostname := "host"
    nick := nick
    realname := nick
    registered := true
    username := nick }

/-- A server with four registered clients and three channels: `alice` (0) and `bob` (1)
are in `#a` (0) and `#b` (1), `carol` (2), a server operator, is in `#b`, and `dave` (3)
is alone in the private channel `#secret` (2). -/
def chatServer : Server :=
  { sampleServer [] with
    channels := [("#a", 0), ("#b", 1), ("#secret", 2)]
    clients := { byNick := [("alice", 0), ("bob", 1), ("carol", 2), ("dave", 3)] }
    nextClient := 4
    nextChannel := 3
    clientAt := fun c =>
      match c with
      | 0 => sampleClient "alice" [0, 1] []
      | 1 => sampleClient "bob" [0, 1] []
      | 2 => sampleClient "carol" [1] [UserMode.Operator]
      | 3 => sampleClient "dave" [2] []
      | _ => default
    channelAt := fun ch =>
      match ch with
      | 0 => { (default : Channel) with name := "#a", members := [(0, []), (1, [])] }
      | 1 => { (default : Channel) with name := "#b", members := [(0, []), (1, []), (2, [])] }
      | 2 => { (default : Channel) with
               name := "#secret", flags := [ChannelMode.Private], members := [(3, [])] }
      | _ => default }

/-- The reply of `ListCommand.HandleServer` for one named channel (server.go:648-653),
for a requester that is an operator (`op`) or not. -/
def ListCommand.entry (s : Server) (op : Bool) (chname : Name) : Reply :=
  match ChannelNameMap.Get s.channels chname with
  | none => Reply.ErrNoSuchChannel chname
  | some channel =>
    if !op && (s.channelAt channel).isPrivate then Reply.ErrNoSuchChannel chname
    else Reply.RplList channel

/-- The replies `ListCommand.HandleServer` sends to the requester, in order. -/
def ListCommand.replies (s : Server) (msg : ListCommand) : List Reply :=
  if msg.target != "" then [Reply.ErrNoSuchServer msg.target]
  else
    (if msg.channels.length == 0 then
      s.channels.filterMap (fun entry =>
        if !(s.clientAt msg.base.client).isOperator && (s.channelAt entry.2).isPrivate then none
        else some (Reply.RplList entry.2))
    else
      msg.channels.map (ListCommand.entry s (s.clientAt msg.base.client).isOperator))
    ++ [Reply.RplListEnd s.name]

/-- The replies `WhoCommand.HandleServer` sends for the members of one channel when no
member is filtered out. -/
def whoReplies (s : Server) (channel : ChanId) : List Reply :=
  (s.channelAt channel).members.map (fun member => Reply.RplWhoReply (some channel) member.1)

/-- Two states in which every client has the same `authorized` flag, the same username
and the same `registered` flag. -/
def Server.SameAuth (s t : Server) : Prop :=
  ∀ c, (t.clientAt c).authorized = (s.clientAt c).authorized ∧
    (t.clientAt c).username = (s.clientAt c).username ∧
    (t.clientAt c).registered = (s.clientAt c).registered

/-- The authorization invariant of the event loop: a client that is registered, or that
has a username, is authorized. -/
def Server.AuthInv (s : Server) : Prop :=
  ∀ c, ((s.clientAt c).registered = true → (s.clientAt c).authorized = true) ∧
    ((s.clientAt c).HasUsername = true → (s.clientAt c).authorized = true)

/-- A server with a password configured, after one client has connected. -/
def lockedServer : Server :=
  ({ sampleServer [] with password := some [1] } : Server).Run [Event.newConn]

/-- A file with the lines `lines`, each ended by a newline. -/
def joinLines (lines : List GoString) : GoString :=
  (lines.map (fun line => line ++ [10])).flatten

/-- The texts passed to `RplMOTD` among the lines written to a transport, in order. -/
def motdTexts (written : List Reply) : List GoString :=
  written.filterMap (fun reply =>
    match reply with
    | .RplMOTD text => some text
    | _ => none)

/-- A MOTD file of two lines: 65536 times the byte `x`, then `ok`. -/
def longMotd : GoString := List.replicate 65536 120 ++ 10 :: [111, 107, 10]

/-- The server after the registered client `alice` has joined the channel `#a`, which
the join creates. -/
def joinedServer : Server :=
  registeredServer.handle (Event.command (Command.Session
    (SessionCommand.JoinCommand { client := 0, code := "JOIN" } [("#a", "")] false)))

/-- The server after `alice`, a member of `#a`, has sent QUIT. -/
def departedServer : Server :=
  joinedServer.handle
    (Event.command (Command.QuitCommand { client := 0, code := "QUIT" } "bye" "bye"))

/-- A session in which a client is given the nickname `alice`, sends PING before it has
registered, and has its USER command processed after that. -/
def lateUser : List Event :=
  [Event.newConn, Event.setNickname 0 "alice",
   Event.command (Command.PingCommand { client := 0, code := "PING" } "irc"),
   Event.command (Command.RFC1459UserCommand { client := 0, code := "USER" } "a" "Alice")]

/-! ## Theorems -/

theorem motdLoop_concat (fuel : Nat) (line : GoString) :
    (motdLoop fuel line).1.flatten ++ (motdLoop fuel line).2 = line := by
  induction fuel generalizing line with
  | zero => simp [motdLoop]
  | succ k ih =>
    unfold motdLoop
    split
    · simp only [List.flatten_cons, List.append_assoc]
      rw [ih, List.take_append_drop]
    · simp

theorem motdLoop_chunks (fuel : Nat) (line : GoString) :
    ∀ x ∈ (motdLoop fuel line).1, x.length = MOTD_MAX_LINE_LENGTH := by
  induction fuel generalizing line with
  | zero => simp [motdLoop]
  | succ k ih =>
    unfold motdLoop
    split
    · rename_i h
      intro x hx
      simp only [List.mem_cons] at hx
      rcases hx with rfl | hx
      · rw [List.length_take]; omega
      · exact ih _ x hx
    · simp

theorem motdLoop_size (fuel : Nat) (line : GoString) :
    (motdLoop fuel line).1.length * MOTD_MAX_LINE_LENGTH + (motdLoop fuel line).2.length
      = line.length := by
  induction fuel generalizing line with
  | zero => simp [motdLoop]
  | succ k ih =>
    unfold motdLoop
    split
    · rename_i h
      have := ih (line.drop MOTD_MAX_LINE_LENGTH)
      simp only [List.length_cons, List.length_drop] at this ⊢
      rw [Nat.add_mul]; omega
    · simp

/-- The inner loop is left by its own condition, never by the iteration bound:
with `len(line)` iterations available the remaining line is at most 80 long. -/
theorem motdLoop_exit (fuel : Nat) (line : GoString) (h : line.length ≤ fuel) :
    (motdLoop fuel line).2.length ≤ MOTD_MAX_LINE_LENGTH := by
  induction fuel generalizing line with
  | zero => simp at h; simp [motdLoop, h]
  | succ k ih =>
    unfold motdLoop
    split
    · rename_i hlt
      apply ih
      rw [List.length_drop]
      simp only [MOTD_MAX_LINE_LENGTH] at hlt ⊢
      omega
    · rename_i hlt
      simpa using hlt

theorem motdLoop_rest_pos (fuel : Nat) (line : GoString) (h : 0 < line.length) :
    0 < (motdLoop fuel line).2.length := by
  induction fuel generalizing line with
  | zero => simpa [motdLoop] using h
  | succ k ih =>
    unfold motdLoop
    split
    · rename_i hlt
      apply ih
      rw [List.length_drop]
      omega
    · simpa using h

/-- The texts the body of the scanner loop passes to `RplMOTD` for a line, concatenated
in emission order, are the line. -/
theorem motdLine_flatten (line : GoString) : (motdLine line).flatten = line := by
  unfold motdLine
  split
  · simp only []
    split
    · rw [List.flatten_append]
      simpa using motdLoop_concat line.length line
    · rename_i h0
      have hc := motdLoop_concat line.length line
      have : (motdLoop line.length line).2 = [] := by
        cases hr : (motdLoop line.length line).2 with
        | nil => rfl
        | cons a t => rw [hr] at h0; simp at h0
      rw [this, List.append_nil] at hc
      exact hc
  · simp

/-- The shape of the output for a long line: the full chunks cut by the inner loop,
then the non-empty remainder. -/
theorem motdLine_long (line : GoString) (h : line.length > MOTD_MAX_LINE_LENGTH) :
    motdLine line = (motdLoop line.length line).1 ++ [(motdLoop line.length line).2] := by
  have hpos := motdLoop_rest_pos line.length line (by omega)
  unfold motdLine
  rw [if_pos h]
  simp only []
  rw [if_pos hpos]

/-- The body of the scanner loop on a line of length n: for n > 80 it passes
ceil(n/80) texts to `RplMOTD`, each but the last of length 80 and the last of length
between 1 and 80 (lengths 80 and 1 for n = 81); for n <= 80 it passes the line. -/
theorem motdLine_count (line : GoString) :
    (line.length ≤ MOTD_MAX_LINE_LENGTH → motdLine line = [line]) ∧
    (line.length > MOTD_MAX_LINE_LENGTH →
      (motdLine line).length = (line.length + 79) / 80 ∧
      ∃ init last, motdLine line = init ++ [last] ∧
        (∀ x ∈ init, x.length = 80) ∧ 1 ≤ last.length ∧ last.length ≤ 80) ∧
    (line.length = 81 → (motdLine line).map List.length = [80, 1]) := by
  have key : line.length > MOTD_MAX_LINE_LENGTH →
      (motdLine line).length = (line.length + 79) / 80 ∧
      ∃ init last, motdLine line = init ++ [last] ∧
        (∀ x ∈ init, x.length = 80) ∧ 1 ≤ last.length ∧ last.length ≤ 80 := by
    intro h
    have hsz := motdLoop_size line.length line
    have hex := motdLoop_exit line.length line (Nat.le_refl _)
    have hpos := motdLoop_rest_pos line.length line (by omega)
    have hch := motdLoop_chunks line.length line
    simp only [MOTD_MAX_LINE_LENGTH] at hsz hex hch
    refine ⟨?_, (motdLoop line.length line).1, (motdLoop line.length line).2,
      motdLine_long line h, hch, hpos, hex⟩
    rw [motdLine_long line h, List.length_append, List.length_singleton]
    omega
  refine ⟨?_, key, ?_⟩
  · intro h
    unfold motdLine
    rw [if_neg (by omega)]
  · intro h
    obtain ⟨hlen, init, last, heq, hinit, h1, h80⟩ := key (by simp [MOTD_MAX_LINE_LENGTH, h])
    rw [heq, List.length_append, List.length_singleton, h] at hlen
    have hflat : (init ++ [last]).flatten = line := heq ▸ motdLine_flatten line
    have hl := congrArg List.length hflat
    have h1i : init.length = 1 := by omega
    obtain ⟨a, rfl⟩ := List.length_eq_one.mp h1i
    have ha := hinit a (by simp)
    simp [h, ha] at hl
    have hl1 : last.length = 1 := by omega
    simp [heq, ha, hl1]

@[simp] theorem modifyClient_clientAt (s : Server) (c c2 : ClientId) (f : Client → Client) :
    (s.modifyClient c f).clientAt c2 = if c2 = c then f (s.clientAt c) else s.clientAt c2 := by
  simp only [Server.modifyClient, Function.update_apply]

theorem modifyClient_modifyClient (s : Server) (c : ClientId) (f g : Client → Client) :
    (s.modifyClient c f).modifyClient c g = s.modifyClient c (fun cl => g (f cl)) := by
  simp [Server.modifyClient]

theorem modifyClient_id (s : Server) (c : ClientId) (f : Client → Client)
    (h : f (s.clientAt c) = s.clientAt c) : s.modifyClient c f = s := by
  simp [Server.modifyClient, h]

theorem modifyClient_congr (s : Server) (c : ClientId) (f g : Client → Client)
    (h : f (s.clientAt c) = g (s.clientAt c)) : s.modifyClient c f = s.modifyClient c g := by
  simp [Server.modifyClient, h]

/-! ### Writing to a transport -/

theorem write_closed (k : IRCConn) (r : Reply) (h : k.closed = true) :
    k.Write r = (k, some IOError.EOF) := by
  simp [IRCConn.Write, h]

theorem write_open (k : IRCConn) (r : Reply) (h : k.closed = false) :
    k.Write r = ({ k with written := k.written ++ [r] }, none) := by
  simp [IRCConn.Write, h]

theorem writeAll_closed (k : IRCConn) (rs : List Reply) (h : k.closed = true) :
    k.WriteAll rs = k := by
  induction rs with
  | nil => rfl
  | cons r rs ih => simpa [IRCConn.WriteAll, write_closed k r h] using ih

theorem writeAll_open (k : IRCConn) (rs : List Reply) (h : k.closed = false) :
    k.WriteAll rs = { k with written := k.written ++ rs } := by
  induction rs generalizing k with
  | nil => simp [IRCConn.WriteAll]
  | cons r rs ih =>
    have := ih { k with written := k.written ++ [r] } h
    simp only [IRCConn.WriteAll, List.foldl_cons, write_open k r h] at this ⊢
    simpa using this

theorem writeAll_closed_eq (k : IRCConn) (rs : List Reply) : (k.WriteAll rs).closed = k.closed := by
  cases h : k.closed
  · rw [writeAll_open k rs h]; exact h
  · rw [writeAll_closed k rs h]; exact h

theorem writeAll_append (k : IRCConn) (rs ts : List Reply) :
    k.WriteAll (rs ++ ts) = (k.WriteAll rs).WriteAll ts := by
  simp [IRCConn.WriteAll]

theorem reply_eq (s : Server) (c : ClientId) (r : Reply) :
    (Client.Reply s c r).1 = s.modifyClient c (fun cl => cl.wrote [r]) := by
  simp [Client.Reply, IRCConn.WriteAll, Server.modifyClient, Client.wrote]

theorem numeric_eq (s : Server) (c : ClientId) (r : Reply) :
    Client.Numeric s c r = s.modifyClient c (fun cl => cl.wrote [r]) :=
  reply_eq s c r

theorem wrote_nil (cl : Client) : cl.wrote [] = cl := by
  simp [Client.wrote, IRCConn.WriteAll]

theorem wrote_wrote (cl : Client) (rs ts : List Reply) :
    (cl.wrote rs).wrote ts = cl.wrote (rs ++ ts) := by
  simp [Client.wrote, writeAll_append]

theorem numeric_fold_eq (s : Server) (c : ClientId) (rs : List Reply) :
    rs.foldl (fun s r => Client.Numeric s c r) s = s.modifyClient c (fun cl => cl.wrote rs) := by
  induction rs generalizing s with
  | nil => exact (modifyClient_id s c _ (wrote_nil _)).symm
  | cons r rs ih =>
    rw [List.foldl_cons, ih, numeric_eq, modifyClient_modifyClient]
    apply modifyClient_congr
    simp [wrote_wrote]

theorem motd_eq (s : Server) (c : ClientId) :
    Server.MOTD s c = s.modifyClient c (fun cl => cl.wrote s.motdReplies) := by
  unfold Server.MOTD Server.motdReplies
  split
  · exact numeric_eq s c _
  · split
    · exact numeric_eq s c _
    · rename_i lines hl
      have inner : ∀ (ls : List GoString) (t : Server),
          ls.foldl (fun s line =>
            (motdLine line).foldl (fun s text => Client.Numeric s c (Reply.RplMOTD text)) s) t
          = t.modifyClient c (fun cl =>
              cl.wrote (ls.map (fun line => (motdLine line).map Reply.RplMOTD)).flatten) := by
        intro ls
        induction ls with
        | nil => intro t; exact (modifyClient_id t c _ (wrote_nil _)).symm
        | cons l ls ih =>
          intro t
          rw [List.foldl_cons, ih]
          have := numeric_fold_eq t c ((motdLine l).map Reply.RplMOTD)
          rw [List.foldl_map] at this
          rw [this, modifyClient_modifyClient]
          apply modifyClient_congr
          simp [wrote_wrote]
      show Client.Numeric ((scanLines lines).foldl _ (Client.Numeric s c _)) c _ = _
      rw [inner, numeric_eq, numeric_eq, modifyClient_modifyClient, modifyClient_modifyClient]
      apply modifyClient_congr
      simp [wrote_wrote]

/-! ### States that differ in channels, history and written lines only -/

theorem frame_refl (s : Server) : s.Frame s :=
  ⟨rfl, rfl, rfl, rfl, rfl, rfl, rfl, fun _ => rfl⟩

theorem frame_trans {s t u : Server} (h1 : s.Frame t) (h2 : t.Frame u) : s.Frame u := by
  obtain ⟨a1, a2, a3, a4, a5, a6, a7, a8⟩ := h1
  obtain ⟨b1, b2, b3, b4, b5, b6, b7, b8⟩ := h2
  exact ⟨b1.trans a1, b2.trans a2, b3.trans a3, b4.trans a4, b5.trans a5, b6.trans a6,
    b7.trans a7, fun c => (b8 c).trans (a8 c)⟩

theorem frame_symm {s t : Server} (h : s.Frame t) : t.Frame s := by
  obtain ⟨a1, a2, a3, a4, a5, a6, a7, a8⟩ := h
  exact ⟨a1.symm, a2.symm, a3.symm, a4.symm, a5.symm, a6.symm, a7.symm, fun c => (a8 c).symm⟩

theorem frame_modifyClient (s : Server) (c : ClientId) (f : Client → Client)
    (h : (f (s.clientAt c)).view = (s.clientAt c).view) : s.Frame (s.modifyClient c f) := by
  refine ⟨rfl, rfl, rfl, rfl, rfl, rfl, rfl, fun c2 => ?_⟩
  rw [modifyClient_clientAt]
  split
  · rename_i h2; rw [h2]; exact h
  · rfl

theorem view_wrote (cl : Client) (rs : List Reply) : (cl.wrote rs).view = cl.view := by
  simp [Client.view, Client.wrote, writeAll_closed_eq]

theorem view_channels (cl : Client) (chs : List ChanId) :
    ({ cl with channels := chs } : Client).view = cl.view := rfl

theorem frame_reply (s : Server) (c : ClientId) (r : Reply) : s.Frame (Client.Reply s c r).1 := by
  rw [reply_eq]
  exact frame_modifyClient s c _ (view_wrote _ _)

theorem frame_numeric (s : Server) (c : ClientId) (r : Reply) : s.Frame (Client.Numeric s c r) :=
  frame_reply s c r

theorem frame_motd (s : Server) (c : ClientId) : s.Frame (Server.MOTD s c) := by
  rw [motd_eq]
  exact frame_modifyClient s c _ (view_wrote _ _)

theorem frame_whoWas (s : Server) (w : WhoWasList) : s.Frame { s with whoWas := w } :=
  ⟨rfl, rfl, rfl, rfl, rfl, rfl, rfl, fun _ => rfl⟩

/-- A round of replies changes nothing but the lines written to the transports. -/
theorem reply_fold_spec (r : Reply) (l : List ClientId) (s : Server) :
    ∃ w : ClientId → List Reply,
      l.foldl (fun s f => (Client.Reply s f r).1) s
        = { s with clientAt := fun c => (s.clientAt c).wrote (w c) } := by
  induction l generalizing s with
  | nil => exact ⟨fun _ => [], by simp [wrote_nil]⟩
  | cons f l ih =>
    obtain ⟨w, hw⟩ := ih (Client.Reply s f r).1
    refine ⟨fun c => if c = f then r :: w c else w c, ?_⟩
    rw [List.foldl_cons, hw, reply_eq]
    simp only [Server.modifyClient]
    congr 1
    funext c
    by_cases h : c = f
    · subst h; simp [wrote_wrote]
    · simp [h, Function.update_noteq h]

theorem frame_reply_fold (r : Reply) (l : List ClientId) (s : Server) :
    s.Frame (l.foldl (fun s f => (Client.Reply s f r).1) s) := by
  obtain ⟨w, hw⟩ := reply_fold_spec r l s
  rw [hw]
  exact ⟨rfl, rfl, rfl, rfl, rfl, rfl, rfl, fun c => view_wrote _ _⟩

/-- A client that is not among the recipients of a round of replies is left as it is. -/
theorem reply_fold_other (r : Reply) (l : List ClientId) (s : Server) (c : ClientId)
    (h : c ∉ l) : (l.foldl (fun s f => (Client.Reply s f r).1) s).clientAt c = s.clientAt c := by
  induction l generalizing s with
  | nil => rfl
  | cons f l ih =>
    simp only [List.mem_cons, not_or] at h
    rw [List.foldl_cons, ih _ h.2, reply_eq, modifyClient_clientAt, if_neg h.1]

/-- Leaving channels changes the members of the channels and the channel set of the
leaving client, nothing else. -/
theorem channelQuit_fold_spec (c : ClientId) (l : List ChanId) (s : Server) :
    ∃ (chs : List ChanId) (g : ChanId → Channel),
      l.foldl (fun s ch => Channel.Quit s ch c) s
        = { s with
            clientAt := Function.update s.clientAt c { s.clientAt c with channels := chs }
            channelAt := g } := by
  induction l generalizing s with
  | nil =>
    refine ⟨(s.clientAt c).channels, s.channelAt, ?_⟩
    simp
  | cons ch l ih =>
    obtain ⟨chs, g, hg⟩ := ih (Channel.Quit s ch c)
    refine ⟨chs, g, ?_⟩
    rw [List.foldl_cons, hg]
    simp [Channel.Quit, Server.modifyClient, Server.modifyChannel]

theorem frame_channelQuit_fold (c : ClientId) (l : List ChanId) (s : Server) :
    s.Frame (l.foldl (fun s ch => Channel.Quit s ch c) s) := by
  obtain ⟨chs, g, hg⟩ := channelQuit_fold_spec c l s
  rw [hg]
  refine ⟨rfl, rfl, rfl, rfl, rfl, rfl, rfl, fun c2 => ?_⟩
  by_cases h : c2 = c
  · subst h; simp [Client.view]
  · simp [Function.update_noteq h]

theorem registry_remove_congr (reg : ClientLookupSet) (c : ClientId) (a b : Client)
    (h : a.nick = b.nick) : reg.Remove c a = reg.Remove c b := by
  simp [ClientLookupSet.Remove, Client.HasNick, h]

theorem registry_add_congr (reg : ClientLookupSet) (c : ClientId) (a b : Client)
    (h : a.nick = b.nick) : reg.Add c a = reg.Add c b := by
  simp [ClientLookupSet.Add, Client.HasNick, h]

theorem whoWas_append_congr (l : WhoWasList) (a b : Client) (h1 : a.nick = b.nick)
    (h2 : a.username = b.username) (h3 : a.hostname = b.hostname)
    (h4 : a.realname = b.realname) : l.Append a = l.Append b := by
  simp [WhoWasList.Append, h1, h2, h3, h4]

theorem remove_not_mem (l : ClientSet) (c : ClientId) : c ∉ ClientSet.Remove l c := by
  simp [ClientSet.Remove]

/-- The whole effect of `Client.destroy`. -/
theorem destroy_spec (s : Server) (c : ClientId) :
    ∃ (chs : List ChanId) (g : ChanId → Channel),
      Client.destroy s c =
        { s with
          clients := s.clients.Remove c (s.clientAt c)
          channelAt := g
          clientAt := Function.update s.clientAt c
            { s.clientAt c with
              channels := chs
              idleTimer := (s.clientAt c).idleTimer.map Timer.Stop
              quitTimer := (s.clientAt c).quitTimer.map Timer.Stop
              conn := (s.clientAt c).conn.Close } } := by
  obtain ⟨chs, g, hg⟩ := channelQuit_fold_spec c (s.clientAt c).channels s
  refine ⟨chs, g, ?_⟩
  unfold Client.destroy
  simp only []
  rw [hg]
  simp only [Server.modifyClient, Function.update_same, Function.update_idem]
  congr 1

/-- A round of replies that leaves out the client `c`. -/
theorem reply_fold_spec_other (r : Reply) (l : List ClientId) (s : Server) (c : ClientId)
    (h : c ∉ l) :
    ∃ w : ClientId → List Reply,
      l.foldl (fun s f => (Client.Reply s f r).1) s
        = { s with clientAt := fun c2 =>
              if c2 = c then s.clientAt c else (s.clientAt c2).wrote (w c2) } := by
  obtain ⟨w, hw⟩ := reply_fold_spec r l s
  have hc := reply_fold_other r l s c h
  refine ⟨w, ?_⟩
  rw [hw] at hc ⊢
  congr 1
  funext c2
  by_cases h2 : c2 = c
  · subst h2; simpa using hc
  · simp [h2]

/-- The whole effect of `Client.Quit` on a client that has not quit: the registry entry
of the client is removed, its identity is archived, the client is flagged, answered,
detached and closed, and every other client is at most written to. -/
theorem quit_spec (s : Server) (c : ClientId) (m r : Text)
    (h : (s.clientAt c).hasQuit = false) :
    ∃ (chs : List ChanId) (g : ChanId → Channel) (w : ClientId → List Reply),
      Client.Quit s c m r =
        { s with
          clients := s.clients.Remove c (s.clientAt c)
          whoWas := s.whoWas.Append (s.clientAt c)
          channelAt := g
          clientAt := fun c2 =>
            if c2 = c then { (s.clientAt c).quitted r with channels := chs }
            else (s.clientAt c2).wrote (w c2) } := by
  unfold Client.Quit
  rw [if_neg (by simp [h])]
  simp only []
  generalize hs3 : ({ (Client.Reply (s.modifyClient c fun cl => { cl with hasQuit := true }) c
      (Reply.RplError r)).1 with whoWas := _ } : Server) = s3
  have e3 : s3 = { s with
      whoWas := s.whoWas.Append (s.clientAt c)
      clientAt := Function.update s.clientAt c
        { s.clientAt c with
          hasQuit := true
          conn := ((s.clientAt c).conn.Write (Reply.RplError r)).1 } } := by
    rw [← hs3]
    simp [Client.Reply, Server.modifyClient, WhoWasList.Append]
  have hfr : c ∉ ClientSet.Remove (Client.Friends s3 c) c := remove_not_mem _ _
  generalize (ClientSet.Remove (Client.Friends s3 c) c) = friends at *
  obtain ⟨chs, g, hd⟩ := destroy_spec s3 c
  rw [hd]
  generalize hs4 : ({ s3 with clients := _, channelAt := g, clientAt := _ } : Server) = s4
  obtain ⟨w, hw⟩ := reply_fold_spec_other (Reply.RplQuit (s4.clientAt c).Id m) friends s4 c hfr
  refine ⟨chs, g, fun c2 => if friends = [] then [] else w c2, ?_⟩
  by_cases hf : friends = []
  · subst hf
    simp only [List.length_nil, gt_iff_lt, Nat.lt_irrefl, if_false, if_true]
    rw [← hs4, e3]
    simp only [Function.update_same, Function.update_idem, wrote_nil, Client.quitted]
    congr 1
    funext c2
    by_cases h2 : c2 = c
    · subst h2; simp
    · simp [h2, Function.update_noteq h2]
  · have hpos : friends.length > 0 := List.length_pos.mpr hf
    rw [if_pos hpos]
    simp only [hf, if_false]
    rw [hw, ← hs4, e3]
    simp only [Function.update_same, Function.update_idem, Client.quitted]
    congr 1
    funext c2
    by_cases h2 : c2 = c
    · subst h2; simp
    · simp [h2, Function.update_noteq h2]

/-! ### Maps keyed by name, and the registry -/

theorem nameMap_get_delete {V : Type} (m : NameMap V) (k key : Name) :
    (m.delete k).get key = if k = key then none else m.get key := by
  induction m with
  | nil => simp [NameMap.delete, NameMap.get]
  | cons e m ih =>
    obtain ⟨a, v⟩ := e
    by_cases hak : a = k
    · subst hak
      simp only [NameMap.delete, if_true, ih, NameMap.get]
      by_cases h : a = key <;> simp [h]
    · simp only [NameMap.delete, if_neg hak, NameMap.get, ih]
      by_cases h : a = key
      · subst h
        simp [Ne.symm hak]
      · simp [h]

theorem nameMap_get_set {V : Type} (m : NameMap V) (k key : Name) (v : V) :
    (m.set k v).get key = if k = key then some v else m.get key := by
  simp only [NameMap.set, NameMap.get, nameMap_get_delete]
  by_cases h : k = key <;> simp [h]

theorem registry_remove_get (reg : ClientLookupSet) (c : ClientId) (cl : Client) (k : Name) :
    (reg.Remove c cl).byNick.get k =
      if cl.nick ≠ "" ∧ reg.Get cl.nick = some c ∧ cl.nick.ToLower = k then none
      else reg.byNick.get k := by
  unfold ClientLookupSet.Remove
  by_cases h1 : cl.nick = ""
  · simp [Client.HasNick, h1]
  · by_cases h2 : reg.Get cl.nick = some c
    · simp [Client.HasNick, h1, h2, nameMap_get_delete]
    · simp [Client.HasNick, h1, h2]

theorem registry_add_get (reg : ClientLookupSet) (c : ClientId) (cl : Client) (k : Name) :
    (reg.Add c cl).byNick.get k =
      if cl.nick ≠ "" ∧ reg.Get cl.nick = none ∧ cl.nick.ToLower = k then some c
      else reg.byNick.get k := by
  unfold ClientLookupSet.Add
  by_cases h1 : cl.nick = ""
  · simp [Client.HasNick, h1]
  · cases h2 : reg.Get cl.nick with
    | none => simp [Client.HasNick, h1, h2, nameMap_get_set]
    | some d => simp [Client.HasNick, h1, h2]

/-- Removing the entry of a client that quits keeps the registry invariant. -/
theorem regInv_remove {reg : ClientLookupSet} {next : ClientId} {nick : ClientId → Name}
    {quit : ClientId → Bool} (h : RegInv reg next nick quit) (c : ClientId) (cl : Client)
    (hn : cl.nick = nick c) :
    RegInv (reg.Remove c cl) next nick (Function.update quit c true) := by
  obtain ⟨hB, hD⟩ := h
  constructor
  · intro k d hk
    rw [registry_remove_get] at hk
    split at hk
    · cases hk
    · exact hB k d hk
  · intro d hd hq hnd
    have hdc : d ≠ c := by
      intro e; subst e; simp at hq
    rw [Function.update_noteq hdc] at hq
    have := hD d hd hq hnd
    unfold ClientLookupSet.Get at this ⊢
    rw [registry_remove_get]
    split
    · rename_i hx
      obtain ⟨_, hx2, hx3⟩ := hx
      unfold ClientLookupSet.Get at hx2
      rw [hn] at hx3
      rw [hn, hx3, this] at hx2
      exact absurd (Option.some.inj hx2) hdc
    · exact this

/-- Taking a client out of the registry and filing it again, under the nickname it has or
under a nickname that is not in use, keeps the registry invariant. -/
theorem regInv_rename {reg : ClientLookupSet} {next : ClientId} {nick : ClientId → Name}
    {quit : ClientId → Bool} (h : RegInv reg next nick quit) (c : ClientId) (hc : c < next)
    (old new : Client) (ho : old.nick = nick c)
    (hfree : new.nick = nick c ∨ reg.Get new.nick = none) :
    RegInv ((reg.Remove c old).Add c new) next (Function.update nick c new.nick) quit := by
  obtain ⟨hB, hD⟩ := h
  have getRem : ∀ k, (reg.Remove c old).byNick.get k =
      if nick c ≠ "" ∧ reg.Get (nick c) = some c ∧ (nick c).ToLower = k then none
      else reg.byNick.get k := by
    intro k; rw [registry_remove_get, ho]
  constructor
  · intro k d hk
    rw [registry_add_get] at hk
    split at hk
    · rename_i hx
      cases hk
      simp only [Function.update_same]
      exact ⟨hc, hx.1, hx.2.2.symm⟩
    · rw [getRem] at hk
      split at hk
      · cases hk
      · rename_i hx
        obtain ⟨h1, h2, h3⟩ := hB k d hk
        by_cases hdc : d = c
        · subst hdc
          exfalso
          apply hx
          refine ⟨h2, ?_, h3.symm⟩
          unfold ClientLookupSet.Get
          rw [← h3]; exact hk
        · rw [Function.update_noteq hdc]
          exact ⟨h1, h2, h3⟩
  · intro d hd hq hnd
    unfold ClientLookupSet.Get
    rw [registry_add_get]
    by_cases hdc : d = c
    · subst hdc
      simp only [Function.update_same] at hnd ⊢
      split
      · rfl
      · rename_i hx
        exfalso
        apply hx
        refine ⟨hnd, ?_, trivial⟩
        unfold ClientLookupSet.Get
        rw [getRem]
        split
        · rfl
        · rename_i hy
          rcases hfree with hf | hf
          · exfalso
            apply hy
            have hn' : nick d ≠ "" := hf ▸ hnd
            have := hD d hd hq hn'
            exact ⟨hn', this, by rw [hf]⟩
          · exact hf
    · rw [Function.update_noteq hdc] at hnd ⊢
      have hget := hD d hd hq hnd
      unfold ClientLookupSet.Get at hget
      have hrem : (reg.Remove c old).byNick.get (nick d).ToLower = some d := by
        rw [getRem]
        split
        · rename_i hx
          obtain ⟨_, hx2, hx3⟩ := hx
          unfold ClientLookupSet.Get at hx2
          rw [hx3, hget] at hx2
          exact absurd (Option.some.inj hx2) hdc
        · exact hget
      split
      · rename_i hx
        obtain ⟨_, hx2, hx3⟩ := hx
        unfold ClientLookupSet.Get at hx2
        rw [hx3, hrem] at hx2
        cases hx2
      · exact hrem

/-! ### The handlers of server.go:389-746 -/

theorem frame_foldl {α : Type} (f : Server → α → Server) (hf : ∀ (s : Server) (x : α), s.Frame (f s x))
    (l : List α) (s : Server) : s.Frame (l.foldl f s) := by
  induction l generalizing s with
  | nil => exact frame_refl s
  | cons x l ih => exact frame_trans (hf s x) (ih (f s x))

theorem frame_modifyChannel (s : Server) (ch : ChanId) (f : Channel → Channel) :
    s.Frame (s.modifyChannel ch f) :=
  ⟨rfl, rfl, rfl, rfl, rfl, rfl, rfl, fun _ => rfl⟩

theorem frame_channelQuit (s : Server) (ch : ChanId) (c : ClientId) :
    s.Frame (Channel.Quit s ch c) :=
  frame_trans (frame_modifyChannel s ch _) (frame_modifyClient _ c _ rfl)

theorem frame_broadcast (s : Server) (members : MemberSet) (r : Reply) :
    s.Frame (Channel.broadcast s members r) := by
  unfold Channel.broadcast
  exact frame_foldl _ (fun t m => frame_reply t m.1 r) members s

theorem frame_names (s : Server) (ch : ChanId) (c : ClientId) :
    s.Frame (Channel.Names s ch c) :=
  frame_trans (frame_numeric s c _) (frame_numeric _ c _)

theorem frame_newChannel (s : Server) (name : Name) : s.Frame (NewChannel s name).1 :=
  ⟨rfl, rfl, rfl, rfl, rfl, rfl, rfl, fun _ => rfl⟩

theorem frame_getTopic (s : Server) (ch : ChanId) (c : ClientId) :
    s.Frame (Channel.GetTopic s ch c) := by
  unfold Channel.GetTopic
  split <;> exact frame_numeric s c _

theorem frame_setTopic (s : Server) (ch : ChanId) (c : ClientId) (topic : Text) :
    s.Frame (Channel.SetTopic s ch c topic) := by
  unfold Channel.SetTopic
  split
  · exact frame_numeric s c _
  · exact frame_trans (frame_modifyChannel s ch _) (frame_broadcast _ _ _)

theorem frame_join (s : Server) (ch : ChanId) (c : ClientId) (key : Text) :
    s.Frame (Channel.Join s ch c key) := by
  unfold Channel.Join
  try simp only []
  split
  · exact frame_numeric s c _
  · split
    · exact frame_numeric s c _
    · split
      · exact frame_numeric s c _
      · exact frame_trans (frame_modifyClient s c _ rfl)
          (frame_trans (frame_modifyChannel _ ch _)
            (frame_trans (frame_broadcast _ _ _)
              (frame_trans (frame_getTopic _ ch c) (frame_names _ ch c))))

theorem frame_part (s : Server) (ch : ChanId) (c : ClientId) (message : Text) :
    s.Frame (Channel.Part s ch c message) := by
  unfold Channel.Part
  split
  · exact frame_numeric s c _
  · exact frame_trans (frame_broadcast _ _ _) (frame_channelQuit _ ch c)

theorem frame_kick (s : Server) (ch : ChanId) (actor target : ClientId) (comment : Text) :
    s.Frame (Channel.Kick s ch actor target comment) := by
  unfold Channel.Kick
  split
  · exact frame_numeric s actor _
  · split
    · exact frame_numeric s actor _
    · exact frame_trans (frame_broadcast _ _ _) (frame_channelQuit _ ch target)

theorem frame_invite (s : Server) (ch : ChanId) (invitee inviter : ClientId) :
    s.Frame (Channel.Invite s ch invitee inviter) := by
  unfold Channel.Invite
  split
  · exact frame_numeric s inviter _
  · simp only []
    split
    · exact frame_trans (frame_modifyChannel s ch _) (frame_reply _ _ _)
    · exact frame_reply _ _ _

theorem frame_joinCommand (s : Server) (c : ClientId) (channels : List (Name × Text))
    (zero : Bool) : s.Frame (JoinCommand.HandleServer s c channels zero) := by
  unfold JoinCommand.HandleServer
  split
  · exact frame_foldl _ (fun t ch => frame_part t ch c _) _ s
  · apply frame_foldl
    intro t entry
    try simp only []
    split
    · exact frame_numeric t c _
    · split
      · exact frame_join t _ c _
      · exact frame_trans (frame_newChannel t _) (frame_join _ _ c _)

theorem frame_partCommand (s : Server) (c : ClientId) (channels : List Name)
    (message : Text) : s.Frame (PartCommand.HandleServer s c channels message) := by
  unfold PartCommand.HandleServer
  apply frame_foldl
  intro t chname
  try simp only []
  split
  · exact frame_numeric t c _
  · exact frame_part t _ c _

theorem frame_topicCommand (s : Server) (c : ClientId) (channel : Name) (setTopic : Bool)
    (topic : Text) : s.Frame (TopicCommand.HandleServer s c channel setTopic topic) := by
  unfold TopicCommand.HandleServer
  split
  · exact frame_numeric s c _
  · split
    · exact frame_setTopic s _ c _
    · exact frame_getTopic s _ c

theorem frame_privMsgCommand (s : Server) (c : ClientId) (target : Name) (message : Text) :
    s.Frame (PrivMsgCommand.HandleServer s c target message) := by
  unfold PrivMsgCommand.HandleServer
  split
  · split
    · exact frame_numeric s c _
    · exact frame_broadcast _ _ _
  · split
    · exact frame_numeric s c _
    · simp only []
      split
      · exact frame_trans (frame_reply s _ _) (frame_numeric _ c _)
      · exact frame_reply s _ _

theorem frame_noticeCommand (s : Server) (c : ClientId) (target : Name) (message : Text) :
    s.Frame (NoticeCommand.HandleServer s c target message) := by
  unfold NoticeCommand.HandleServer
  split
  · split
    · exact frame_numeric s c _
    · exact frame_broadcast _ _ _
  · split
    · exact frame_numeric s c _
    · exact frame_reply s _ _

theorem frame_whoisCommand (s : Server) (c : ClientId) (masks : List Name) :
    s.Frame (WhoisCommand.HandleServer s c masks) := by
  unfold WhoisCommand.HandleServer
  apply frame_foldl
  intro t mask
  try simp only []
  split
  · exact frame_numeric t c _
  · exact frame_foldl _ (fun u m => frame_numeric u c _) _ t

theorem frame_whoChannel (s : Server) (c : ClientId) (ch : ChanId) (friends : ClientSet) :
    s.Frame (whoChannel s c ch friends) := by
  unfold whoChannel
  apply frame_foldl
  intro t m
  try simp only []
  split
  · exact frame_numeric t c _
  · exact frame_refl t

theorem frame_whoCommand (isChannel : Name → Bool)
    (findAll : ClientLookupSet → Name → ClientSet) (s : Server) (msg : WhoCommand) :
    s.Frame (WhoCommand.HandleServer isChannel findAll s msg) := by
  unfold WhoCommand.HandleServer
  try simp only []
  refine frame_trans ?_ (frame_numeric _ _ _)
  split
  · exact frame_foldl _ (fun t e => frame_whoChannel t _ _ _) _ s
  · split
    · split
      · exact frame_whoChannel s _ _ _
      · exact frame_refl s
    · exact frame_foldl _ (fun t m => frame_numeric t _ _) _ s

theorem frame_isOnCommand (s : Server) (c : ClientId) (nicks : List Name) :
    s.Frame (IsOnCommand.HandleServer s c nicks) :=
  frame_numeric s c _

theorem frame_kickCommand (s : Server) (c : ClientId) (kicks : List (Name × Name))
    (comment : Text) : s.Frame (KickCommand.HandleServer s c kicks comment) := by
  unfold KickCommand.HandleServer
  apply frame_foldl
  intro t kick
  try simp only []
  split
  · exact frame_numeric t c _
  · split
    · exact frame_numeric t c _
    · exact frame_kick t _ c _ _

theorem frame_listCommand (s : Server) (msg : ListCommand) :
    s.Frame (ListCommand.HandleServer s msg) := by
  unfold ListCommand.HandleServer
  try simp only []
  split
  · exact frame_numeric s _ _
  · refine frame_trans ?_ (frame_numeric _ _ _)
    split
    · apply frame_foldl
      intro t e
      try simp only []
      split
      · exact frame_refl t
      · exact frame_numeric t _ _
    · apply frame_foldl
      intro t chname
      try simp only []
      split
      · exact frame_numeric t _ _
      · split
        · exact frame_numeric t _ _
        · exact frame_numeric t _ _

theorem frame_namesCommand (s : Server) (msg : NamesCommand) :
    s.Frame (NamesCommand.HandleServer s msg) := by
  unfold NamesCommand.HandleServer
  try simp only []
  split
  · exact frame_foldl _ (fun t e => frame_names t _ _) _ s
  · apply frame_foldl
    intro t chname
    try simp only []
    split
    · exact frame_numeric t _ _
    · exact frame_names t _ _

theorem frame_versionCommand (s : Server) (c : ClientId) (target : Name) :
    s.Frame (VersionCommand.HandleServer s c target) := by
  unfold VersionCommand.HandleServer
  split <;> exact frame_numeric s c _

theorem frame_timeCommand (s : Server) (c : ClientId) (target : Name) :
    s.Frame (TimeCommand.HandleServer s c target) := by
  unfold TimeCommand.HandleServer
  split <;> exact frame_numeric s c _

theorem frame_inviteCommand (s : Server) (c : ClientId) (nickname channel : Name) :
    s.Frame (InviteCommand.HandleServer s c nickname channel) := by
  unfold InviteCommand.HandleServer
  split
  · exact frame_numeric s c _
  · split
    · exact frame_trans (frame_numeric s c _) (frame_reply _ _ _)
    · exact frame_invite s _ _ c

theorem frame_whoWasCommand (s : Server) (c : ClientId) (nicknames : List Name)
    (count : Nat) : s.Frame (WhoWasCommand.HandleServer s c nicknames count) := by
  unfold WhoWasCommand.HandleServer
  apply frame_foldl
  intro t nickname
  try simp only []
  refine frame_trans ?_ (frame_numeric _ c _)
  split
  · exact frame_numeric t c _
  · exact frame_foldl _ (fun u w => frame_numeric u c _) _ t

theorem frame_shutdown (s : Server) : s.Frame s.Shutdown := by
  unfold Server.Shutdown
  exact frame_foldl _ (fun t e => frame_reply t _ _) _ s

theorem talk_refl (s : Server) : s.Talk s :=
  ⟨rfl, rfl, rfl, rfl, rfl, rfl, rfl, fun _ => rfl⟩

theorem talk_trans {s t u : Server} (h1 : s.Talk t) (h2 : t.Talk u) : s.Talk u := by
  obtain ⟨a1, a2, a3, a4, a5, a6, a7, a8⟩ := h1
  obtain ⟨b1, b2, b3, b4, b5, b6, b7, b8⟩ := h2
  exact ⟨b1.trans a1, b2.trans a2, b3.trans a3, b4.trans a4, b5.trans a5, b6.trans a6,
    b7.trans a7, fun c => (b8 c).trans (a8 c)⟩

theorem talk_of_frame {s t : Server} (h : s.Frame t) : s.Talk t := by
  obtain ⟨a1, a2, a3, a4, a5, a6, a7, a8⟩ := h
  refine ⟨a1, a2, a3, a4, a5, a6, a7, fun c => ?_⟩
  unfold Client.ident
  rw [a8 c]

theorem talk_modifyClient (s : Server) (c : ClientId) (f : Client → Client)
    (h : (f (s.clientAt c)).ident = (s.clientAt c).ident) : s.Talk (s.modifyClient c f) := by
  refine ⟨rfl, rfl, rfl, rfl, rfl, rfl, rfl, fun c2 => ?_⟩
  rw [modifyClient_clientAt]
  split
  · rename_i h2; rw [h2]; exact h
  · rfl

theorem talk_operCommand (s : Server) (c : ClientId) (hash : Option (List UInt8))
    (err : Option String) : s.Talk (OperCommand.HandleServer s c hash err) := by
  unfold OperCommand.HandleServer
  split
  · exact talk_of_frame (frame_numeric s c _)
  · exact talk_trans (talk_modifyClient s c _ rfl)
      (talk_of_frame (frame_trans (frame_numeric _ c _) (frame_reply _ c _)))

theorem frame_ite_numeric (t : Server) (c : ClientId) (b : Bool) (r1 r2 : Reply) :
    t.Frame (if b = true then Client.Numeric t c r1 else Client.Numeric t c r2) := by
  cases b <;> exact frame_numeric t c _

theorem talk_flags (s : Server) (c : ClientId) (f : Client → List UserMode) :
    s.Talk (s.modifyClient c (fun cl => { cl with flags := f cl })) :=
  talk_modifyClient s c _ rfl

theorem talk_awayMessage (s : Server) (c : ClientId) (text : Text) :
    s.Talk (s.modifyClient c (fun cl => { cl with awayMessage := text })) :=
  talk_modifyClient s c _ rfl

theorem talk_awayCommand (s : Server) (c : ClientId) (text : Text) :
    s.Talk (AwayCommand.HandleServer s c text) := by
  unfold AwayCommand.HandleServer
  simp only []
  refine talk_trans
    (talk_flags s c (fun cl =>
      if text.length > 0 then setFlag cl.flags UserMode.Away
      else clearFlag cl.flags UserMode.Away))
    (talk_trans (talk_awayMessage _ c text) (talk_of_frame ?_))
  exact frame_trans (frame_ite_numeric _ c _ _ _) (frame_reply _ c _)

/-- A command of server.go:389-746 either leaves everything as it is but channels,
history, written lines, user modes and away messages, or it is a KILL that quits the
client its nickname resolves to. -/
theorem session_step (s : Server) (cmd : SessionCommand) :
    s.Talk (cmd.HandleServer s) ∨
    ∃ target message,
      (∃ nickname, s.clients.Get nickname = some target) ∧
      cmd.HandleServer s = Client.Quit s target message CONN_CLOSED := by
  cases cmd with
  | JoinCommand b x y => exact Or.inl (talk_of_frame (frame_joinCommand s _ _ _))
  | PartCommand b x y => exact Or.inl (talk_of_frame (frame_partCommand s _ _ _))
  | TopicCommand b x y z => exact Or.inl (talk_of_frame (frame_topicCommand s _ _ _ _))
  | PrivMsgCommand b x y => exact Or.inl (talk_of_frame (frame_privMsgCommand s _ _ _))
  | WhoisCommand b x => exact Or.inl (talk_of_frame (frame_whoisCommand s _ _))
  | WhoCommand msg => exact Or.inl (talk_of_frame (frame_whoCommand _ _ s msg))
  | OperCommand b x y => exact Or.inl (talk_operCommand s _ _ _)
  | AwayCommand b x => exact Or.inl (talk_awayCommand s _ _)
  | IsOnCommand b x => exact Or.inl (talk_of_frame (frame_isOnCommand s _ _))
  | NoticeCommand b x y => exact Or.inl (talk_of_frame (frame_noticeCommand s _ _ _))
  | KickCommand b x y => exact Or.inl (talk_of_frame (frame_kickCommand s _ _ _))
  | ListCommand msg => exact Or.inl (talk_of_frame (frame_listCommand s msg))
  | NamesCommand msg => exact Or.inl (talk_of_frame (frame_namesCommand s msg))
  | VersionCommand b x => exact Or.inl (talk_of_frame (frame_versionCommand s _ _))
  | InviteCommand b x y => exact Or.inl (talk_of_frame (frame_inviteCommand s _ _ _))
  | TimeCommand b x => exact Or.inl (talk_of_frame (frame_timeCommand s _ _))
  | WhoWasCommand b x y => exact Or.inl (talk_of_frame (frame_whoWasCommand s _ _ _))
  | KillCommand msg =>
    cases hop : (s.clientAt msg.base.client).isOperator with
    | false =>
      left
      have e : (SessionCommand.KillCommand msg).HandleServer s
          = Client.Numeric s msg.base.client Reply.ErrNoPrivileges := by
        simp [SessionCommand.HandleServer, KillCommand.HandleServer, hop]
      rw [e]
      exact talk_of_frame (frame_numeric s _ _)
    | true =>
      cases ht : s.clients.Get msg.nickname with
      | none =>
        left
        have e : (SessionCommand.KillCommand msg).HandleServer s
            = Client.Numeric s msg.base.client (Reply.ErrNoSuchNick msg.nickname) := by
          simp [SessionCommand.HandleServer, KillCommand.HandleServer, hop, ht]
        rw [e]
        exact talk_of_frame (frame_numeric s _ _)
      | some target =>
        right
        exact ⟨target, KillCommand.quitMsg (s.clientAt msg.base.client) msg.comment,
          ⟨_, ht⟩, by simp [SessionCommand.HandleServer, KillCommand.HandleServer, hop, ht]⟩

theorem same_of_talk {s t : Server} (h : s.Talk t) : s.Same t := by
  refine ⟨h.1, h.2.1, fun c => ?_⟩
  have := h.2.2.2.2.2.2.2 c
  have h1 : (t.clientAt c).ident.nick = (s.clientAt c).ident.nick := congrArg Client.nick this
  have h2 : (t.clientAt c).ident.hasQuit = (s.clientAt c).ident.hasQuit :=
    congrArg Client.hasQuit this
  have h3 : (t.clientAt c).ident.conn.closed = (s.clientAt c).ident.conn.closed :=
    congrArg (fun cl => cl.conn.closed) this
  exact ⟨h1, h2, h3⟩

theorem keeps_of_talk {s t : Server} (h : s.Talk t) : s.Keeps t := by
  intro c
  have := h.2.2.2.2.2.2.2 c
  have h1 : (t.clientAt c).ident.registered = (s.clientAt c).ident.registered :=
    congrArg Client.registered this
  have h2 : (t.clientAt c).ident.HasNick = (s.clientAt c).ident.HasNick :=
    congrArg Client.HasNick this
  exact ⟨h1, fun hn => by rw [← hn]; exact h2⟩

theorem sameAuth_of_talk {s t : Server} (h : s.Talk t) : s.SameAuth t := by
  intro c
  have := h.2.2.2.2.2.2.2 c
  have h1 : (t.clientAt c).ident.authorized = (s.clientAt c).ident.authorized :=
    congrArg Client.authorized this
  have h2 : (t.clientAt c).ident.username = (s.clientAt c).ident.username :=
    congrArg Client.username this
  have h3 : (t.clientAt c).ident.registered = (s.clientAt c).ident.registered :=
    congrArg Client.registered this
  exact ⟨h1, h2, h3⟩

/-! ### The invariants of the event loop -/

@[simp] theorem modifyClient_clients (s : Server) (c : ClientId) (f : Client → Client) :
    (s.modifyClient c f).clients = s.clients := rfl

@[simp] theorem modifyClient_nextClient (s : Server) (c : ClientId) (f : Client → Client) :
    (s.modifyClient c f).nextClient = s.nextClient := rfl

@[simp] theorem modifyClient_now (s : Server) (c : ClientId) (f : Client → Client) :
    (s.modifyClient c f).now = s.now := rfl

@[simp] theorem modifyClient_name (s : Server) (c : ClientId) (f : Client → Client) :
    (s.modifyClient c f).name = s.name := rfl

@[simp] theorem modifyClient_whoWas (s : Server) (c : ClientId) (f : Client → Client) :
    (s.modifyClient c f).whoWas = s.whoWas := rfl

@[simp] theorem modifyClient_motdReplies (s : Server) (c : ClientId) (f : Client → Client) :
    (s.modifyClient c f).motdReplies = s.motdReplies := rfl

@[simp] theorem modifyClient_welcomeReplies (s : Server) (c : ClientId) (f : Client → Client) :
    (s.modifyClient c f).welcomeReplies = s.welcomeReplies := rfl

theorem same_refl (s : Server) : s.Same s := ⟨rfl, rfl, fun _ => ⟨rfl, rfl, rfl⟩⟩

theorem same_trans {s t u : Server} (h1 : s.Same t) (h2 : t.Same u) : s.Same u := by
  obtain ⟨a1, a2, a3⟩ := h1
  obtain ⟨b1, b2, b3⟩ := h2
  refine ⟨b1.trans a1, b2.trans a2, fun c => ?_⟩
  obtain ⟨x1, x2, x3⟩ := a3 c
  obtain ⟨y1, y2, y3⟩ := b3 c
  exact ⟨y1.trans x1, y2.trans x2, y3.trans x3⟩

theorem same_of_frame {s t : Server} (h : s.Frame t) : s.Same t := by
  obtain ⟨a1, a2, _, _, _, _, _, a8⟩ := h
  refine ⟨a1, a2, fun c => ?_⟩
  have := a8 c
  have h1 : (t.clientAt c).view.nick = (s.clientAt c).view.nick := congrArg Client.nick this
  have h2 : (t.clientAt c).view.hasQuit = (s.clientAt c).view.hasQuit :=
    congrArg Client.hasQuit this
  have h3 : (t.clientAt c).view.conn.closed = (s.clientAt c).view.conn.closed :=
    congrArg (fun cl => cl.conn.closed) this
  exact ⟨h1, h2, h3⟩

theorem same_modifyClient (s : Server) (c : ClientId) (f : Client → Client)
    (h1 : (f (s.clientAt c)).nick = (s.clientAt c).nick)
    (h2 : (f (s.clientAt c)).hasQuit = (s.clientAt c).hasQuit)
    (h3 : (f (s.clientAt c)).conn.closed = (s.clientAt c).conn.closed) :
    s.Same (s.modifyClient c f) := by
  refine ⟨rfl, rfl, fun c2 => ?_⟩
  rw [modifyClient_clientAt]
  split
  · rename_i h; subst h; exact ⟨h1, h2, h3⟩
  · exact ⟨rfl, rfl, rfl⟩

theorem inv_same {s t : Server} (h : s.Same t) (hi : s.Inv) : t.Inv := by
  obtain ⟨a1, a2, a3⟩ := h
  obtain ⟨hA, hR⟩ := hi
  have e1 : (fun c => (t.clientAt c).nick) = fun c => (s.clientAt c).nick :=
    funext fun c => (a3 c).1
  have e2 : (fun c => (t.clientAt c).hasQuit) = fun c => (s.clientAt c).hasQuit :=
    funext fun c => (a3 c).2.1
  refine ⟨fun c => ?_, ?_⟩
  · rw [(a3 c).2.1, (a3 c).2.2]; exact hA c
  · rw [a1, a2, e1, e2]; exact hR

theorem touched_fields (cl : Client) (now : Nat) :
    (cl.touched now).nick = cl.nick ∧ (cl.touched now).hasQuit = cl.hasQuit ∧
    (cl.touched now).conn = cl.conn ∧ (cl.touched now).registered = cl.registered ∧
    (cl.touched now).username = cl.username ∧ (cl.touched now).capState = cl.capState ∧
    (cl.touched now).atime = cl.atime ∧ (cl.touched now).authorized = cl.authorized ∧
    (cl.touched now).channels = cl.channels ∧ (cl.touched now).hostname = cl.hostname ∧
    (cl.touched now).realname = cl.realname ∧ (cl.touched now).flags = cl.flags := by
  obtain ⟨_, _, _, _, _, _, _, _, _, _, _, it, _, qt, _, _, _, _⟩ := cl
  cases it <;> cases qt <;> simp [Client.touched]

theorem idled_fields (cl : Client) (now : Nat) :
    (cl.idled now).nick = cl.nick ∧ (cl.idled now).hasQuit = cl.hasQuit ∧
    (cl.idled now).conn = cl.conn ∧ (cl.idled now).registered = cl.registered ∧
    (cl.idled now).username = cl.username ∧ (cl.idled now).capState = cl.capState ∧
    (cl.idled now).atime = cl.atime ∧ (cl.idled now).authorized = cl.authorized ∧
    (cl.idled now).channels = cl.channels ∧ (cl.idled now).idleTimer = cl.idleTimer := by
  obtain ⟨_, _, _, _, _, _, _, _, _, _, _, it, _, qt, _, _, _, _⟩ := cl
  cases qt <;> simp [Client.idled]

theorem wrote_fields (cl : Client) (rs : List Reply) :
    (cl.wrote rs).nick = cl.nick ∧ (cl.wrote rs).hasQuit = cl.hasQuit ∧
    (cl.wrote rs).conn.closed = cl.conn.closed ∧ (cl.wrote rs).registered = cl.registered ∧
    (cl.wrote rs).username = cl.username ∧ (cl.wrote rs).capState = cl.capState ∧
    (cl.wrote rs).atime = cl.atime ∧ (cl.wrote rs).authorized = cl.authorized ∧
    (cl.wrote rs).channels = cl.channels ∧ (cl.wrote rs).idleTimer = cl.idleTimer ∧
    (cl.wrote rs).quitTimer = cl.quitTimer :=
  ⟨rfl, rfl, writeAll_closed_eq _ _, rfl, rfl, rfl, rfl, rfl, rfl, rfl, rfl⟩

theorem idle_eq (s : Server) (c : ClientId) :
    Client.Idle s c = s.modifyClient c (fun cl => (cl.wrote [Reply.RplPing s.name]).idled s.now) := by
  unfold Client.Idle
  simp only []
  rw [reply_eq, modifyClient_modifyClient]
  rfl

theorem register_eq (s : Server) (c : ClientId) :
    Client.Register s c = s.modifyClient c (fun cl =>
      if cl.registered then cl else ({ cl with registered := true } : Client).touched s.now) := by
  unfold Client.Register
  split
  · rename_i h
    exact (modifyClient_id s c _ (by simp [h])).symm
  · rename_i h
    simp only [Client.Touch]
    rw [modifyClient_modifyClient]
    apply modifyClient_congr
    simp [h]

theorem tryRegister_eq (s : Server) (c : ClientId) :
    Server.tryRegister s c = s.modifyClient c (fun cl =>
      if cl.canRegister then
        (({ cl with registered := true } : Client).touched s.now).wrote s.welcomeReplies
      else cl) := by
  unfold Server.tryRegister
  split
  · rename_i h
    refine (modifyClient_id s c _ ?_).symm
    simp only [Client.canRegister, h]
    rfl
  · rename_i h
    have hr : (s.clientAt c).registered = false := by
      cases hh : (s.clientAt c).registered
      · rfl
      · simp [hh] at h
    simp only []
    rw [motd_eq, numeric_eq, numeric_eq, numeric_eq, numeric_eq, register_eq]
    simp only [modifyClient_modifyClient, modifyClient_motdReplies]
    apply modifyClient_congr
    have hcan : (s.clientAt c).canRegister = true := by
      simpa [Client.canRegister] using h
    simp only [hcan, hr, if_true, wrote_wrote, Server.welcomeReplies]
    simp

theorem same_touch (s : Server) (c : ClientId) : s.Same (Client.Touch s c) := by
  have h := touched_fields (s.clientAt c) s.now
  exact same_modifyClient s c _ h.1 h.2.1 (by rw [h.2.2.1])

theorem same_active (s : Server) (c : ClientId) : s.Same (Client.Active s c) :=
  same_modifyClient s c _ rfl rfl rfl

theorem same_idle (s : Server) (c : ClientId) : s.Same (Client.Idle s c) := by
  rw [idle_eq]
  have h := idled_fields ((s.clientAt c).wrote [Reply.RplPing s.name]) s.now
  have w := wrote_fields (s.clientAt c) [Reply.RplPing s.name]
  exact same_modifyClient s c _ (h.1.trans w.1) (h.2.1.trans w.2.1)
    (by rw [h.2.2.1]; exact w.2.2.1)

theorem same_tryRegister (s : Server) (c : ClientId) : s.Same (Server.tryRegister s c) := by
  rw [tryRegister_eq]
  have t := touched_fields ({ s.clientAt c with registered := true } : Client) s.now
  have w := wrote_fields
    (({ s.clientAt c with registered := true } : Client).touched s.now) s.welcomeReplies
  apply same_modifyClient
  · split
    · exact w.1.trans t.1
    · rfl
  · split
    · exact w.2.1.trans t.2.1
    · rfl
  · split
    · rw [w.2.2.1, t.2.2.1]
    · rfl

theorem close_closed (k : IRCConn) : k.Close.closed = true := by
  unfold IRCConn.Close
  split
  · assumption
  · rfl

theorem inv_quit (s : Server) (c : ClientId) (m r : Text) (hi : s.Inv) :
    (Client.Quit s c m r).Inv := by
  cases hq : (s.clientAt c).hasQuit with
  | true =>
    have : Client.Quit s c m r = s := by simp [Client.Quit, hq]
    rw [this]; exact hi
  | false =>
    obtain ⟨chs, g, w, heq⟩ := quit_spec s c m r hq
    rw [heq]
    obtain ⟨hA, hR⟩ := hi
    have hnick : (fun c2 => ((if c2 = c then
          ({ (s.clientAt c).quitted r with channels := chs } : Client)
        else (s.clientAt c2).wrote (w c2)) : Client).nick) = fun c2 => (s.clientAt c2).nick := by
      funext c2
      split
      · rename_i h; subst h; rfl
      · rfl
    have hquit : (fun c2 => ((if c2 = c then
          ({ (s.clientAt c).quitted r with channels := chs } : Client)
        else (s.clientAt c2).wrote (w c2)) : Client).hasQuit)
        = Function.update (fun c2 => (s.clientAt c2).hasQuit) c true := by
      funext c2
      by_cases h : c2 = c
      · subst h; simp [Client.quitted]
      · simp [h, Function.update_noteq h, Client.wrote]
    refine ⟨fun c2 => ?_, ?_⟩
    · show ((if c2 = c then _ else _ : Client)).conn.closed = ((if c2 = c then _ else _ : Client)).hasQuit
      split
      · simp [Client.quitted, close_closed]
      · rw [(wrote_fields _ _).2.2.1, (wrote_fields _ _).2.1]; exact hA c2
    · show RegInv (s.clients.Remove c (s.clientAt c)) s.nextClient _ _
      rw [hnick, hquit]
      exact regInv_remove hR c (s.clientAt c) rfl

theorem inv_setClients_rename (s : Server) (c : ClientId) (hc : c < s.nextClient)
    (f : Client → Client) (old : Client) (ho : old.nick = (s.clientAt c).nick)
    (hq : (f (s.clientAt c)).hasQuit = (s.clientAt c).hasQuit)
    (hcl : (f (s.clientAt c)).conn.closed = (s.clientAt c).conn.closed)
    (hfree : (f (s.clientAt c)).nick = (s.clientAt c).nick
      ∨ s.clients.Get (f (s.clientAt c)).nick = none)
    (hi : s.Inv) :
    ({ s.modifyClient c f with
        clients := (s.clients.Remove c old).Add c (f (s.clientAt c)) } : Server).Inv := by
  obtain ⟨hA, hR⟩ := hi
  have hnick : (fun c2 => ((s.modifyClient c f).clientAt c2).nick)
      = Function.update (fun c2 => (s.clientAt c2).nick) c (f (s.clientAt c)).nick := by
    funext c2
    by_cases h : c2 = c
    · subst h; simp
    · simp [h, Function.update_noteq h]
  have hquit : (fun c2 => ((s.modifyClient c f).clientAt c2).hasQuit)
      = fun c2 => (s.clientAt c2).hasQuit := by
    funext c2
    by_cases h : c2 = c
    · subst h; simp [hq]
    · simp [h]
  refine ⟨fun c2 => ?_, ?_⟩
  · show ((s.modifyClient c f).clientAt c2).conn.closed = ((s.modifyClient c f).clientAt c2).hasQuit
    rw [modifyClient_clientAt]
    split
    · rename_i h; subst h; rw [hq, hcl]; exact hA c2
    · exact hA c2
  · show RegInv ((s.clients.Remove c old).Add c (f (s.clientAt c))) s.nextClient
      (fun c2 => ((s.modifyClient c f).clientAt c2).nick)
      (fun c2 => ((s.modifyClient c f).clientAt c2).hasQuit)
    rw [hnick, hquit]
    exact regInv_rename hR c hc old (f (s.clientAt c)) ho hfree

/-- The statements of `UserCommand.setUserInfo` on the struct of the client. -/
theorem setUserInfo_eq (s : Server) (c : ClientId) (u : Name) (r : Text) :
    UserCommand.setUserInfo s c u r =
      Server.tryRegister
        { s.modifyClient c (fun cl =>
            { cl with
              capState := if cl.capState == CapState.CapNegotiating then CapState.CapNegotiated
                else cl.capState
              username := u
              realname := r }) with
          clients := (s.clients.Remove c (s.clientAt c)).Add c (s.clientAt c) } c := by
  unfold UserCommand.setUserInfo
  simp only []
  congr 1
  by_cases h : (s.clientAt c).capState = CapState.CapNegotiating
  · simp [h, Server.modifyClient, ClientLookupSet.Remove, ClientLookupSet.Add, Client.HasNick]
  · simp [h, Server.modifyClient, ClientLookupSet.Remove, ClientLookupSet.Add, Client.HasNick]

theorem inv_setUserInfo (s : Server) (c : ClientId) (u : Name) (r : Text)
    (hc : c < s.nextClient) (hi : s.Inv) : (UserCommand.setUserInfo s c u r).Inv := by
  rw [setUserInfo_eq]
  apply inv_same (same_tryRegister _ c)
  have := inv_setClients_rename s c hc (fun cl =>
            { cl with
              capState := if cl.capState == CapState.CapNegotiating then CapState.CapNegotiated
                else cl.capState
              username := u
              realname := r }) (s.clientAt c) rfl rfl rfl (Or.inl rfl) hi
  have e : (s.clients.Remove c (s.clientAt c)).Add c (s.clientAt c)
      = (s.clients.Remove c (s.clientAt c)).Add c
          { s.clientAt c with
              capState := if (s.clientAt c).capState == CapState.CapNegotiating then
                CapState.CapNegotiated else (s.clientAt c).capState
              username := u
              realname := r } := registry_add_congr _ _ _ _ rfl
  rw [e]
  exact this

theorem inv_setNickname (s : Server) (c : ClientId) (n : Name) (hc : c < s.nextClient)
    (hfree : s.clients.Get n = none) (hi : s.Inv) : (Client.SetNickname s c n).Inv := by
  unfold Client.SetNickname
  split
  · exact hi
  · rename_i h
    have hrem : s.clients.Remove c (s.clientAt c) = s.clients := by
      simp [ClientLookupSet.Remove, h]
    have := inv_setClients_rename s c hc (fun cl => { cl with nick := n }) (s.clientAt c) rfl
      rfl rfl (Or.inr hfree) hi
    rw [hrem] at this
    simpa using this

theorem inv_changeNickname (s : Server) (c : ClientId) (n : Name) (hc : c < s.nextClient)
    (hfree : s.clients.Get n = none) (hi : s.Inv) : (Client.ChangeNickname s c n).Inv := by
  unfold Client.ChangeNickname
  simp only []
  apply inv_same (same_of_frame (frame_reply_fold _ _ _))
  have := inv_setClients_rename s c hc (fun cl => { cl with nick := n }) (s.clientAt c) rfl
      rfl rfl (Or.inr hfree) hi
  refine inv_same ?_ this
  refine ⟨?_, rfl, fun c2 => ⟨rfl, rfl, rfl⟩⟩
  simp [Server.modifyClient]

theorem inv_newClient (s : Server) (hi : s.Inv) : (NewClient s).1.Inv := by
  obtain ⟨hA, hB, hD⟩ := hi
  unfold NewClient
  simp only []
  apply inv_same (same_touch _ _)
  refine ⟨fun c => ?_, ?_, ?_⟩
  · show (Function.update s.clientAt s.nextClient _ c).conn.closed
      = (Function.update s.clientAt s.nextClient _ c).hasQuit
    by_cases h : c = s.nextClient
    · subst h; simp; rfl
    · rw [Function.update_noteq h]; exact hA c
  · intro k c hk
    obtain ⟨h1, h2, h3⟩ := hB k c hk
    have hne : c ≠ s.nextClient := Nat.ne_of_lt h1
    show c < s.nextClient + 1 ∧ (Function.update s.clientAt s.nextClient _ c).nick ≠ "" ∧
      k = (Function.update s.clientAt s.nextClient _ c).nick.ToLower
    rw [Function.update_noteq hne]
    exact ⟨Nat.lt_succ_of_lt h1, h2, h3⟩
  · intro c hc hq hn
    show s.clients.Get (Function.update s.clientAt s.nextClient _ c).nick = some c
    by_cases h : c = s.nextClient
    · subst h
      exfalso
      apply hn
      show (Function.update s.clientAt s.nextClient _ s.nextClient).nick = ""
      simp; rfl
    · have hq2 : (s.clientAt c).hasQuit = false := by
        have : (Function.update s.clientAt s.nextClient _ c).hasQuit = false := hq
        rwa [Function.update_noteq h] at this
      have hn2 : (s.clientAt c).nick ≠ "" := by
        have : (Function.update s.clientAt s.nextClient _ c).nick ≠ "" := hn
        rwa [Function.update_noteq h] at this
      rw [Function.update_noteq h]
      exact hD c (Nat.lt_of_le_of_ne (Nat.le_of_lt_succ hc) h) hq2 hn2

theorem inv_numeric (s : Server) (c : ClientId) (r : Reply) (hi : s.Inv) :
    (Client.Numeric s c r).Inv :=
  inv_same (same_of_frame (frame_numeric s c r)) hi

theorem same_preHandle (s : Server) (cmd : Command) : s.Same (cmd.PreHandleServer s) := by
  cases cmd <;> simp only [Command.PreHandleServer, BaseCommand.PreHandleServer] <;>
    first
    | exact same_refl s
    | exact same_touch s _
    | exact same_trans (same_active s _) (same_touch _ _)

theorem inv_handleServer (s : Server) (cmd : Command) (h : Server → Server)
    (hh : cmd.HandleServer? = some h) (hi : s.Inv) : (h s).Inv := by
  cases cmd with
  | PassCommand b e =>
    cases hh; exact inv_numeric s _ _ hi
  | ProxyCommand b x => cases hh
  | RFC1459UserCommand b u r =>
    cases hh; exact inv_numeric s _ _ hi
  | RFC2812UserCommand b u r f =>
    cases hh; exact inv_numeric s _ _ hi
  | QuitCommand b m r =>
    cases hh; exact inv_quit s _ _ _ hi
  | PingCommand b x =>
    cases hh; exact inv_same (same_of_frame (frame_reply s _ _)) hi
  | PongCommand b =>
    cases hh; exact hi
  | IdleCommand b =>
    cases hh; exact inv_same (same_idle s _) hi
  | MOTDCommand b =>
    cases hh; exact inv_same (same_of_frame (frame_motd s _)) hi
  | Session c =>
    cases hh
    rcases session_step s c with h | ⟨target, message, _, e⟩
    · exact inv_same (same_of_talk h) hi
    · rw [e]; exact inv_quit s _ _ _ hi

theorem inv_handleRegServer (s : Server) (cmd : Command) (h : Server → Server)
    (hh : cmd.HandleRegServer? = some h) (hc : cmd.Client < s.nextClient) (hi : s.Inv) :
    (h s).Inv := by
  cases cmd with
  | PassCommand b e =>
    cases hh
    simp only [PassCommand.HandleRegServer]
    split
    · exact inv_quit _ _ _ _ (inv_numeric s _ _ hi)
    · exact inv_same (same_modifyClient s _ _ rfl rfl rfl) hi
  | ProxyCommand b x =>
    cases hh
    exact inv_same (same_modifyClient s _ _ rfl rfl rfl) hi
  | RFC1459UserCommand b u r =>
    cases hh
    simp only [RFC1459UserCommand.HandleRegServer]
    split
    · exact inv_quit _ _ _ _ (inv_numeric s _ _ hi)
    · exact inv_setUserInfo s _ _ _ hc hi
  | RFC2812UserCommand b u r f =>
    cases hh
    simp only [RFC2812UserCommand.HandleRegServer]
    split
    · exact inv_quit _ _ _ _ (inv_numeric s _ _ hi)
    · apply inv_setUserInfo
      · split
        · exact hc
        · exact hc
      · split
        · exact inv_numeric _ _ _ (inv_same (same_modifyClient s _ _ rfl rfl rfl) hi)
        · exact hi
  | QuitCommand b m r =>
    cases hh; exact inv_quit s _ _ _ hi
  | PingCommand b x => cases hh
  | PongCommand b => cases hh
  | IdleCommand b => cases hh
  | MOTDCommand b => cases hh
  | Session c => cases hh

theorem inv_processCommand (s : Server) (cmd : Command) (hc : cmd.Client < s.nextClient)
    (hi : s.Inv) : (s.processCommand cmd).Inv := by
  unfold Server.processCommand
  simp only []
  split
  · split
    · exact inv_quit s _ _ _ hi
    · rename_i h hh
      exact inv_handleRegServer s cmd h hh hc hi
  · split
    · exact inv_numeric s _ _ hi
    · rename_i h hh
      exact inv_handleServer _ cmd h hh (inv_same (same_preHandle s cmd) hi)

theorem inv_initial (s : Server) (h : s.Initial) : s.Inv := by
  obtain ⟨h1, h2, h3⟩ := h
  refine ⟨fun c => by rw [h3]; rfl, ?_, ?_⟩
  · intro k c hk
    rw [h2] at hk
    cases hk
  · intro c hc
    rw [h1] at hc
    exact absurd hc (Nat.not_lt_zero c)

theorem inv_handle (s : Server) (e : Event) (ha : s.admits e = true) (hi : s.Inv) :
    (s.handle e).Inv := by
  cases e with
  | newConn => exact inv_newClient s hi
  | command cmd =>
    exact inv_processCommand s cmd (by simpa [Server.admits] using ha) hi
  | setNickname c n =>
    simp only [Server.admits, Bool.and_eq_true, decide_eq_true_eq, Option.isNone_iff_eq_none] at ha
    exact inv_setNickname s c n ha.1.1 ha.2 hi
  | changeNickname c n =>
    simp only [Server.admits, Bool.and_eq_true, decide_eq_true_eq, Option.isNone_iff_eq_none] at ha
    exact inv_changeNickname s c n ha.1.1 ha.2 hi
  | tryRegister c => exact inv_same (same_tryRegister s c) hi
  | capBegin c => exact inv_same (same_modifyClient s c _ rfl rfl rfl) hi
  | capEnd c =>
    exact inv_same
      (same_trans (same_modifyClient s c _ rfl rfl rfl) (same_tryRegister _ c)) hi
  | shutdown => exact inv_same (same_of_frame (frame_shutdown s)) hi
  | tick d => exact inv_same ⟨rfl, rfl, fun _ => ⟨rfl, rfl, rfl⟩⟩ hi

/-- Every state of the event loop satisfies the invariants. -/
theorem inv_reachable (s : Server) (h : Reachable s) : s.Inv := by
  induction h with
  | init s hs => exact inv_initial s hs
  | step s e _ ha ih => exact inv_handle s e ha ih

/-! ### The `registered` flag along the event loop -/

theorem keeps_refl (s : Server) : s.Keeps s := fun _ => ⟨rfl, id⟩

theorem keeps_trans {s t u : Server} (h1 : s.Keeps t) (h2 : t.Keeps u) : s.Keeps u :=
  fun c => ⟨(h2 c).1.trans (h1 c).1, fun h => (h2 c).2 ((h1 c).2 h)⟩

theorem keeps_of_frame {s t : Server} (h : s.Frame t) : s.Keeps t := by
  intro c
  have := h.2.2.2.2.2.2.2 c
  have h1 : (t.clientAt c).view.registered = (s.clientAt c).view.registered :=
    congrArg Client.registered this
  have h2 : (t.clientAt c).view.HasNick = (s.clientAt c).view.HasNick :=
    congrArg Client.HasNick this
  exact ⟨h1, fun hn => by rw [← hn]; exact h2⟩

theorem keeps_modifyClient (s : Server) (c : ClientId) (f : Client → Client)
    (h1 : (f (s.clientAt c)).registered = (s.clientAt c).registered)
    (h2 : (s.clientAt c).HasNick = true → (f (s.clientAt c)).HasNick = true) :
    s.Keeps (s.modifyClient c f) := by
  intro c2
  rw [modifyClient_clientAt]
  split
  · rename_i h; subst h; exact ⟨h1, h2⟩
  · exact ⟨rfl, id⟩

theorem keeps_touch (s : Server) (c : ClientId) : s.Keeps (Client.Touch s c) := by
  have h := touched_fields (s.clientAt c) s.now
  exact keeps_modifyClient s c _ h.2.2.2.1 (fun hn => by
    unfold Client.HasNick at hn ⊢; rw [h.1]; exact hn)

theorem keeps_active (s : Server) (c : ClientId) : s.Keeps (Client.Active s c) :=
  keeps_modifyClient s c _ rfl id

theorem keeps_idle (s : Server) (c : ClientId) : s.Keeps (Client.Idle s c) := by
  rw [idle_eq]
  have h := idled_fields ((s.clientAt c).wrote [Reply.RplPing s.name]) s.now
  exact keeps_modifyClient s c _ h.2.2.2.1 (fun hn => by
    unfold Client.HasNick at hn ⊢; rw [h.1]; exact hn)

theorem keeps_quit (s : Server) (c : ClientId) (m r : Text) : s.Keeps (Client.Quit s c m r) := by
  cases hq : (s.clientAt c).hasQuit with
  | true =>
    have : Client.Quit s c m r = s := by simp [Client.Quit, hq]
    rw [this]; exact keeps_refl s
  | false =>
    obtain ⟨chs, g, w, heq⟩ := quit_spec s c m r hq
    rw [heq]
    intro c2
    show (if c2 = c then _ else _ : Client).registered = _ ∧
      (_ → (if c2 = c then _ else _ : Client).HasNick = true)
    split
    · rename_i h; subst h; exact ⟨rfl, id⟩
    · exact ⟨rfl, id⟩

theorem keeps_preHandle (s : Server) (cmd : Command) : s.Keeps (cmd.PreHandleServer s) := by
  cases cmd <;> simp only [Command.PreHandleServer, BaseCommand.PreHandleServer] <;>
    first
    | exact keeps_refl s
    | exact keeps_touch s _
    | exact keeps_trans (keeps_active s _) (keeps_touch _ _)

theorem keeps_handleServer (s : Server) (cmd : Command) (h : Server → Server)
    (hh : cmd.HandleServer? = some h) : s.Keeps (h s) := by
  cases cmd with
  | PassCommand b e => cases hh; exact keeps_of_frame (frame_numeric s _ _)
  | ProxyCommand b x => cases hh
  | RFC1459UserCommand b u r => cases hh; exact keeps_of_frame (frame_numeric s _ _)
  | RFC2812UserCommand b u r f => cases hh; exact keeps_of_frame (frame_numeric s _ _)
  | QuitCommand b m r => cases hh; exact keeps_quit s _ _ _
  | PingCommand b x => cases hh; exact keeps_of_frame (frame_reply s _ _)
  | PongCommand b => cases hh; exact keeps_refl s
  | IdleCommand b => cases hh; exact keeps_idle s _
  | MOTDCommand b => cases hh; exact keeps_of_frame (frame_motd s _)
  | Session c =>
    cases hh
    rcases session_step s c with h | ⟨target, message, _, e⟩
    · exact keeps_of_talk h
    · rw [e]; exact keeps_quit s _ _ _

theorem regStep_of_keeps {s t : Server} (h : s.Keeps t) : s.RegStep t := by
  intro c
  refine ⟨fun hr => ⟨by rw [(h c).1]; exact hr, (h c).2⟩, fun hr ht => ?_⟩
  rw [(h c).1, hr] at ht
  cases ht

theorem regStep_of_keeps_left {s u t : Server} (h1 : s.Keeps u) (h2 : u.RegStep t) :
    s.RegStep t := by
  intro c
  refine ⟨fun hr => ?_, fun hr ht => ?_⟩
  · have := (h2 c).1 (by rw [(h1 c).1]; exact hr)
    exact ⟨this.1, fun hn => this.2 ((h1 c).2 hn)⟩
  · exact (h2 c).2 (by rw [(h1 c).1]; exact hr) ht

theorem canRegister_iff (cl : Client) :
    cl.canRegister = true ↔ cl.registered = false ∧ cl.identified = true := by
  cases h1 : cl.registered <;> cases h2 : cl.HasNick <;> cases h3 : cl.HasUsername <;>
    cases h4 : cl.capState <;> simp [Client.canRegister, Client.identified, h1, h2, h3, h4]

theorem regStep_tryRegister (s : Server) (c : ClientId) : s.RegStep (Server.tryRegister s c) := by
  rw [tryRegister_eq]
  intro c2
  rw [modifyClient_clientAt]
  have t := touched_fields ({ s.clientAt c with registered := true } : Client) s.now
  have w := wrote_fields
    (({ s.clientAt c with registered := true } : Client).touched s.now) s.welcomeReplies
  split
  · rename_i h; subst h
    split
    · rename_i hcan
      obtain ⟨hr, hid⟩ := (canRegister_iff _).mp hcan
      refine ⟨fun hr2 => ?_, fun _ _ => ?_⟩
      · rw [hr] at hr2; cases hr2
      · unfold Client.identified Client.HasNick Client.HasUsername at hid ⊢
        rw [w.1, t.1, w.2.2.2.2.1, t.2.2.2.2.1, w.2.2.2.2.2.1, t.2.2.2.2.2.1]
        exact hid
    · exact ⟨fun hr => ⟨hr, id⟩, fun hr ht => by rw [hr] at ht; cases ht⟩
  · exact ⟨fun hr => ⟨hr, id⟩, fun hr ht => by rw [hr] at ht; cases ht⟩

theorem keeps_setClients (s : Server) (reg : ClientLookupSet) :
    s.Keeps { s with clients := reg } := fun _ => ⟨rfl, id⟩

theorem regStep_setUserInfo (s : Server) (c : ClientId) (u : Name) (r : Text) :
    s.RegStep (UserCommand.setUserInfo s c u r) := by
  rw [setUserInfo_eq]
  refine regStep_of_keeps_left ?_ (regStep_tryRegister _ c)
  exact keeps_trans (keeps_modifyClient s c _ rfl id) (keeps_setClients _ _)

theorem regStep_handleRegServer (s : Server) (cmd : Command) (h : Server → Server)
    (hh : cmd.HandleRegServer? = some h) : s.RegStep (h s) := by
  cases cmd with
  | PassCommand b e =>
    cases hh
    simp only [PassCommand.HandleRegServer]
    split
    · exact regStep_of_keeps
        (keeps_trans (keeps_of_frame (frame_numeric s _ _)) (keeps_quit _ _ _ _))
    · exact regStep_of_keeps (keeps_modifyClient s _ _ rfl id)
  | ProxyCommand b x =>
    cases hh
    exact regStep_of_keeps (keeps_modifyClient s _ _ rfl id)
  | RFC1459UserCommand b u r =>
    cases hh
    simp only [RFC1459UserCommand.HandleRegServer]
    split
    · exact regStep_of_keeps
        (keeps_trans (keeps_of_frame (frame_numeric s _ _)) (keeps_quit _ _ _ _))
    · exact regStep_setUserInfo s _ _ _
  | RFC2812UserCommand b u r f =>
    cases hh
    simp only [RFC2812UserCommand.HandleRegServer]
    split
    · exact regStep_of_keeps
        (keeps_trans (keeps_of_frame (frame_numeric s _ _)) (keeps_quit _ _ _ _))
    · refine regStep_of_keeps_left ?_ (regStep_setUserInfo _ _ _ _)
      split
      · exact keeps_trans (keeps_modifyClient s _ _ rfl id)
          (keeps_of_frame (frame_numeric _ _ _))
      · exact keeps_refl s
  | QuitCommand b m r => cases hh; exact regStep_of_keeps (keeps_quit s _ _ _)
  | PingCommand b x => cases hh
  | PongCommand b => cases hh
  | IdleCommand b => cases hh
  | MOTDCommand b => cases hh
  | Session c => cases hh

theorem regStep_processCommand (s : Server) (cmd : Command) :
    s.RegStep (s.processCommand cmd) := by
  unfold Server.processCommand
  simp only []
  split
  · split
    · exact regStep_of_keeps (keeps_quit s _ _ _)
    · rename_i h hh
      exact regStep_handleRegServer s cmd h hh
  · split
    · exact regStep_of_keeps (keeps_of_frame (frame_numeric s _ _))
    · rename_i h hh
      exact regStep_of_keeps
        (keeps_trans (keeps_preHandle s cmd) (keeps_handleServer _ cmd h hh))

theorem keeps_setNickname (s : Server) (c : ClientId) (n : Name) :
    s.Keeps (Client.SetNickname s c n) := by
  unfold Client.SetNickname
  split
  · exact keeps_refl s
  · rename_i h
    refine keeps_trans
      (keeps_modifyClient s c (fun cl => { cl with nick := n }) rfl (fun hn => absurd hn h)) ?_
    exact keeps_setClients _ _

theorem keeps_changeNickname (s : Server) (c : ClientId) (n : Name) (hn : n ≠ "") :
    s.Keeps (Client.ChangeNickname s c n) := by
  unfold Client.ChangeNickname
  simp only []
  refine keeps_trans ?_ (keeps_of_frame (frame_reply_fold _ _ _))
  intro c2
  show ((Function.update s.clientAt c _ c2 : Client)).registered = _ ∧
    (_ → (Function.update s.clientAt c _ c2 : Client).HasNick = true)
  by_cases h : c2 = c
  · subst h
    simp only [Function.update_same]
    refine ⟨trivial, fun _ => ?_⟩
    simp [Client.HasNick, hn]
  · rw [Function.update_noteq h]
    exact ⟨rfl, id⟩

theorem newClient_clientAt (s : Server) (c : ClientId) (hne : c ≠ s.nextClient) :
    (NewClient s).1.clientAt c = s.clientAt c := by
  simp [NewClient, Client.Touch, hne, Function.update_noteq hne]

theorem newClient_fresh (s : Server) :
    ((NewClient s).1.clientAt s.nextClient).registered = false := by
  simp only [NewClient, Client.Touch, modifyClient_clientAt, if_true, Function.update_same]
  rw [(touched_fields _ _).2.2.2.1]
  rfl

/-- One turn of the event loop, as far as the `registered` flags of the clients go. -/
theorem regStep_handle (s : Server) (e : Event) (ha : s.admits e = true)
    (he : e ≠ Event.newConn) : s.RegStep (s.handle e) := by
  cases e with
  | newConn => exact absurd rfl he
  | command cmd => exact regStep_processCommand s cmd
  | setNickname c2 n => exact regStep_of_keeps (keeps_setNickname s c2 n)
  | changeNickname c2 n =>
    simp only [Server.admits, Bool.and_eq_true, decide_eq_true_eq, bne_iff_ne] at ha
    exact regStep_of_keeps (keeps_changeNickname s c2 n ha.1.2)
  | tryRegister c2 => exact regStep_tryRegister s c2
  | capBegin c2 =>
    exact regStep_of_keeps (keeps_modifyClient s c2
      (fun cl => { cl with capState := CapState.CapNegotiating }) rfl id)
  | capEnd c2 =>
    exact regStep_of_keeps_left (keeps_modifyClient s c2 _ rfl id) (regStep_tryRegister _ c2)
  | shutdown => exact regStep_of_keeps (keeps_of_frame (frame_shutdown s))
  | tick d => exact regStep_of_keeps (fun _ => ⟨rfl, id⟩)

/-- In every state of the event loop a registered client has a nickname. -/
theorem registered_hasNick (s : Server) (h : Reachable s) (c : ClientId)
    (hr : (s.clientAt c).registered = true) : (s.clientAt c).HasNick = true := by
  induction h generalizing c with
  | init s hs => rw [hs.2.2 c] at hr; cases hr
  | step s e _ ha ih =>
    by_cases he : e = Event.newConn
    · subst he
      by_cases hc : c = s.nextClient
      · subst hc
        have := newClient_fresh s
        simp only [Server.handle] at hr
        rw [this] at hr
        cases hr
      · simp only [Server.handle] at hr ⊢
        rw [newClient_clientAt s c hc] at hr ⊢
        exact ih c hr
    · obtain ⟨h1, h2⟩ := regStep_handle s e ha he c
      cases hb : (s.clientAt c).registered with
      | true => exact (h1 hb).2 (ih c hb)
      | false =>
        have := h2 hb hr
        simp only [Client.identified, Bool.and_eq_true] at this
        exact this.1.1

/-! ### The read loop -/

/-- The loop of `Client.run` is left by its own condition: after `len(lines) + 1`
iterations `err` is set. -/
theorem run_stops (parse : String → Except ParseError Command) (check : Command → Command)
    (client : ClientId) (hostname : Name) (lines : List String) :
    (Client.run parse check client hostname lines).err ≠ none := by
  unfold Client.run
  have key : ∀ (n : Nat) (st : RunState), st.input.length < n →
      (Client.runLoop parse check client n st).err ≠ none := by
    intro n
    induction n with
    | zero => intro st h; exact absurd h (Nat.not_lt_zero _)
    | succ n ih =>
      intro st h
      unfold Client.runLoop
      split
      · rename_i he
        cases hi : st.input with
        | nil =>
          have : (Client.runBody parse check client st).err = some "read" := by
            simp [Client.runBody, hi, Client.send]
          cases n with
          | zero => simp [Client.runLoop, this]
          | succ n => unfold Client.runLoop; simp [this]
        | cons line rest =>
          cases hp : parse line with
          | error e =>
            have : (Client.runBody parse check client st).err = some "parse" := by
              cases e <;> simp [Client.runBody, hi, hp]
            cases n with
            | zero => simp [Client.runLoop, this]
            | succ n => unfold Client.runLoop; simp [this]
          | ok cmd =>
            apply ih
            simp only [Client.runBody, hi, hp, Client.send]
            rw [hi] at h
            simpa using h
      · assumption
  apply key
  simp [Client.send]

/-- A line that fails to parse ends the loop of `Client.run`: whatever the transport
holds after it, nothing more is sent, not even the quit for the closed connection. -/
theorem run_parse_error (parse : String → Except ParseError Command) (check : Command → Command)
    (client : ClientId) (hostname : Name) (line : String) (rest : List String) (e : ParseError)
    (h : parse line = .error e) :
    (Client.run parse check client hostname (line :: rest)).sent
      = [(NewProxyCommand hostname).SetClient client] := by
  cases e <;>
    simp [Client.run, Client.runLoop, Client.runBody, Client.send, h]

/-- C3 (the defect): on the input `bogus`, `PING irc` followed by a read failure, the read
loop forwards the proxy-hostname command only: the malformed first line ends the loop,
the second line is never read and no quit is sent. -/
theorem run_after_malformed_line :
    (Client.run sampleParse id 0 "host" ["bogus", "PING irc"]).sent
        = [Command.ProxyCommand { client := 0, code := "PROXY" } "host"] ∧
    (Client.run sampleParse id 0 "host" ["bogus", "PING irc"]).input = ["PING irc"] ∧
    (Client.run sampleParse id 0 "host" ["PING irc"]).sent
        = [Command.ProxyCommand { client := 0, code := "PROXY" } "host",
           Command.PingCommand { client := 0, code := "PING" } "irc",
           Command.QuitCommand { client := 0, code := "QUIT" } CONN_CLOSED CONN_CLOSED] := by
  decide

/-! ### Commands in the wrong registration state -/

theorem quit_self (s : Server) (c : ClientId) (m r : Text)
    (h : (s.clientAt c).hasQuit = false) :
    ∃ chs : List ChanId,
      (Client.Quit s c m r).clientAt c = { (s.clientAt c).quitted r with channels := chs } := by
  obtain ⟨chs, g, w, heq⟩ := quit_spec s c m r h
  refine ⟨chs, ?_⟩
  rw [heq]
  simp

theorem quit_hasQuit (s : Server) (c : ClientId) (m r : Text) :
    ((Client.Quit s c m r).clientAt c).hasQuit = true := by
  cases h : (s.clientAt c).hasQuit with
  | true => simp [Client.Quit, h]
  | false =>
    obtain ⟨chs, hq⟩ := quit_self s c m r h
    rw [hq]
    rfl

/-- C4: a command that is not valid in the registration state of its client.  For a
client that is not registered and a command without `HandleRegServer`, `processCommand`
is `Client.Quit` with message and reason "unexpected command" and nothing else: the
client is flagged as quit and, if it had not quit before, it is left as `Client.Quit`
leaves it (error reply written, timers stopped, transport closed; activity time and
all other fields as before, so neither hook nor handler ran).  For a registered client
and a command without `HandleServer`, the state changes by exactly one unknown-command
reply handed to the client's transport; the client is not quit by it. -/
theorem processCommand_wrong_state (s : Server) (cmd : Command) :
    ((s.clientAt cmd.Client).registered = false → cmd.HandleRegServer? = none →
      s.processCommand cmd = Client.Quit s cmd.Client CONN_UNEXPECTED CONN_UNEXPECTED ∧
      ((s.processCommand cmd).clientAt cmd.Client).hasQuit = true ∧
      ((s.clientAt cmd.Client).hasQuit = false →
        ∃ chs, (s.processCommand cmd).clientAt cmd.Client
          = { (s.clientAt cmd.Client).quitted "unexpected command" with channels := chs })) ∧
    ((s.clientAt cmd.Client).registered = true → cmd.HandleServer? = none →
      s.processCommand cmd
        = s.modifyClient cmd.Client (fun cl => cl.wrote [Reply.ErrUnknownCommand cmd.Code]) ∧
      ((s.processCommand cmd).clientAt cmd.Client).hasQuit = (s.clientAt cmd.Client).hasQuit ∧
      ((s.clientAt cmd.Client).conn.closed = false →
        ((s.processCommand cmd).clientAt cmd.Client).conn.written
          = (s.clientAt cmd.Client).conn.written ++ [Reply.ErrUnknownCommand cmd.Code])) := by
  constructor
  · intro hr hn
    have e : s.processCommand cmd = Client.Quit s cmd.Client CONN_UNEXPECTED CONN_UNEXPECTED := by
      simp [Server.processCommand, hr, hn]
    rw [e]
    exact ⟨rfl, quit_hasQuit s _ _ _, fun hq => quit_self s _ _ _ hq⟩
  · intro hr hn
    have e : s.processCommand cmd
        = s.modifyClient cmd.Client (fun cl => cl.wrote [Reply.ErrUnknownCommand cmd.Code]) := by
      simp [Server.processCommand, hr, hn, numeric_eq]
    rw [e]
    refine ⟨rfl, by simp [Client.wrote], fun hc => ?_⟩
    simp [Client.wrote, writeAll_open _ _ hc]

/-- The two cases of C4 on the sample server: a PING from a client that has only
connected, and a PROXY from a registered client. -/
theorem processCommand_wrong_state_witness :
    ((connectedServer.processCommand (Command.PingCommand { client := 0, code := "PING" } "irc")).clientAt
        0).hasQuit = true ∧
    ((registeredServer.processCommand
        (Command.ProxyCommand { client := 0, code := "PROXY" } "host")).clientAt 0).hasQuit
      = (registeredServer.clientAt 0).hasQuit :=
  ⟨((processCommand_wrong_state connectedServer
        (Command.PingCommand { client := 0, code := "PING" } "irc")).1
      (by decide) rfl).2.1,
   ((processCommand_wrong_state registeredServer
        (Command.ProxyCommand { client := 0, code := "PROXY" } "host")).2
      (by decide) rfl).2.1⟩

/-! ### Registration -/

theorem touched_timers (cl : Client) (now : Nat) :
    (cl.touched now).idleTimer = some { running := true, deadline := now + IDLE_TIMEOUT } ∧
    (cl.touched now).quitTimer = cl.quitTimer.map Timer.Stop := by
  obtain ⟨_, _, _, _, _, _, _, _, _, _, _, it, _, qt, _, _, _, _⟩ := cl
  cases it <;> cases qt <;> simp [Client.touched, Timer.AfterFunc, Timer.Reset]

/-- C5, the counterexample: `Client.Register` called on a client that has just connected,
without nickname or username, sets its `registered` flag and touches its timers:
`Register` checks the flag only. -/
theorem register_without_identity :
    (connectedServer.clientAt 0).registered = false ∧
    (connectedServer.clientAt 0).HasNick = false ∧
    (connectedServer.clientAt 0).HasUsername = false ∧
    ((Client.Register connectedServer 0).clientAt 0).registered = true ∧
    (Client.Register connectedServer 0).clientAt 0 ≠ connectedServer.clientAt 0 := by
  decide

/-- C5, as amended.  `Server.tryRegister` registers a client exactly when, on entry, it
is not registered, has a nickname and a username and is not negotiating capabilities:
then the flag is set, the idle timer is reset, and the welcome, your-host, created and
my-info replies and the message of the day are handed to its transport in that order;
in every other case `tryRegister` returns the state it was given.  `Client.Register`
returns the state it was given when the client is registered, and otherwise sets the
flag and touches the timers whatever the nickname, username and capability state are.
Along the event loop the flag of an allocated client stays set once it is set, and is
set only for a client that then has a nickname and a username and is not negotiating
capabilities. -/
theorem tryRegister_registers (s : Server) (c : ClientId) :
    ((s.clientAt c).registered = false ∧ (s.clientAt c).HasNick = true ∧
        (s.clientAt c).HasUsername = true ∧
        (s.clientAt c).capState ≠ CapState.CapNegotiating →
      (s.tryRegister c).clientAt c
        = (({ s.clientAt c with registered := true } : Client).touched s.now).wrote
            ([Reply.RplWelcome, Reply.RplYourHost, Reply.RplCreated, Reply.RplMyInfo]
              ++ s.motdReplies) ∧
      ((s.tryRegister c).clientAt c).registered = true ∧
      ((s.clientAt c).conn.closed = false →
        ((s.tryRegister c).clientAt c).conn.written
          = (s.clientAt c).conn.written
            ++ ([Reply.RplWelcome, Reply.RplYourHost, Reply.RplCreated, Reply.RplMyInfo]
              ++ s.motdReplies))) ∧
    (¬ ((s.clientAt c).registered = false ∧ (s.clientAt c).HasNick = true ∧
        (s.clientAt c).HasUsername = true ∧
        (s.clientAt c).capState ≠ CapState.CapNegotiating) →
      s.tryRegister c = s) ∧
    ((s.clientAt c).registered = true → Client.Register s c = s) ∧
    ((s.clientAt c).registered = false →
      (Client.Register s c).clientAt c
        = ({ s.clientAt c with registered := true } : Client).touched s.now) ∧
    (∀ e, s.admits e = true → c < s.nextClient →
      ((s.clientAt c).registered = true → ((s.handle e).clientAt c).registered = true) ∧
      ((s.clientAt c).registered = false → ((s.handle e).clientAt c).registered = true →
        ((s.handle e).clientAt c).HasNick = true ∧
        ((s.handle e).clientAt c).HasUsername = true ∧
        ((s.handle e).clientAt c).capState ≠ CapState.CapNegotiating)) := by
  have hcan : (s.clientAt c).canRegister = true ↔
      ((s.clientAt c).registered = false ∧ (s.clientAt c).HasNick = true ∧
        (s.clientAt c).HasUsername = true ∧
        (s.clientAt c).capState ≠ CapState.CapNegotiating) := by
    rw [canRegister_iff]
    simp [Client.identified, and_assoc]
  refine ⟨fun h => ?_, fun h => ?_, fun h => ?_, fun h => ?_, fun e ha hc => ?_⟩
  · have hc := hcan.mpr h
    have e : (s.tryRegister c).clientAt c
        = (({ s.clientAt c with registered := true } : Client).touched s.now).wrote
            s.welcomeReplies := by
      rw [tryRegister_eq]; simp [hc]
    have t := touched_fields ({ s.clientAt c with registered := true } : Client) s.now
    have w := wrote_fields
      (({ s.clientAt c with registered := true } : Client).touched s.now) s.welcomeReplies
    refine ⟨e, ?_, fun ho => ?_⟩
    · rw [e, w.2.2.2.1, t.2.2.2.1]
    · rw [e]
      have : (({ s.clientAt c with registered := true } : Client).touched s.now).conn.closed
          = false := by rw [t.2.2.1]; exact ho
      simp only [Client.wrote, t.2.2.1]
      rw [writeAll_open _ _ ho]
      rfl
  · have hc : (s.clientAt c).canRegister = false := by
      cases hx : (s.clientAt c).canRegister
      · rfl
      · exact absurd (hcan.mp hx) h
    rw [tryRegister_eq]
    exact modifyClient_id s c _ (by simp [hc])
  · simp [Client.Register, h]
  · rw [register_eq]; simp [h]
  · by_cases he : e = Event.newConn
    · subst he
      have := newClient_clientAt s c (Nat.ne_of_lt hc)
      simp only [Server.handle]
      rw [this]
      exact ⟨id, fun h1 h2 => by rw [h1] at h2; cases h2⟩
    · obtain ⟨h1, h2⟩ := regStep_handle s e ha he c
      refine ⟨fun hr => (h1 hr).1, fun hr ht => ?_⟩
      have := h2 hr ht
      simpa [Client.identified, and_assoc] using this

/-- The cases of C5 on the sample server: a client with username and nickname is
registered by `tryRegister`; a client with a nickname only is left alone; `Register` on
a registered client changes nothing. -/
theorem tryRegister_registers_witness :
    ((((sampleServer []).Run
        [Event.newConn,
         Event.command (Command.RFC1459UserCommand { client := 0, code := "USER" } "a" "Alice"),
         Event.setNickname 0 "alice"]).tryRegister 0).clientAt 0).registered = true ∧
    (((sampleServer []).Run [Event.newConn, Event.setNickname 0 "alice"]).tryRegister 0)
      = (sampleServer []).Run [Event.newConn, Event.setNickname 0 "alice"] ∧
    Client.Register registeredServer 0 = registeredServer :=
  ⟨((tryRegister_registers _ 0).1 (by decide)).2.1,
   (tryRegister_registers _ 0).2.1 (by decide),
   (tryRegister_registers registeredServer 0).2.2.1 (by decide)⟩

/-! ### Quit -/

/-- C6: `Client.Quit` is idempotent.  Called on a client whose `hasQuit` is set it
returns the state it was given (no client, registry, channel or history change, nothing
written to any transport), and since `Quit` sets `hasQuit`, a second `Quit` in a row,
with whatever message and reason, changes nothing. -/
theorem quit_idempotent (s : Server) (c : ClientId) (m r m2 r2 : Text) :
    ((s.clientAt c).hasQuit = true → Client.Quit s c m r = s) ∧
    ((Client.Quit s c m r).clientAt c).hasQuit = true ∧
    Client.Quit (Client.Quit s c m r) c m2 r2 = Client.Quit s c m r := by
  refine ⟨fun h => by simp [Client.Quit, h], quit_hasQuit s c m r, ?_⟩
  have h := quit_hasQuit s c m r
  generalize Client.Quit s c m r = t at h
  simp [Client.Quit, h]

/-- The first part of C6 on a client of the sample server that has quit. -/
theorem quit_idempotent_witness :
    Client.Quit (Client.Quit registeredServer 0 "bye" "bye") 0 "again" "again"
      = Client.Quit registeredServer 0 "bye" "bye" :=
  (quit_idempotent (Client.Quit registeredServer 0 "bye" "bye") 0 "again" "again" "" "").1
    (by decide)

theorem reachable_run (s : Server) (events : List Event) (h : Reachable s)
    (ha : s.admitsAll events = true) : Reachable (s.Run events) := by
  induction events generalizing s with
  | nil => exact h
  | cons e events ih =>
    simp only [Server.admitsAll, Bool.and_eq_true] at ha
    exact ih (s.handle e) (Reachable.step s e h ha.1) ha.2

theorem reachable_sample (file : GoString) : Reachable (sampleServer file) :=
  Reachable.init _ ⟨rfl, rfl, fun _ => rfl⟩

/-! ### The pre-processing hook -/

/-- C9, the counterexample: a PING from the registered client of the sample server,
processed at clock reading 7, is accepted and answered, and leaves the last-activity
time of the client at 0: the hook of `PingCommand` does not mark the client active.
An idle trigger processed in the same state leaves the idle timer as it was. -/
theorem ping_does_not_mark_active :
    ((registeredServer.handle (Event.tick 7)).clientAt 0).registered = true ∧
    (registeredServer.handle (Event.tick 7)).now = 7 ∧
    (((registeredServer.handle (Event.tick 7)).processCommand
        (Command.PingCommand { client := 0, code := "PING" } "irc")).clientAt 0).atime = 0 ∧
    (((registeredServer.handle (Event.tick 7)).processCommand
        (Command.PingCommand { client := 0, code := "PING" } "irc")).clientAt 0).conn.written
      = (registeredServer.clientAt 0).conn.written ++ [Reply.RplPong "alice!a@" "irc"] ∧
    (((registeredServer.handle (Event.tick 7)).processCommand
        (Command.IdleCommand { client := 0, code := "IDLE" })).clientAt 0).idleTimer
      = some { running := true, deadline := 60 } := by
  decide

/-- C9, as amended.  For a registered client and a command with a `HandleServer` method,
`processCommand` runs the hook `PreHandleServer` of the command and then its handler.
The hook marks the client active (last-activity time set to the clock reading) and
touches the timers for every command except four: for `PingCommand` and `PongCommand`
it touches the timers only, for `IdleCommand` and `QuitCommand` it does nothing.
Touching the timers stops a quit timer and sets the idle timer to fire after
`IDLE_TIMEOUT`. -/
theorem processCommand_hook (s : Server) (cmd : Command) (handler : Server → Server)
    (hr : (s.clientAt cmd.Client).registered = true)
    (hh : cmd.HandleServer? = some handler) :
    s.processCommand cmd = handler (cmd.PreHandleServer s) ∧
    (cmd.touchesOnly = false → cmd.hookIsNoOp = false →
      cmd.PreHandleServer s
        = s.modifyClient cmd.Client (fun cl =>
            ({ cl with atime := s.now } : Client).touched s.now) ∧
      ((cmd.PreHandleServer s).clientAt cmd.Client).atime = s.now ∧
      ((cmd.PreHandleServer s).clientAt cmd.Client).idleTimer
        = some { running := true, deadline := s.now + IDLE_TIMEOUT }) ∧
    (cmd.touchesOnly = true →
      cmd.PreHandleServer s = s.modifyClient cmd.Client (fun cl => cl.touched s.now) ∧
      ((cmd.PreHandleServer s).clientAt cmd.Client).atime = (s.clientAt cmd.Client).atime ∧
      ((cmd.PreHandleServer s).clientAt cmd.Client).idleTimer
        = some { running := true, deadline := s.now + IDLE_TIMEOUT }) ∧
    (cmd.hookIsNoOp = true → cmd.PreHandleServer s = s) ∧
    (∀ (cl : Client) (now : Nat),
      (cl.touched now).idleTimer = some { running := true, deadline := now + IDLE_TIMEOUT } ∧
      (cl.touched now).quitTimer = cl.quitTimer.map Timer.Stop) := by
  have hmain : s.processCommand cmd = handler (cmd.PreHandleServer s) := by
    simp [Server.processCommand, hr, hh]
  have hbase : ∀ c, BaseCommand.PreHandleServer s c
      = s.modifyClient c (fun cl => ({ cl with atime := s.now } : Client).touched s.now) := by
    intro c
    simp only [BaseCommand.PreHandleServer, Client.Touch, Client.Active,
      modifyClient_modifyClient, modifyClient_now]
  have hdefault : ∀ c,
      ((s.modifyClient c (fun cl =>
          ({ cl with atime := s.now } : Client).touched s.now)).clientAt c).atime = s.now ∧
      ((s.modifyClient c (fun cl =>
          ({ cl with atime := s.now } : Client).touched s.now)).clientAt c).idleTimer
        = some { running := true, deadline := s.now + IDLE_TIMEOUT } := by
    intro c
    simp only [modifyClient_clientAt, if_true]
    exact ⟨(touched_fields _ _).2.2.2.2.2.2.1, (touched_timers _ _).1⟩
  have htouch : ∀ c,
      ((s.modifyClient c (fun cl => cl.touched s.now)).clientAt c).atime = (s.clientAt c).atime ∧
      ((s.modifyClient c (fun cl => cl.touched s.now)).clientAt c).idleTimer
        = some { running := true, deadline := s.now + IDLE_TIMEOUT } := by
    intro c
    simp only [modifyClient_clientAt, if_true]
    exact ⟨(touched_fields _ _).2.2.2.2.2.2.1, (touched_timers _ _).1⟩
  refine ⟨hmain, ?_, ?_, ?_, touched_timers⟩
  · intro h1 h2
    have e : cmd.PreHandleServer s = BaseCommand.PreHandleServer s cmd.Client := by
      cases cmd <;> first | rfl | exact Bool.noConfusion h1 | exact Bool.noConfusion h2
    rw [e, hbase]
    exact ⟨rfl, (hdefault _).1, (hdefault _).2⟩
  · intro h1
    have e : cmd.PreHandleServer s = s.modifyClient cmd.Client (fun cl => cl.touched s.now) := by
      cases cmd <;> first | rfl | exact Bool.noConfusion h1
    rw [e]
    exact ⟨rfl, (htouch _).1, (htouch _).2⟩
  · intro h2
    cases cmd <;> first | rfl | exact Bool.noConfusion h2

/-- The statement of C9 for a MOTD command and for a PING of the registered client of
the sample server, at clock reading 7. -/
theorem processCommand_hook_witness :
    (((Command.MOTDCommand { client := 0, code := "MOTD" }).PreHandleServer
        (registeredServer.handle (Event.tick 7))).clientAt 0).atime = 7 ∧
    (((Command.PingCommand { client := 0, code := "PING" } "irc").PreHandleServer
        (registeredServer.handle (Event.tick 7))).clientAt 0).atime
      = ((registeredServer.handle (Event.tick 7)).clientAt 0).atime :=
  ⟨((processCommand_hook (registeredServer.handle (Event.tick 7))
        (Command.MOTDCommand { client := 0, code := "MOTD" }) _ (by decide) rfl).2.1
      rfl rfl).2.1,
   ((processCommand_hook (registeredServer.handle (Event.tick 7))
        (Command.PingCommand { client := 0, code := "PING" } "irc") _ (by decide) rfl).2.2.1
      rfl).2.1⟩

/-! ### The idle trigger -/

theorem idled_timer (cl : Client) (now : Nat) :
    (cl.idled now).quitTimer = some { running := true, deadline := now + QUIT_TIMEOUT } := by
  obtain ⟨_, _, _, _, _, _, _, _, _, _, _, it, _, qt, _, _, _, _⟩ := cl
  cases qt <;> simp [Client.idled, Timer.AfterFunc, Timer.Reset]

/-- C10: the idle trigger of a client of the sample server that has connected and not
registered.  `NewClient` has armed the idle timer of the client, which sends the
trigger after `IDLE_TIMEOUT`, and the client has not quit.  After the trigger is
processed the client has quit, its transport is closed, the only line written to it
is the error "unexpected command", no keepalive probe, and no quit timer is armed. -/
theorem idle_before_registration :
    (connectedServer.clientAt 0).idleTimer
      = some { running := true, deadline := IDLE_TIMEOUT } ∧
    (connectedServer.clientAt 0).hasQuit = false ∧
    (connectedServer.clientAt 0).registered = false ∧
    ((connectedServer.processCommand
        (Command.IdleCommand { client := 0, code := "IDLE" })).clientAt 0).hasQuit = true ∧
    ((connectedServer.processCommand
        (Command.IdleCommand { client := 0, code := "IDLE" })).clientAt 0).conn.closed = true ∧
    ((connectedServer.processCommand
        (Command.IdleCommand { client := 0, code := "IDLE" })).clientAt 0).conn.written
      = [Reply.RplError "unexpected command"] ∧
    ((connectedServer.processCommand
        (Command.IdleCommand { client := 0, code := "IDLE" })).clientAt 0).quitTimer = none := by
  decide

/-- The idle trigger in a state of the event loop, for a client that has not quit.  When
the client is registered, exactly one keepalive probe (`RplPing` of the server) is
written to its transport, its quit timer is armed to fire after `QUIT_TIMEOUT`, the
client has not quit and its transport is open, its other fields and all other clients
are as before.  When the client is not registered, `processCommand` is `Client.Quit`
with "unexpected command". -/
theorem idle_probe (s : Server) (h : Reachable s) (base : BaseCommand)
    (hq : (s.clientAt base.client).hasQuit = false) :
    ((s.clientAt base.client).registered = true →
      s.processCommand (Command.IdleCommand base)
        = s.modifyClient base.client (fun cl => (cl.wrote [Reply.RplPing s.name]).idled s.now) ∧
      ((s.processCommand (Command.IdleCommand base)).clientAt base.client).conn.written
        = (s.clientAt base.client).conn.written ++ [Reply.RplPing s.name] ∧
      ((s.processCommand (Command.IdleCommand base)).clientAt base.client).quitTimer
        = some { running := true, deadline := s.now + QUIT_TIMEOUT } ∧
      ((s.processCommand (Command.IdleCommand base)).clientAt base.client).hasQuit = false ∧
      ((s.processCommand (Command.IdleCommand base)).clientAt base.client).conn.closed = false ∧
      ((s.processCommand (Command.IdleCommand base)).clientAt base.client).registered = true) ∧
    ((s.clientAt base.client).registered = false →
      s.processCommand (Command.IdleCommand base)
        = Client.Quit s base.client "unexpected command" "unexpected command") := by
  have hopen : (s.clientAt base.client).conn.closed = false := by
    rw [(inv_reachable s h).1 base.client]; exact hq
  constructor
  · intro hr
    have hr' : (s.clientAt (Command.IdleCommand base).Client).registered = true := hr
    have e : s.processCommand (Command.IdleCommand base)
        = s.modifyClient base.client
            (fun cl => (cl.wrote [Reply.RplPing s.name]).idled s.now) := by
      simp only [Server.processCommand, hr', Command.HandleServer?, Command.PreHandleServer]
      exact idle_eq s base.client
    have f := idled_fields ((s.clientAt base.client).wrote [Reply.RplPing s.name]) s.now
    have w := wrote_fields (s.clientAt base.client) [Reply.RplPing s.name]
    rw [e]
    simp only [modifyClient_clientAt, if_true]
    refine ⟨trivial, ?_, idled_timer _ _, ?_, ?_, ?_⟩
    · rw [f.2.2.1]
      simp [Client.wrote, writeAll_open _ _ hopen]
    · rw [f.2.1, w.2.1]; exact hq
    · rw [f.2.2.1, w.2.2.1]; exact hopen
    · rw [f.2.2.2.1, w.2.2.2.1]; exact hr
  · intro hr
    have hr' : (s.clientAt (Command.IdleCommand base).Client).registered = false := hr
    simp only [Server.processCommand, hr', Command.HandleRegServer?]
    rfl

/-- The idle trigger of the registered client of the sample server. -/
theorem idle_probe_witness :
    ((registeredServer.processCommand
        (Command.IdleCommand { client := 0, code := "IDLE" })).clientAt 0).conn.written
      = (registeredServer.clientAt 0).conn.written ++ [Reply.RplPing registeredServer.name] ∧
    ((registeredServer.processCommand
        (Command.IdleCommand { client := 0, code := "IDLE" })).clientAt 0).quitTimer
      = some { running := true, deadline := registeredServer.now + QUIT_TIMEOUT } :=
  ⟨((idle_probe registeredServer
        (reachable_run _ registration (reachable_sample []) (by decide))
        { client := 0, code := "IDLE" } (by decide)).1 (by decide)).2.1,
   ((idle_probe registeredServer
        (reachable_run _ registration (reachable_sample []) (by decide))
        { client := 0, code := "IDLE" } (by decide)).1 (by decide)).2.2.1⟩

/-! ### The password check -/

theorem quitted_fields (cl : Client) (r : Text) :
    (cl.quitted r).authorized = cl.authorized ∧ (cl.quitted r).username = cl.username ∧
    (cl.quitted r).realname = cl.realname ∧ (cl.quitted r).registered = cl.registered ∧
    (cl.quitted r).nick = cl.nick ∧ (cl.quitted r).hostname = cl.hostname ∧
    (cl.quitted r).flags = cl.flags ∧ (cl.quitted r).atime = cl.atime ∧
    (cl.quitted r).hasQuit = true ∧ (cl.quitted r).conn.closed = true :=
  ⟨rfl, rfl, rfl, rfl, rfl, rfl, rfl, rfl, rfl, close_closed _⟩

theorem quitted_written (cl : Client) (r : Text) (h : cl.conn.closed = false) :
    (cl.quitted r).conn.written = cl.conn.written ++ [Reply.RplError r] := by
  simp [Client.quitted, IRCConn.Write, IRCConn.Close, h]

/-- C13: the password check of registration.  When the credential verification recorded
a failure, the client is sent the password-mismatch error and is quit with message and
reason "bad password"; its `authorized` flag is as before.  Otherwise `authorized`
is set, nothing else changes, and the client is not quit by the command. -/
theorem pass_check (s : Server) (client : ClientId) (err : Option String) :
    (err.isSome = true →
      PassCommand.HandleRegServer s client err
        = Client.Quit (Client.Numeric s client Reply.ErrPasswdMismatch) client
            "bad password" "bad password" ∧
      ((PassCommand.HandleRegServer s client err).clientAt client).hasQuit = true ∧
      ((PassCommand.HandleRegServer s client err).clientAt client).authorized
        = (s.clientAt client).authorized ∧
      ((s.clientAt client).hasQuit = false → (s.clientAt client).conn.closed = false →
        ((PassCommand.HandleRegServer s client err).clientAt client).conn.written
          = (s.clientAt client).conn.written
            ++ [Reply.ErrPasswdMismatch, Reply.RplError "bad password"])) ∧
    (err = none →
      PassCommand.HandleRegServer s client err
        = s.modifyClient client (fun cl => { cl with authorized := true }) ∧
      ((PassCommand.HandleRegServer s client err).clientAt client).authorized = true ∧
      ((PassCommand.HandleRegServer s client err).clientAt client).hasQuit
        = (s.clientAt client).hasQuit) := by
  constructor
  · intro he
    have e : PassCommand.HandleRegServer s client err
        = Client.Quit (Client.Numeric s client Reply.ErrPasswdMismatch) client
            "bad password" "bad password" := by
      simp [PassCommand.HandleRegServer, he, CONN_BAD_PASSWORD]
    have h1 : (Client.Numeric s client Reply.ErrPasswdMismatch).clientAt client
        = (s.clientAt client).wrote [Reply.ErrPasswdMismatch] := by
      rw [numeric_eq]; simp
    rw [e]
    refine ⟨rfl, quit_hasQuit _ _ _ _, ?_, ?_⟩
    · cases hq : (s.clientAt client).hasQuit with
      | true =>
        have : ((Client.Numeric s client Reply.ErrPasswdMismatch).clientAt client).hasQuit
            = true := by rw [h1]; exact hq
        simp only [Client.Quit, this, if_true]
        rw [h1]; rfl
      | false =>
        have : ((Client.Numeric s client Reply.ErrPasswdMismatch).clientAt client).hasQuit
            = false := by rw [h1]; exact hq
        obtain ⟨chs, hc⟩ := quit_self _ client "bad password" "bad password" this
        rw [hc, h1]; rfl
    · intro hq ho
      have : ((Client.Numeric s client Reply.ErrPasswdMismatch).clientAt client).hasQuit
          = false := by rw [h1]; exact hq
      obtain ⟨chs, hc⟩ := quit_self _ client "bad password" "bad password" this
      rw [hc, h1]
      have ho2 : ((s.clientAt client).wrote [Reply.ErrPasswdMismatch]).conn.closed = false := by
        rw [(wrote_fields _ _).2.2.1]; exact ho
      show (((s.clientAt client).wrote [Reply.ErrPasswdMismatch]).quitted _).conn.written = _
      rw [quitted_written _ _ ho2]
      simp [Client.wrote, writeAll_open _ _ ho]
  · intro he
    subst he
    refine ⟨by simp [PassCommand.HandleRegServer], ?_, ?_⟩ <;>
      simp [PassCommand.HandleRegServer]

/-- The two cases of C13 on a client of the sample server that has connected: a failed
check quits it, a successful one does not. -/
theorem pass_check_witness :
    ((PassCommand.HandleRegServer connectedServer 0 (some "mismatch")).clientAt 0).hasQuit
      = true ∧
    ((PassCommand.HandleRegServer connectedServer 0 none).clientAt 0).hasQuit
      = (connectedServer.clientAt 0).hasQuit :=
  ⟨((pass_check connectedServer 0 (some "mismatch")).1 rfl).2.1,
   ((pass_check connectedServer 0 none).2 rfl).2.2⟩

/-! ### The channel index -/

/-- C16: the channel index holds one channel per name up to letter case.  `Add` of a
channel whose lower-cased name is a key returns an error and the map as it was;
otherwise `Add` returns no error, `Get` then finds the channel under every name that
is its name up to letter case, and `Get` of every other name is as before. -/
theorem channelNameMap_add (channels : ChannelNameMap) (id : ChanId) (channel : Channel) :
    ((NameMap.get channels channel.name.ToLower).isSome = true →
      (ChannelNameMap.Add channels id channel).2.isSome = true ∧
      (ChannelNameMap.Add channels id channel).1 = channels) ∧
    (NameMap.get channels channel.name.ToLower = none →
      (ChannelNameMap.Add channels id channel).2 = none ∧
      (∀ name : Name, name.ToLower = channel.name.ToLower →
        ChannelNameMap.Get (ChannelNameMap.Add channels id channel).1 name = some id) ∧
      (∀ name : Name, name.ToLower ≠ channel.name.ToLower →
        ChannelNameMap.Get (ChannelNameMap.Add channels id channel).1 name
          = ChannelNameMap.Get channels name)) := by
  constructor
  · intro h
    simp [ChannelNameMap.Add, h]
  · intro h
    have e : ChannelNameMap.Add channels id channel
        = (NameMap.set channels channel.name.ToLower id, none) := by
      simp [ChannelNameMap.Add, h]
    rw [e]
    refine ⟨rfl, fun name hn => ?_, fun name hn => ?_⟩
    · simp [ChannelNameMap.Get, nameMap_get_set, hn]
    · simp [ChannelNameMap.Get, nameMap_get_set, Ne.symm hn]

/-- The two cases of C16 on an index that holds the channel `#Test`: a second channel
named `#TEST` is refused, a channel named `#other` is added. -/
theorem channelNameMap_add_witness :
    (ChannelNameMap.Add [("#test", 0)] 1
        { (default : Channel) with name := "#TEST" }).1 = [("#test", 0)] ∧
    ChannelNameMap.Get
        (ChannelNameMap.Add [("#test", 0)] 1 { (default : Channel) with name := "#other" }).1
        "#OTHER" = some 1 :=
  ⟨((channelNameMap_add [("#test", 0)] 1 { (default : Channel) with name := "#TEST" }).1
      (by decide)).2,
   ((channelNameMap_add [("#test", 0)] 1 { (default : Channel) with name := "#other" }).2
      (by decide)).2.1 "#OTHER" (by decide)⟩

/-! ### NAMES -/

/-- C19: `NamesCommand.HandleServer` with an empty list of channel names returns the
state it was given, whatever the channel index holds: no reply is sent. -/
theorem names_without_arguments (s : Server) (msg : NamesCommand) (h : msg.channels = []) :
    NamesCommand.HandleServer s msg = s := by
  unfold NamesCommand.HandleServer
  simp only []
  split
  · rename_i h0
    have : s.channels = [] := by
      cases hc : s.channels with
      | nil => rfl
      | cons a l => rw [hc] at h0; simp at h0
    rw [this]; rfl
  · rw [h]; rfl

/-- The statement of C19 on the sample server with three channels. -/
theorem names_without_arguments_witness :
    NamesCommand.HandleServer chatServer
        { base := { client := 0, code := "NAMES" }, channels := [] } = chatServer :=
  names_without_arguments chatServer
    { base := { client := 0, code := "NAMES" }, channels := [] } rfl

/-! ### The friend set -/

theorem clientSet_add_nodup (l : ClientSet) (c : ClientId) (h : l.Nodup) :
    (ClientSet.Add l c).Nodup := by
  unfold ClientSet.Add
  split
  · exact h
  · rename_i hc
    rw [List.nodup_append]
    refine ⟨h, List.nodup_singleton c, ?_⟩
    intro a ha hb
    simp only [List.mem_singleton] at hb
    subst hb
    exact hc ha

theorem clientSet_mem_add (l : ClientSet) (c f : ClientId) :
    f ∈ ClientSet.Add l c ↔ f ∈ l ∨ f = c := by
  unfold ClientSet.Add
  split
  · rename_i hc
    constructor
    · exact Or.inl
    · rintro (h | h)
      · exact h
      · subst h; exact hc
  · simp

theorem members_fold_nodup (ms : List (ClientId × List ChannelMode)) (l : ClientSet)
    (h : l.Nodup) :
    (ms.foldl (fun friends member => ClientSet.Add friends member.1) l).Nodup := by
  induction ms generalizing l with
  | nil => exact h
  | cons m ms ih => exact ih _ (clientSet_add_nodup l m.1 h)

theorem members_fold_mem (ms : List (ClientId × List ChannelMode)) (l : ClientSet)
    (f : ClientId) :
    f ∈ ms.foldl (fun friends member => ClientSet.Add friends member.1) l
      ↔ f ∈ l ∨ ∃ m ∈ ms, m.1 = f := by
  induction ms generalizing l with
  | nil => simp
  | cons m ms ih =>
    rw [List.foldl_cons, ih, clientSet_mem_add]
    constructor
    · rintro ((h | h) | ⟨x, hx, hf⟩)
      · exact Or.inl h
      · exact Or.inr ⟨m, List.mem_cons_self _ _, h.symm⟩
      · exact Or.inr ⟨x, List.mem_cons_of_mem _ hx, hf⟩
    · rintro (h | ⟨x, hx, hf⟩)
      · exact Or.inl (Or.inl h)
      · rcases List.mem_cons.mp hx with rfl | hx
        · exact Or.inl (Or.inr hf.symm)
        · exact Or.inr ⟨x, hx, hf⟩

/-- The friend set holds no client twice. -/
theorem friends_nodup (s : Server) (c : ClientId) : (Client.Friends s c).Nodup := by
  unfold Client.Friends
  have key : ∀ (chs : List ChanId) (l : ClientSet), l.Nodup →
      (chs.foldl (fun friends channel =>
        (s.channelAt channel).members.foldl
          (fun friends member => ClientSet.Add friends member.1) friends) l).Nodup := by
    intro chs
    induction chs with
    | nil => intro l h; exact h
    | cons ch chs ih => intro l h; exact ih _ (members_fold_nodup _ l h)
  exact key _ _ (clientSet_add_nodup [] c List.nodup_nil)

/-- The friend set of a client: the client itself and every member of every channel in
its channel set. -/
theorem mem_friends (s : Server) (c f : ClientId) :
    f ∈ Client.Friends s c ↔
      f = c ∨ ∃ ch ∈ (s.clientAt c).channels, ∃ m ∈ (s.channelAt ch).members, m.1 = f := by
  unfold Client.Friends
  have key : ∀ (chs : List ChanId) (l : ClientSet),
      f ∈ chs.foldl (fun friends channel =>
        (s.channelAt channel).members.foldl
          (fun friends member => ClientSet.Add friends member.1) friends) l
        ↔ f ∈ l ∨ ∃ ch ∈ chs, ∃ m ∈ (s.channelAt ch).members, m.1 = f := by
    intro chs
    induction chs with
    | nil => intro l; simp
    | cons ch chs ih =>
      intro l
      rw [List.foldl_cons, ih, members_fold_mem]
      constructor
      · rintro ((h | h) | ⟨x, hx, hm⟩)
        · exact Or.inl h
        · exact Or.inr ⟨ch, List.mem_cons_self _ _, h⟩
        · exact Or.inr ⟨x, List.mem_cons_of_mem _ hx, hm⟩
      · rintro (h | ⟨x, hx, hm⟩)
        · exact Or.inl (Or.inl h)
        · rcases List.mem_cons.mp hx with rfl | hx
          · exact Or.inl (Or.inr hm)
          · exact Or.inr ⟨x, hx, hm⟩
  rw [key, clientSet_mem_add]
  simp

theorem friends_congr (s t : Server) (c : ClientId)
    (h1 : (t.clientAt c).channels = (s.clientAt c).channels) (h2 : t.channelAt = s.channelAt) :
    Client.Friends t c = Client.Friends s c := by
  unfold Client.Friends
  rw [h1, h2]

/-- A round of replies to clients that are all different writes the reply once to each
of them and leaves every other client as it is. -/
theorem reply_fold_nodup (r : Reply) (l : List ClientId) (s : Server) (h : l.Nodup) :
    l.foldl (fun s f => (Client.Reply s f r).1) s
      = { s with clientAt := fun c =>
            if c ∈ l then (s.clientAt c).wrote [r] else s.clientAt c } := by
  induction l generalizing s with
  | nil => simp
  | cons f l ih =>
    rw [List.nodup_cons] at h
    rw [List.foldl_cons, ih _ h.2, reply_eq]
    simp only [Server.modifyClient]
    congr 1
    funext c
    by_cases hc : c = f
    · subst hc
      simp [h.1]
    · simp [hc, Function.update_noteq hc]

/-! ### The audience of a quit -/

theorem clientSet_remove_nodup (l : ClientSet) (c : ClientId) (h : l.Nodup) :
    (ClientSet.Remove l c).Nodup :=
  List.Nodup.filter _ h

theorem clientSet_mem_remove (l : ClientSet) (c f : ClientId) :
    f ∈ ClientSet.Remove l c ↔ f ∈ l ∧ f ≠ c := by
  simp [ClientSet.Remove]

/-- The whole effect of `Client.Quit` on a client that has not quit, with the audience
of the departure notice: the friend set of the client in the state `Quit` is called
in, without the client. -/
theorem quit_exact (s : Server) (c : ClientId) (m r : Text)
    (h : (s.clientAt c).hasQuit = false) :
    ∃ (chs : List ChanId) (g : ChanId → Channel),
      Client.Quit s c m r =
        { s with
          clients := s.clients.Remove c (s.clientAt c)
          whoWas := s.whoWas.Append (s.clientAt c)
          channelAt := g
          clientAt := fun c2 =>
            if c2 = c then { (s.clientAt c).quitted r with channels := chs }
            else if c2 ∈ Client.Friends s c then
              (s.clientAt c2).wrote [Reply.RplQuit (s.clientAt c).Id m]
            else s.clientAt c2 } := by
  unfold Client.Quit
  rw [if_neg (by simp [h])]
  simp only []
  generalize hs3 : ({ (Client.Reply (s.modifyClient c fun cl => { cl with hasQuit := true }) c
      (Reply.RplError r)).1 with whoWas := _ } : Server) = s3
  have e3 : s3 = { s with
      whoWas := s.whoWas.Append (s.clientAt c)
      clientAt := Function.update s.clientAt c
        { s.clientAt c with
          hasQuit := true
          conn := ((s.clientAt c).conn.Write (Reply.RplError r)).1 } } := by
    rw [← hs3]
    simp [Client.Reply, Server.modifyClient, WhoWasList.Append]
  have hfriends : Client.Friends s3 c = Client.Friends s c := by
    apply friends_congr
    · rw [e3]; simp
    · rw [e3]
  rw [hfriends]
  have hnd : (ClientSet.Remove (Client.Friends s c) c).Nodup :=
    clientSet_remove_nodup _ _ (friends_nodup s c)
  have hmem : ∀ f, f ∈ ClientSet.Remove (Client.Friends s c) c
      ↔ f ∈ Client.Friends s c ∧ f ≠ c := clientSet_mem_remove _ _
  generalize (ClientSet.Remove (Client.Friends s c) c) = friends at *
  obtain ⟨chs, g, hd⟩ := destroy_spec s3 c
  rw [hd]
  generalize hs4 : ({ s3 with clients := _, channelAt := g, clientAt := _ } : Server) = s4
  have hid : (s4.clientAt c).Id = (s.clientAt c).Id := by
    rw [← hs4, e3]
    simp [Client.Id, Client.UserHost, Client.Nick, Client.HasNick, Client.HasUsername]
  have hfold : (if friends.length > 0 then
        friends.foldl (fun s friend =>
          (Client.Reply s friend (Reply.RplQuit (s4.clientAt c).Id m)).1) s4
      else s4)
      = { s4 with clientAt := fun c2 =>
            if c2 ∈ friends then (s4.clientAt c2).wrote [Reply.RplQuit (s.clientAt c).Id m]
            else s4.clientAt c2 } := by
    by_cases hf : friends = []
    · subst hf; simp
    · rw [if_pos (List.length_pos.mpr hf), reply_fold_nodup _ _ _ hnd, hid]
  refine ⟨chs, g, ?_⟩
  rw [hfold, ← hs4, e3]
  simp only [Function.update_same, Function.update_idem, Client.quitted]
  congr 1
  funext c2
  by_cases h2 : c2 = c
  · subst h2
    have : c2 ∉ friends := fun hx => ((hmem c2).mp hx).2 rfl
    simp [this]
  · have hiff : c2 ∈ friends ↔ c2 ∈ Client.Friends s c := by
      rw [hmem]; exact ⟨fun hx => hx.1, fun hx => ⟨hx, h2⟩⟩
    by_cases hx : c2 ∈ Client.Friends s c
    · simp [h2, hx, hiff.mpr hx, Function.update_noteq h2]
    · simp [h2, hx, mt hiff.mp hx, Function.update_noteq h2]

theorem wrote_written (cl : Client) (rs : List Reply) (h : cl.conn.closed = false) :
    (cl.wrote rs).conn.written = cl.conn.written ++ rs := by
  simp [Client.wrote, writeAll_open _ _ h]

/-- C11: `Client.Quit` on a client that has not quit.  The quitting client is sent the
error reply built from `reason` and nothing else (it is left flagged, with its timers
stopped and its transport closed).  Every other client that is a member of a channel
in the channel set the quitting client had when `Quit` was called is handed the
departure notice, built from the identity of the quitting client and `message`,
exactly once; every client that is in none of these channels is left as it was. -/
theorem quit_notifies_friends (s : Server) (c : ClientId) (message reason : Text)
    (h : (s.clientAt c).hasQuit = false) :
    (∃ chs, (Client.Quit s c message reason).clientAt c
      = { (s.clientAt c).quitted reason with channels := chs }) ∧
    ((s.clientAt c).conn.closed = false →
      ((Client.Quit s c message reason).clientAt c).conn.written
        = (s.clientAt c).conn.written ++ [Reply.RplError reason]) ∧
    (∀ f, f ≠ c →
      (∃ ch ∈ (s.clientAt c).channels, ∃ mbr ∈ (s.channelAt ch).members, mbr.1 = f) →
      (Client.Quit s c message reason).clientAt f
        = (s.clientAt f).wrote [Reply.RplQuit (s.clientAt c).Id message] ∧
      ((s.clientAt f).conn.closed = false →
        ((Client.Quit s c message reason).clientAt f).conn.written
          = (s.clientAt f).conn.written ++ [Reply.RplQuit (s.clientAt c).Id message])) ∧
    (∀ f, f ≠ c →
      ¬ (∃ ch ∈ (s.clientAt c).channels, ∃ mbr ∈ (s.channelAt ch).members, mbr.1 = f) →
      (Client.Quit s c message reason).clientAt f = s.clientAt f) := by
  obtain ⟨chs, g, he⟩ := quit_exact s c message reason h
  rw [he]
  refine ⟨⟨chs, by simp⟩, fun ho => ?_, fun f hf hm => ?_, fun f hf hm => ?_⟩
  · simp only [if_true]
    exact quitted_written _ _ ho
  · have hx : f ∈ Client.Friends s c := (mem_friends s c f).mpr (Or.inr hm)
    simp only [if_neg hf, if_pos hx]
    exact ⟨trivial, fun ho => wrote_written _ _ ho⟩
  · have hx : f ∉ Client.Friends s c := by
      intro hx
      rcases (mem_friends s c f).mp hx with h1 | h1
      · exact hf h1
      · exact hm h1
    simp only [if_neg hf, if_neg hx]

/-- The statement of C11 when `alice` quits on the sample server: `bob`, who shares two
channels with her, is handed one departure notice, and `dave`, who shares none, is left
as he was. -/
theorem quit_notifies_friends_witness :
    ((Client.Quit chatServer 0 "bye" "gone").clientAt 1).conn.written
      = [Reply.RplQuit "alice!alice@host" "bye"] ∧
    (Client.Quit chatServer 0 "bye" "gone").clientAt 3 = chatServer.clientAt 3 ∧
    ((Client.Quit chatServer 0 "bye" "gone").clientAt 0).conn.written
      = [Reply.RplError "gone"] :=
  ⟨((quit_notifies_friends chatServer 0 "bye" "gone" (by decide)).2.2.1 1 (by decide)
      ⟨0, by decide, (1, []), by decide, rfl⟩).2 (by decide),
   (quit_notifies_friends chatServer 0 "bye" "gone" (by decide)).2.2.2 3 (by decide)
      (by decide),
   (quit_notifies_friends chatServer 0 "bye" "gone" (by decide)).2.1 (by decide)⟩

/-! ### Changing the nickname -/

/-- The whole effect of `Client.ChangeNickname`. -/
theorem changeNickname_exact (s : Server) (c : ClientId) (n : Name) :
    Client.ChangeNickname s c n =
      { s with
        clients := (s.clients.Remove c (s.clientAt c)).Add c { s.clientAt c with nick := n }
        whoWas := s.whoWas.Append (s.clientAt c)
        clientAt := fun c2 =>
          if c2 = c then
            ({ s.clientAt c with nick := n } : Client).wrote [Reply.RplNick (s.clientAt c).Id n]
          else if c2 ∈ Client.Friends s c then
            (s.clientAt c2).wrote [Reply.RplNick (s.clientAt c).Id n]
          else s.clientAt c2 } := by
  generalize hs4 : ({ s with
      clients := (s.clients.Remove c (s.clientAt c)).Add c { s.clientAt c with nick := n }
      whoWas := s.whoWas.Append (s.clientAt c)
      clientAt := Function.update s.clientAt c { s.clientAt c with nick := n } } : Server) = s4
  have e4 := hs4.symm
  have step : Client.ChangeNickname s c n
      = (Client.Friends s4 c).foldl
          (fun t friend => (Client.Reply t friend (Reply.RplNick (s.clientAt c).Id n)).1) s4 := by
    rw [← hs4]
    simp only [Client.ChangeNickname, Server.modifyClient, Function.update_same]
  rw [step]
  have hfriends : Client.Friends s4 c = Client.Friends s c := by
    apply friends_congr
    · rw [e4]; simp
    · rw [e4]
  rw [hfriends, reply_fold_nodup _ _ _ (friends_nodup s c), e4]
  congr 1
  funext c2
  have hc : c ∈ Client.Friends s c := (mem_friends s c c).mpr (Or.inl rfl)
  by_cases h2 : c2 = c
  · subst h2; simp [hc]
  · simp [h2, Function.update_noteq h2]

/-- C12: `Client.ChangeNickname`.  The notice is built from the identity the client has
before the change; the registry is the old one with the client removed under its old
nickname and added under the new one; the history buffer archives the old identity;
the client itself and every member of every channel in its channel set are handed the
notice exactly once, every other client is left as it was; afterwards the nickname of
the client is the new one.  With the registry as modelled, a new nickname that is not
empty and not held by another client resolves to the client afterwards, and the old
nickname, when it differs up to letter case, resolves to nobody. -/
theorem changeNickname_notifies (s : Server) (c : ClientId) (new : Name) :
    (Client.ChangeNickname s c new).clients
      = (s.clients.Remove c (s.clientAt c)).Add c { s.clientAt c with nick := new } ∧
    (Client.ChangeNickname s c new).whoWas = s.whoWas.Append (s.clientAt c) ∧
    (Client.ChangeNickname s c new).clientAt c
      = ({ s.clientAt c with nick := new } : Client).wrote
          [Reply.RplNick (s.clientAt c).Id new] ∧
    ((Client.ChangeNickname s c new).clientAt c).nick = new ∧
    (∀ f, f ≠ c →
      (∃ ch ∈ (s.clientAt c).channels, ∃ mbr ∈ (s.channelAt ch).members, mbr.1 = f) →
      (Client.ChangeNickname s c new).clientAt f
        = (s.clientAt f).wrote [Reply.RplNick (s.clientAt c).Id new]) ∧
    (∀ f, f ≠ c →
      ¬ (∃ ch ∈ (s.clientAt c).channels, ∃ mbr ∈ (s.channelAt ch).members, mbr.1 = f) →
      (Client.ChangeNickname s c new).clientAt f = s.clientAt f) ∧
    (∀ cl : Client, cl.conn.closed = false →
      ∀ line, (cl.wrote [line]).conn.written = cl.conn.written ++ [line]) ∧
    (new ≠ "" → (s.clients.Get new = none ∨ s.clients.Get new = some c) →
      (Client.ChangeNickname s c new).clients.Get new = some c) ∧
    ((s.clientAt c).nick ≠ "" → s.clients.Get (s.clientAt c).nick = some c →
      (s.clientAt c).nick.ToLower ≠ new.ToLower →
      (Client.ChangeNickname s c new).clients.Get (s.clientAt c).nick = none) := by
  rw [changeNickname_exact]
  refine ⟨rfl, rfl, by simp, by simp [Client.wrote], fun f hf hm => ?_, fun f hf hm => ?_,
    fun cl ho line => wrote_written cl [line] ho, fun hn hfree => ?_, fun ho hg hne => ?_⟩
  · have hx : f ∈ Client.Friends s c := (mem_friends s c f).mpr (Or.inr hm)
    simp only [if_neg hf, if_pos hx]
  · have hx : f ∉ Client.Friends s c := by
      intro hx
      rcases (mem_friends s c f).mp hx with h1 | h1
      · exact hf h1
      · exact hm h1
    simp only [if_neg hf, if_neg hx]
  · show ((s.clients.Remove c (s.clientAt c)).Add c { s.clientAt c with nick := new }).Get new
      = some c
    unfold ClientLookupSet.Get
    rw [registry_add_get]
    split
    · rfl
    · rename_i hx
      have hrem : (s.clients.Remove c (s.clientAt c)).Get new = some c := by
        cases hr : (s.clients.Remove c (s.clientAt c)).Get new with
        | none => exact absurd ⟨hn, hr, rfl⟩ hx
        | some d =>
          unfold ClientLookupSet.Get at hr
          rw [registry_remove_get] at hr
          split at hr
          · cases hr
          · rcases hfree with hf | hf
            · unfold ClientLookupSet.Get at hf; rw [hf] at hr; cases hr
            · unfold ClientLookupSet.Get at hf; rw [hf] at hr; exact hr.symm
      exact hrem
  · show ((s.clients.Remove c (s.clientAt c)).Add c { s.clientAt c with nick := new }).Get
      (s.clientAt c).nick = none
    unfold ClientLookupSet.Get
    rw [registry_add_get]
    split
    · rename_i hx
      exact absurd hx.2.2.symm hne
    · rw [registry_remove_get]
      simp [ho, hg]

/-- The statement of C12 when `alice` becomes `Alicia` on the sample server: `carol`,
who shares a channel with her, is handed the notice with the old identity, and the new
nickname resolves to her. -/
theorem changeNickname_notifies_witness :
    (Client.ChangeNickname chatServer 0 "Alicia").clientAt 2
      = (chatServer.clientAt 2).wrote [Reply.RplNick "alice!alice@host" "Alicia"] ∧
    (Client.ChangeNickname chatServer 0 "Alicia").clients.Get "Alicia" = some 0 ∧
    (Client.ChangeNickname chatServer 0 "Alicia").clients.Get "alice" = none :=
  ⟨(changeNickname_notifies chatServer 0 "Alicia").2.2.2.2.1 2 (by decide)
      ⟨1, by decide, (2, []), by decide, rfl⟩,
   (changeNickname_notifies chatServer 0 "Alicia").2.2.2.2.2.2.2.1 (by decide)
      (Or.inl (by decide)),
   (changeNickname_notifies chatServer 0 "Alicia").2.2.2.2.2.2.2.2 (by decide) (by decide)
      (by decide)⟩

/-! ### KILL -/

/-- C15: KILL.  An actor without the Operator flag is sent the no-privileges error and
nothing else happens, whatever the nickname names: no client is quit, no other client
and nothing else in the state changes.  For an operator and a nickname that resolves
to a client, the handler is `Client.Quit` of that client with the synthesized text
`KILLed by <nickname of the actor>: <comment>` as the quit message, the text of the
departure notice, and "connection closed" as the reason of the error reply: the
target has quit afterwards, and every other member of its channels is handed one
departure notice with the synthesized text. -/
theorem kill_requires_operator (s : Server) (msg : KillCommand) :
    ((s.clientAt msg.base.client).isOperator = false →
      KillCommand.HandleServer s msg
        = s.modifyClient msg.base.client (fun cl => cl.wrote [Reply.ErrNoPrivileges]) ∧
      (∀ c, ((KillCommand.HandleServer s msg).clientAt c).hasQuit = (s.clientAt c).hasQuit) ∧
      (∀ c, c ≠ msg.base.client → (KillCommand.HandleServer s msg).clientAt c = s.clientAt c)) ∧
    ((s.clientAt msg.base.client).isOperator = true →
      ∀ target, s.clients.Get msg.nickname = some target →
        KillCommand.HandleServer s msg
          = Client.Quit s target
              ("KILLed by " ++ (s.clientAt msg.base.client).Nick ++ ": " ++ msg.comment)
              "connection closed" ∧
        ((KillCommand.HandleServer s msg).clientAt target).hasQuit = true ∧
        ((s.clientAt target).hasQuit = false → ∀ f, f ≠ target →
          (∃ ch ∈ (s.clientAt target).channels, ∃ mbr ∈ (s.channelAt ch).members, mbr.1 = f) →
          (KillCommand.HandleServer s msg).clientAt f
            = (s.clientAt f).wrote
                [Reply.RplQuit (s.clientAt target).Id
                  ("KILLed by " ++ (s.clientAt msg.base.client).Nick ++ ": " ++ msg.comment)])) := by
  constructor
  · intro hop
    have e : KillCommand.HandleServer s msg
        = s.modifyClient msg.base.client (fun cl => cl.wrote [Reply.ErrNoPrivileges]) := by
      simp [KillCommand.HandleServer, hop, numeric_eq]
    rw [e]
    refine ⟨rfl, fun c => ?_, fun c hc => ?_⟩
    · rw [modifyClient_clientAt]
      split
      · rename_i h; subst h; rfl
      · rfl
    · rw [modifyClient_clientAt, if_neg hc]
  · intro hop target ht
    have e : KillCommand.HandleServer s msg
        = Client.Quit s target
            ("KILLed by " ++ (s.clientAt msg.base.client).Nick ++ ": " ++ msg.comment)
            "connection closed" := by
      simp [KillCommand.HandleServer, hop, ht, KillCommand.quitMsg, CONN_CLOSED]
    rw [e]
    refine ⟨rfl, quit_hasQuit _ _ _ _, fun hq f hf hm => ?_⟩
    obtain ⟨chs, g, he⟩ := quit_exact s target
      ("KILLed by " ++ (s.clientAt msg.base.client).Nick ++ ": " ++ msg.comment)
      "connection closed" hq
    rw [he]
    have hx : f ∈ Client.Friends s target := (mem_friends s target f).mpr (Or.inr hm)
    simp only [if_neg hf, if_pos hx]

/-- The statement of C15 on the sample server: `alice`, not an operator, cannot kill
`bob`; `carol`, an operator, kills `bob`, and `alice`, who shares a channel with him, is
handed the departure notice that names `carol`. -/
theorem kill_requires_operator_witness :
    KillCommand.HandleServer chatServer
        { base := { client := 0, code := "KILL" }, nickname := "bob", comment := "spam" }
      = chatServer.modifyClient 0 (fun cl => cl.wrote [Reply.ErrNoPrivileges]) ∧
    ((KillCommand.HandleServer chatServer
        { base := { client := 2, code := "KILL" }, nickname := "bob", comment := "spam" }).clientAt
      1).hasQuit = true ∧
    (KillCommand.HandleServer chatServer
        { base := { client := 2, code := "KILL" }, nickname := "bob", comment := "spam" }).clientAt 0
      = (chatServer.clientAt 0).wrote
          [Reply.RplQuit (chatServer.clientAt 1).Id
            ("KILLed by " ++ (chatServer.clientAt 2).Nick ++ ": " ++ "spam")] :=
  ⟨((kill_requires_operator chatServer
        { base := { client := 0, code := "KILL" }, nickname := "bob", comment := "spam" }).1
      (by decide)).1,
   ((kill_requires_operator chatServer
        { base := { client := 2, code := "KILL" }, nickname := "bob", comment := "spam" }).2
      (by decide) 1 (by decide)).2.1,
   ((kill_requires_operator chatServer
        { base := { client := 2, code := "KILL" }, nickname := "bob", comment := "spam" }).2
      (by decide) 1 (by decide)).2.2 (by decide) 0 (by decide)
      ⟨0, by decide, (0, []), by decide, rfl⟩⟩

/-! ### Loops that answer one client -/

/-- A loop whose every turn sends the client `c` at most one reply, chosen by `sel`, as
long as a property `P` of the state holds that replies to `c` do not disturb. -/
theorem numeric_fold_opt {α : Type} (c : ClientId) (step : Server → α → Server)
    (sel : α → Option Reply) (P : Server → Prop)
    (hP : ∀ t rs, P t → P (t.modifyClient c (fun cl => cl.wrote rs)))
    (hstep : ∀ t x, P t →
      step t x = match sel x with
        | none => t
        | some r => Client.Numeric t c r)
    (xs : List α) (s : Server) (h : P s) :
    xs.foldl step s = s.modifyClient c (fun cl => cl.wrote (xs.filterMap sel)) := by
  have key : ∀ (xs : List α) (rs : List Reply),
      xs.foldl step (s.modifyClient c (fun cl => cl.wrote rs))
        = s.modifyClient c (fun cl => cl.wrote (rs ++ xs.filterMap sel)) := by
    intro xs
    induction xs with
    | nil => intro rs; simp
    | cons x xs ih =>
      intro rs
      rw [List.foldl_cons, hstep _ x (hP s rs h)]
      cases hx : sel x with
      | none =>
        simp only [List.filterMap_cons, hx]
        exact ih rs
      | some r =>
        simp only [List.filterMap_cons, hx]
        rw [numeric_eq, modifyClient_modifyClient]
        have : (s.modifyClient c fun cl => (cl.wrote rs).wrote [r])
            = s.modifyClient c (fun cl => cl.wrote (rs ++ [r])) :=
          modifyClient_congr _ _ _ _ (wrote_wrote _ _ _)
        rw [this, ih (rs ++ [r])]
        simp
  have h0 : s = s.modifyClient c (fun cl => cl.wrote []) :=
    (modifyClient_id s c _ (wrote_nil _)).symm
  conv => lhs; rw [h0]
  rw [key xs []]
  simp

/-! ### LIST -/

theorem wrote_isOperator (cl : Client) (rs : List Reply) :
    (cl.wrote rs).isOperator = cl.isOperator := rfl

/-- `ListCommand.HandleServer` sends the requester the replies `ListCommand.replies` and
changes nothing else. -/
theorem list_eq (s : Server) (msg : ListCommand) :
    ListCommand.HandleServer s msg
      = s.modifyClient msg.base.client (fun cl => cl.wrote (ListCommand.replies s msg)) := by
  unfold ListCommand.HandleServer ListCommand.replies
  simp only []
  split
  · exact numeric_eq s _ _
  · have hP : ∀ (t : Server) (rs : List Reply),
        ((t.clientAt msg.base.client).isOperator = (s.clientAt msg.base.client).isOperator ∧
          t.channelAt = s.channelAt ∧ t.channels = s.channels) →
        (((t.modifyClient msg.base.client (fun cl => cl.wrote rs)).clientAt
            msg.base.client).isOperator = (s.clientAt msg.base.client).isOperator ∧
          (t.modifyClient msg.base.client (fun cl => cl.wrote rs)).channelAt = s.channelAt ∧
          (t.modifyClient msg.base.client (fun cl => cl.wrote rs)).channels = s.channels) := by
      intro t rs h
      refine ⟨?_, h.2.1, h.2.2⟩
      rw [modifyClient_clientAt, if_pos rfl, wrote_isOperator]
      exact h.1
    split
    · rw [numeric_fold_opt msg.base.client _
        (fun entry =>
          if !(s.clientAt msg.base.client).isOperator && (s.channelAt entry.2).isPrivate then none
          else some (Reply.RplList entry.2))
        _ hP _ s.channels s ⟨rfl, rfl, rfl⟩]
      · rw [numeric_eq, modifyClient_modifyClient]
        apply modifyClient_congr
        simp [wrote_wrote]
      · intro t x h
        simp only [h.1, h.2.1]
        split <;> simp_all
    · rw [numeric_fold_opt msg.base.client _
        (fun chname => some (ListCommand.entry s (s.clientAt msg.base.client).isOperator chname))
        _ hP _ msg.channels s ⟨rfl, rfl, rfl⟩]
      · rw [numeric_eq, modifyClient_modifyClient]
        apply modifyClient_congr
        have hm : ∀ (f : Name → Reply) (l : List Name),
            l.filterMap (fun x => some (f x)) = l.map f := by
          intro f l
          induction l with
          | nil => rfl
          | cons a l ih => simp [List.filterMap_cons, ih]
        simp [wrote_wrote, hm]
      · intro t x h
        simp only [h.1, h.2.1, h.2.2, ListCommand.entry]
        cases ChannelNameMap.Get s.channels x with
        | none => rfl
        | some ch => simp only []; split <;> rfl

theorem nameMap_get_mem {V : Type} (m : NameMap V) (k : Name) (v : V)
    (h : m.get k = some v) : (k, v) ∈ m := by
  induction m with
  | nil => simp [NameMap.get] at h
  | cons e m ih =>
    obtain ⟨a, b⟩ := e
    simp only [NameMap.get] at h
    split at h
    · rename_i hk
      cases h
      subst hk
      exact List.mem_cons_self _ _
    · exact List.mem_cons_of_mem _ (ih h)

theorem nameMap_delete_absent {V : Type} (m : NameMap V) (k : Name) (h : m.get k = none) :
    m.delete k = m := by
  induction m with
  | nil => rfl
  | cons e m ih =>
    obtain ⟨a, b⟩ := e
    simp only [NameMap.get] at h
    split at h
    · cases h
    · rename_i hk
      simp only [NameMap.delete, if_neg hk, ih h]

theorem filterMap_congr_mem {α β : Type} (f g : α → Option β) (l : List α)
    (h : ∀ x ∈ l, f x = g x) : l.filterMap f = l.filterMap g := by
  induction l with
  | nil => rfl
  | cons a l ih =>
    simp only [List.filterMap_cons, h a (List.mem_cons_self _ _)]
    rw [ih (fun x hx => h x (List.mem_cons_of_mem _ hx))]

/-- A private channel added to the index is not seen by a requester that is not an
operator: the replies of LIST are the same with and without it. -/
theorem list_replies_hidden (s1 s2 : Server) (msg : ListCommand) (id : ChanId)
    (channel : Channel)
    (hop : (s1.clientAt msg.base.client).isOperator = false)
    (hcl : s2.clientAt msg.base.client = s1.clientAt msg.base.client)
    (hname : s2.name = s1.name)
    (habs : NameMap.get s1.channels channel.name.ToLower = none)
    (hfresh : ∀ e ∈ s1.channels, e.2 ≠ id)
    (hpriv : channel.isPrivate = true)
    (hidx : s2.channels = (ChannelNameMap.Add s1.channels id channel).1)
    (hat : s2.channelAt = Function.update s1.channelAt id channel) :
    ListCommand.replies s2 msg = ListCommand.replies s1 msg := by
  have hidx2 : s2.channels = (channel.name.ToLower, id) :: s1.channels := by
    rw [hidx]
    simp [ChannelNameMap.Add, habs, NameMap.set, nameMap_delete_absent _ _ habs]
  unfold ListCommand.replies
  rw [hcl, hname, hop]
  split
  · rfl
  · congr 1
    split
    · rw [hidx2]
      simp only [List.filterMap_cons, Bool.not_false, Bool.true_and, hat, Function.update_same,
        hpriv, if_true]
      apply filterMap_congr_mem
      intro e he
      rw [Function.update_noteq (hfresh e he)]
    · apply List.map_congr_left
      intro chname _
      unfold ListCommand.entry ChannelNameMap.Get
      rw [hidx2]
      simp only [NameMap.get]
      by_cases hk : channel.name.ToLower = chname.ToLower
      · rw [if_pos hk]
        rw [hk] at habs
        simp [habs, hat, hpriv]
      · rw [if_neg hk]
        cases hg : NameMap.get s1.channels chname.ToLower with
        | none => rfl
        | some ch =>
          have := hfresh _ (nameMap_get_mem _ _ _ hg)
          simp only [hat]
          rw [Function.update_noteq this]

/-- C14: LIST and private channels.  `ListCommand.HandleServer` sends the requester the
replies `ListCommand.replies` and changes nothing else.  For a requester without the
Operator flag no list entry is for a private channel; a named private channel gets the
no-such-channel error with the name as it was asked, which is what a name absent from
the index gets; and a state with one more private channel in the index gives the same
replies.  For a requester with the Operator flag (and no target server) every channel of
the index, or every named channel that is in the index, gets its list entry, private
or not. -/
theorem list_hides_private (s : Server) (msg : ListCommand) :
    ListCommand.HandleServer s msg
      = s.modifyClient msg.base.client (fun cl => cl.wrote (ListCommand.replies s msg)) ∧
    (msg.target = "" → msg.channels ≠ [] →
      ListCommand.replies s msg
        = msg.channels.map (ListCommand.entry s (s.clientAt msg.base.client).isOperator)
          ++ [Reply.RplListEnd s.name]) ∧
    ((s.clientAt msg.base.client).isOperator = false →
      (∀ ch, Reply.RplList ch ∈ ListCommand.replies s msg → (s.channelAt ch).isPrivate = false) ∧
      (∀ name ch, ChannelNameMap.Get s.channels name = some ch →
        (s.channelAt ch).isPrivate = true →
        ListCommand.entry s false name = Reply.ErrNoSuchChannel name) ∧
      (∀ name, ChannelNameMap.Get s.channels name = none →
        ListCommand.entry s false name = Reply.ErrNoSuchChannel name) ∧
      (∀ (s2 : Server) (id : ChanId) (channel : Channel),
        s2.clientAt msg.base.client = s.clientAt msg.base.client → s2.name = s.name →
        NameMap.get s.channels channel.name.ToLower = none →
        (∀ e ∈ s.channels, e.2 ≠ id) → channel.isPrivate = true →
        s2.channels = (ChannelNameMap.Add s.channels id channel).1 →
        s2.channelAt = Function.update s.channelAt id channel →
        ListCommand.replies s2 msg = ListCommand.replies s msg)) ∧
    ((s.clientAt msg.base.client).isOperator = true → msg.target = "" →
      (msg.channels = [] →
        ListCommand.replies s msg
          = s.channels.map (fun entry => Reply.RplList entry.2) ++ [Reply.RplListEnd s.name]) ∧
      (∀ name ch, ChannelNameMap.Get s.channels name = some ch →
        ListCommand.entry s true name = Reply.RplList ch)) := by
  refine ⟨list_eq s msg, fun ht hc => ?_, fun hop => ⟨fun ch hch => ?_, fun name ch hg hp => ?_,
    fun name hg => ?_, fun s2 id channel h1 h2 h3 h4 h5 h6 h7 =>
      list_replies_hidden s s2 msg id channel hop h1 h2 h3 h4 h5 h6 h7⟩,
    fun hop ht => ⟨fun hc => ?_, fun name ch hg => ?_⟩⟩
  · have hl : (msg.channels.length == 0) = false := by
      cases hm : msg.channels with
      | nil => exact absurd hm hc
      | cons a l => rfl
    simp [ListCommand.replies, ht, hl]
  · unfold ListCommand.replies at hch
    rw [hop] at hch
    split at hch
    · simp at hch
    · rw [List.mem_append] at hch
      rcases hch with hch | hch
      · split at hch
        · rw [List.mem_filterMap] at hch
          obtain ⟨e, _, he⟩ := hch
          cases hpv : (s.channelAt e.2).isPrivate with
          | true => simp [hpv] at he
          | false =>
            simp only [hpv, Bool.not_false, Bool.and_false, Bool.false_eq_true, if_false,
              Option.some.injEq, Reply.RplList.injEq] at he
            rw [← he]; exact hpv
        · rw [List.mem_map] at hch
          obtain ⟨n, _, hn⟩ := hch
          unfold ListCommand.entry at hn
          cases hg : ChannelNameMap.Get s.channels n with
          | none => rw [hg] at hn; cases hn
          | some c2 =>
            rw [hg] at hn
            cases hpv : (s.channelAt c2).isPrivate with
            | true => simp [hpv] at hn
            | false =>
              simp only [hpv, Bool.not_false, Bool.and_false, Bool.false_eq_true, if_false,
                Reply.RplList.injEq] at hn
              rw [← hn]; exact hpv
      · simp at hch
  · simp [ListCommand.entry, hg, hp]
  · simp [ListCommand.entry, hg]
  · simp [ListCommand.replies, ht, hc, hop]
    induction s.channels with
    | nil => rfl
    | cons e l ih => simp [List.filterMap_cons, ih]
  · simp [ListCommand.entry, hg]

/-- The statement of C14 on the sample server: `alice`, not an operator, who asks for
`#secret` is told that there is no such channel; `carol`, an operator, is sent a list
entry for each of the three channels. -/
theorem list_hides_private_witness :
    ListCommand.entry chatServer false "#secret" = Reply.ErrNoSuchChannel "#secret" ∧
    ListCommand.replies chatServer
        { base := { client := 2, code := "LIST" }, target := "", channels := [] }
      = [Reply.RplList 0, Reply.RplList 1, Reply.RplList 2, Reply.RplListEnd "irc.example"] :=
  ⟨((list_hides_private chatServer
        { base := { client := 0, code := "LIST" }, target := "", channels := ["#secret"] }).2.2.1
      (by decide)).2.1 "#secret" 2 (by decide) (by decide),
   (((list_hides_private chatServer
        { base := { client := 2, code := "LIST" }, target := "", channels := [] }).2.2.2
      (by decide) rfl).1 rfl)⟩

/-! ### WHO -/

theorem friends_has_self (s : Server) (c : ClientId) :
    ClientSet.Has (Client.Friends s c) c = true := by
  simp [ClientSet.Has, (mem_friends s c c).mpr (Or.inl rfl)]

/-- With the friend set of the requester, `whoChannel` answers for every member. -/
theorem whoChannel_eq (s : Server) (c : ClientId) (ch : ChanId) :
    whoChannel s c ch (Client.Friends s c)
      = s.modifyClient c (fun cl => cl.wrote (whoReplies s ch)) := by
  unfold whoChannel whoReplies
  rw [numeric_fold_opt c _ (fun member => some (Reply.RplWhoReply (some ch) member.1))
    (fun _ => True) (fun _ _ _ => trivial) _ _ s trivial]
  · apply modifyClient_congr
    congr 1
    induction (s.channelAt ch).members with
    | nil => rfl
    | cons a l ih => simp [List.filterMap_cons, ih]
  · intro t x _
    simp [friends_has_self]

/-- C18: the Invisible filter of WHO excludes nobody.  The friend set of the requester
holds the requester, so for a mask that is a channel name and resolves to a channel of
the index, whatever the flags of the requester, `WhoCommand.HandleServer` sends the
requester one who-reply for each member of the channel, in the order of the member
set, and then one end-of-who reply, and changes nothing else. -/
theorem who_ignores_invisible (isChannel : Name → Bool)
    (findAll : ClientLookupSet → Name → ClientSet) (s : Server) (msg : WhoCommand)
    (ch : ChanId) (h1 : msg.mask ≠ "") (h2 : isChannel msg.mask = true)
    (h3 : ChannelNameMap.Get s.channels msg.mask = some ch) :
    ClientSet.Has (Client.Friends s msg.base.client) msg.base.client = true ∧
    WhoCommand.HandleServer isChannel findAll s msg
      = s.modifyClient msg.base.client (fun cl =>
          cl.wrote ((s.channelAt ch).members.map
              (fun member => Reply.RplWhoReply (some ch) member.1)
            ++ [Reply.RplEndOfWho msg.mask])) ∧
    ((s.clientAt msg.base.client).conn.closed = false →
      ((WhoCommand.HandleServer isChannel findAll s msg).clientAt msg.base.client).conn.written
        = (s.clientAt msg.base.client).conn.written
          ++ ((s.channelAt ch).members.map (fun member => Reply.RplWhoReply (some ch) member.1)
            ++ [Reply.RplEndOfWho msg.mask])) := by
  have e : WhoCommand.HandleServer isChannel findAll s msg
      = s.modifyClient msg.base.client (fun cl =>
          cl.wrote ((s.channelAt ch).members.map
              (fun member => Reply.RplWhoReply (some ch) member.1)
            ++ [Reply.RplEndOfWho msg.mask])) := by
    unfold WhoCommand.HandleServer
    simp only [h1, h2, h3, beq_iff_eq, if_false, if_true]
    rw [whoChannel_eq, numeric_eq, modifyClient_modifyClient]
    apply modifyClient_congr
    simp [wrote_wrote, whoReplies]
  refine ⟨friends_has_self s _, e, fun ho => ?_⟩
  rw [e]
  simp only [modifyClient_clientAt, if_true]
  exact wrote_written _ _ ho

/-- The statement of C18 on the sample server, with `IsChannel` taken as "starts with
`#`": `dave`, made invisible, asks WHO `#b` and is sent a who-reply for each of its three
members. -/
theorem who_ignores_invisible_witness :
    ((WhoCommand.HandleServer (fun name => name.front == '#') (fun _ _ => [])
        (chatServer.modifyClient 3 (fun cl => { cl with flags := [UserMode.Invisible] }))
        { base := { client := 3, code := "WHO" }, mask := "#b" }).clientAt 3).conn.written
      = [] ++ ([((0 : ClientId), ([] : List ChannelMode)), (1, []), (2, [])].map
            (fun member => Reply.RplWhoReply (some 1) member.1)
          ++ [Reply.RplEndOfWho "#b"]) :=
  (who_ignores_invisible (fun name => name.front == '#') (fun _ _ => [])
    (chatServer.modifyClient 3 (fun cl => { cl with flags := [UserMode.Invisible] }))
    { base := { client := 3, code := "WHO" }, mask := "#b" } 1
    (by decide) (by decide) (by decide)).2.2 (by decide)

/-! ### Authorization along the event loop -/

theorem sameAuth_refl (s : Server) : s.SameAuth s := fun _ => ⟨rfl, rfl, rfl⟩

theorem sameAuth_trans {s t u : Server} (h1 : s.SameAuth t) (h2 : t.SameAuth u) :
    s.SameAuth u := fun c =>
  ⟨(h2 c).1.trans (h1 c).1, (h2 c).2.1.trans (h1 c).2.1, (h2 c).2.2.trans (h1 c).2.2⟩

theorem sameAuth_of_frame {s t : Server} (h : s.Frame t) : s.SameAuth t := by
  intro c
  have := h.2.2.2.2.2.2.2 c
  have h1 : (t.clientAt c).view.authorized = (s.clientAt c).view.authorized :=
    congrArg Client.authorized this
  have h2 : (t.clientAt c).view.username = (s.clientAt c).view.username :=
    congrArg Client.username this
  have h3 : (t.clientAt c).view.registered = (s.clientAt c).view.registered :=
    congrArg Client.registered this
  exact ⟨h1, h2, h3⟩

theorem sameAuth_modifyClient (s : Server) (c : ClientId) (f : Client → Client)
    (h1 : (f (s.clientAt c)).authorized = (s.clientAt c).authorized)
    (h2 : (f (s.clientAt c)).username = (s.clientAt c).username)
    (h3 : (f (s.clientAt c)).registered = (s.clientAt c).registered) :
    s.SameAuth (s.modifyClient c f) := by
  intro c2
  rw [modifyClient_clientAt]
  split
  · rename_i h; subst h; exact ⟨h1, h2, h3⟩
  · exact ⟨rfl, rfl, rfl⟩

theorem sameAuth_touch (s : Server) (c : ClientId) : s.SameAuth (Client.Touch s c) := by
  have h := touched_fields (s.clientAt c) s.now
  exact sameAuth_modifyClient s c _ h.2.2.2.2.2.2.2.1 h.2.2.2.2.1 h.2.2.2.1

theorem sameAuth_active (s : Server) (c : ClientId) : s.SameAuth (Client.Active s c) :=
  sameAuth_modifyClient s c _ rfl rfl rfl

theorem sameAuth_idle (s : Server) (c : ClientId) : s.SameAuth (Client.Idle s c) := by
  rw [idle_eq]
  have h := idled_fields ((s.clientAt c).wrote [Reply.RplPing s.name]) s.now
  exact sameAuth_modifyClient s c _ h.2.2.2.2.2.2.2.1 h.2.2.2.2.1 h.2.2.2.1

theorem sameAuth_quit (s : Server) (c : ClientId) (m r : Text) :
    s.SameAuth (Client.Quit s c m r) := by
  cases hq : (s.clientAt c).hasQuit with
  | true =>
    have : Client.Quit s c m r = s := by simp [Client.Quit, hq]
    rw [this]; exact sameAuth_refl s
  | false =>
    obtain ⟨chs, g, w, heq⟩ := quit_spec s c m r hq
    rw [heq]
    intro c2
    show (if c2 = c then _ else _ : Client).authorized = _ ∧
      (if c2 = c then _ else _ : Client).username = _ ∧
      (if c2 = c then _ else _ : Client).registered = _
    split
    · rename_i h; subst h; exact ⟨rfl, rfl, rfl⟩
    · exact ⟨rfl, rfl, rfl⟩

theorem sameAuth_preHandle (s : Server) (cmd : Command) :
    s.SameAuth (cmd.PreHandleServer s) := by
  cases cmd <;> simp only [Command.PreHandleServer, BaseCommand.PreHandleServer] <;>
    first
    | exact sameAuth_refl s
    | exact sameAuth_touch s _
    | exact sameAuth_trans (sameAuth_active s _) (sameAuth_touch _ _)

theorem sameAuth_handleServer (s : Server) (cmd : Command) (h : Server → Server)
    (hh : cmd.HandleServer? = some h) : s.SameAuth (h s) := by
  cases cmd with
  | PassCommand b e => cases hh; exact sameAuth_of_frame (frame_numeric s _ _)
  | ProxyCommand b x => cases hh
  | RFC1459UserCommand b u r => cases hh; exact sameAuth_of_frame (frame_numeric s _ _)
  | RFC2812UserCommand b u r f => cases hh; exact sameAuth_of_frame (frame_numeric s _ _)
  | QuitCommand b m r => cases hh; exact sameAuth_quit s _ _ _
  | PingCommand b x => cases hh; exact sameAuth_of_frame (frame_reply s _ _)
  | PongCommand b => cases hh; exact sameAuth_refl s
  | IdleCommand b => cases hh; exact sameAuth_idle s _
  | MOTDCommand b => cases hh; exact sameAuth_of_frame (frame_motd s _)
  | Session c =>
    cases hh
    rcases session_step s c with h | ⟨target, message, _, e⟩
    · exact sameAuth_of_talk h
    · rw [e]; exact sameAuth_quit s _ _ _

theorem sameAuth_setClients (s : Server) (reg : ClientLookupSet) :
    s.SameAuth { s with clients := reg } := fun _ => ⟨rfl, rfl, rfl⟩

theorem sameAuth_setNickname (s : Server) (c : ClientId) (n : Name) :
    s.SameAuth (Client.SetNickname s c n) := by
  unfold Client.SetNickname
  split
  · exact sameAuth_refl s
  · exact sameAuth_trans
      (sameAuth_modifyClient s c (fun cl => { cl with nick := n }) rfl rfl rfl)
      (sameAuth_setClients _ _)

theorem sameAuth_changeNickname (s : Server) (c : ClientId) (n : Name) :
    s.SameAuth (Client.ChangeNickname s c n) := by
  rw [changeNickname_exact]
  intro c2
  show (if c2 = c then _ else _ : Client).authorized = _ ∧
    (if c2 = c then _ else _ : Client).username = _ ∧
    (if c2 = c then _ else _ : Client).registered = _
  split
  · rename_i h; subst h; exact ⟨rfl, rfl, rfl⟩
  · split <;> exact ⟨rfl, rfl, rfl⟩

theorem authInv_same {s t : Server} (h : s.SameAuth t) (hi : s.AuthInv) : t.AuthInv := by
  intro c
  obtain ⟨h1, h2, h3⟩ := h c
  unfold Client.HasUsername
  rw [h1, h2, h3]
  exact hi c

theorem tryRegister_clientAt (s : Server) (c c2 : ClientId) :
    ((s.tryRegister c).clientAt c2).authorized = (s.clientAt c2).authorized ∧
    ((s.tryRegister c).clientAt c2).username = (s.clientAt c2).username ∧
    (((s.tryRegister c).clientAt c2).registered = true →
      (s.clientAt c2).registered = true ∨ (s.clientAt c2).HasUsername = true) := by
  rw [tryRegister_eq, modifyClient_clientAt]
  have t := touched_fields ({ s.clientAt c with registered := true } : Client) s.now
  have w := wrote_fields
    (({ s.clientAt c with registered := true } : Client).touched s.now) s.welcomeReplies
  split
  · rename_i h; subst h
    split
    · rename_i hcan
      have hid := ((canRegister_iff _).mp hcan).2
      simp only [Client.identified, Bool.and_eq_true] at hid
      exact ⟨w.2.2.2.2.2.2.2.1.trans t.2.2.2.2.2.2.2.1, w.2.2.2.2.1.trans t.2.2.2.2.1,
        fun _ => Or.inr hid.1.2⟩
    · exact ⟨rfl, rfl, Or.inl⟩
  · exact ⟨rfl, rfl, Or.inl⟩

theorem authInv_tryRegister (s : Server) (c : ClientId) (hi : s.AuthInv) :
    (s.tryRegister c).AuthInv := by
  intro c2
  obtain ⟨h1, h2, h3⟩ := tryRegister_clientAt s c c2
  unfold Client.HasUsername
  rw [h1, h2]
  refine ⟨fun hr => ?_, (hi c2).2⟩
  rcases h3 hr with h | h
  · exact (hi c2).1 h
  · exact (hi c2).2 h

theorem setUserInfo_clientAt (s : Server) (c : ClientId) (u : Name) (r : Text)
    (c2 : ClientId) :
    ((UserCommand.setUserInfo s c u r).clientAt c2).authorized = (s.clientAt c2).authorized ∧
    (c2 ≠ c → ((UserCommand.setUserInfo s c u r).clientAt c2).username
      = (s.clientAt c2).username) := by
  rw [setUserInfo_eq]
  obtain ⟨h1, h2, _⟩ := tryRegister_clientAt
    { s.modifyClient c (fun cl =>
        { cl with
          capState := if cl.capState == CapState.CapNegotiating then CapState.CapNegotiated
            else cl.capState
          username := u
          realname := r }) with
      clients := (s.clients.Remove c (s.clientAt c)).Add c (s.clientAt c) } c c2
  rw [h1, h2]
  by_cases h : c2 = c
  · subst h; simp [Server.modifyClient]
  · simp [Server.modifyClient, Function.update, h]

theorem authInv_setUserInfo (s : Server) (c : ClientId) (u : Name) (r : Text)
    (ha : (s.clientAt c).authorized = true) (hi : s.AuthInv) :
    (UserCommand.setUserInfo s c u r).AuthInv := by
  rw [setUserInfo_eq]
  apply authInv_tryRegister
  intro c2
  by_cases h : c2 = c
  · subst h
    simp only [Server.modifyClient, Function.update_same]
    exact ⟨fun _ => ha, fun _ => ha⟩
  · simp only [Server.modifyClient, Function.update_noteq h]
    exact hi c2

/-- A declaration of identity by a client that is not authorized is answered by the
password error and closes the connection; the identity is not recorded. -/
theorem badPassword_sameAuth (s : Server) (c : ClientId) :
    s.SameAuth (Client.Quit (Client.Numeric s c Reply.ErrPasswdMismatch) c
      CONN_BAD_PASSWORD CONN_BAD_PASSWORD) :=
  sameAuth_trans (sameAuth_of_frame (frame_numeric s _ _)) (sameAuth_quit _ _ _ _)

theorem authInv_passOk (s : Server) (c : ClientId) (hi : s.AuthInv) :
    (s.modifyClient c (fun cl => { cl with authorized := true })).AuthInv := by
  intro c2
  rw [modifyClient_clientAt]
  split
  · exact ⟨fun _ => rfl, fun _ => rfl⟩
  · exact hi c2

theorem flags_sameAuth (s : Server) (c : ClientId) (flags : List UserMode) :
    s.SameAuth (if flags.length > 0 then
      Client.Numeric
        (s.modifyClient c (fun cl => { cl with flags := flags.foldl setFlag cl.flags })) c
        (Reply.RplUModeIs
          ((s.modifyClient c (fun cl =>
            { cl with flags := flags.foldl setFlag cl.flags })).clientAt c).flags)
      else s) := by
  split
  · exact sameAuth_trans (sameAuth_modifyClient s c _ rfl rfl rfl)
      (sameAuth_of_frame (frame_numeric _ _ _))
  · exact sameAuth_refl s

theorem authInv_handleRegServer (s : Server) (cmd : Command) (h : Server → Server)
    (hh : cmd.HandleRegServer? = some h) (hi : s.AuthInv) : (h s).AuthInv := by
  cases cmd with
  | PassCommand b e =>
    cases hh
    show (PassCommand.HandleRegServer s b.client e).AuthInv
    unfold PassCommand.HandleRegServer
    split
    · exact authInv_same (badPassword_sameAuth s _) hi
    · exact authInv_passOk s _ hi
  | ProxyCommand b x =>
    cases hh
    exact authInv_same (sameAuth_modifyClient s _ _ rfl rfl rfl) hi
  | RFC1459UserCommand b u r =>
    cases hh
    show (RFC1459UserCommand.HandleRegServer s b.client u r).AuthInv
    unfold RFC1459UserCommand.HandleRegServer
    split
    · exact authInv_same (badPassword_sameAuth s _) hi
    · rename_i ha
      simp only [Bool.not_eq_true, Bool.not_eq_false_eq_eq_true, Bool.not_eq_true_eq_eq_false] at ha
      exact authInv_setUserInfo s _ u r (by simpa using ha) hi
  | RFC2812UserCommand b u r f =>
    cases hh
    show (RFC2812UserCommand.HandleRegServer s b.client u r f).AuthInv
    unfold RFC2812UserCommand.HandleRegServer
    split
    · exact authInv_same (badPassword_sameAuth s _) hi
    · rename_i ha
      have hs := flags_sameAuth s b.client f
      apply authInv_setUserInfo _ _ u r _ (authInv_same hs hi)
      rw [(hs b.client).1]
      simpa using ha
  | QuitCommand b m r => cases hh; exact authInv_same (sameAuth_quit s _ _ _) hi
  | PingCommand b x => cases hh
  | PongCommand b => cases hh
  | IdleCommand b => cases hh
  | MOTDCommand b => cases hh
  | Session c => cases hh

theorem authInv_processCommand (s : Server) (cmd : Command) (hi : s.AuthInv) :
    (s.processCommand cmd).AuthInv := by
  unfold Server.processCommand
  simp only []
  split
  · cases hr : cmd.HandleRegServer? with
    | none => exact authInv_same (sameAuth_quit s _ _ _) hi
    | some h => exact authInv_handleRegServer s cmd h hr hi
  · cases hr : cmd.HandleServer? with
    | none => exact authInv_same (sameAuth_of_frame (frame_numeric s _ _)) hi
    | some h =>
      exact authInv_same (sameAuth_handleServer _ cmd h hr)
        (authInv_same (sameAuth_preHandle s cmd) hi)

theorem newClient_authorized (s : Server) :
    ((NewClient s).1.clientAt s.nextClient).authorized = s.password.isNone ∧
    ((NewClient s).1.clientAt s.nextClient).username = "" := by
  simp only [NewClient, Client.Touch, modifyClient_clientAt, if_true, Function.update_same]
  rw [(touched_fields _ _).2.2.2.2.2.2.2.1, (touched_fields _ _).2.2.2.2.1]
  exact ⟨rfl, rfl⟩

theorem authInv_newClient (s : Server) (hi : s.AuthInv) : (NewClient s).1.AuthInv := by
  intro c
  by_cases h : c = s.nextClient
  · subst h
    unfold Client.HasUsername
    rw [newClient_fresh, (newClient_authorized s).2]
    exact ⟨fun h => Bool.noConfusion h, fun h => by simp at h⟩
  · rw [newClient_clientAt s c h]; exact hi c

theorem authInv_handle (s : Server) (e : Event) (hi : s.AuthInv) : (s.handle e).AuthInv := by
  cases e with
  | newConn => exact authInv_newClient s hi
  | command cmd => exact authInv_processCommand s cmd hi
  | setNickname c n => exact authInv_same (sameAuth_setNickname s c n) hi
  | changeNickname c n => exact authInv_same (sameAuth_changeNickname s c n) hi
  | tryRegister c => exact authInv_tryRegister s c hi
  | capBegin c =>
    exact authInv_same (sameAuth_modifyClient s c
      (fun cl => { cl with capState := CapState.CapNegotiating }) rfl rfl rfl) hi
  | capEnd c =>
    exact authInv_tryRegister _ c (authInv_same (sameAuth_modifyClient s c _ rfl rfl rfl) hi)
  | shutdown => exact authInv_same (sameAuth_of_frame (frame_shutdown s)) hi
  | tick n => exact hi

theorem authInv_initial (s : Server) (h : s.Initial) : s.AuthInv := by
  intro c
  rw [h.2.2 c]
  exact ⟨fun h => Bool.noConfusion h, fun h => Bool.noConfusion h⟩

theorem authInv_reachable (s : Server) (h : Reachable s) : s.AuthInv := by
  induction h with
  | init s hs => exact authInv_initial s hs
  | step s e _ _ ih => exact authInv_handle s e ih

/-- The `authorized` flag of a client after a command differs from the one before only
when the command is a PASS with the right password, sent by that client before it is
registered. -/
theorem authorized_processCommand (s : Server) (cmd : Command) (c : ClientId) :
    ((s.processCommand cmd).clientAt c).authorized = (s.clientAt c).authorized ∨
    ∃ b, cmd = Command.PassCommand b none ∧ b.client = c := by
  unfold Server.processCommand
  simp only []
  split
  · cases hr : cmd.HandleRegServer? with
    | none => exact Or.inl (sameAuth_quit s _ _ _ c).1
    | some h =>
      cases cmd with
      | PassCommand b e =>
        cases hr
        cases e with
        | none =>
          by_cases hc : b.client = c
          · exact Or.inr ⟨b, rfl, hc⟩
          · left
            show ((PassCommand.HandleRegServer s b.client none).clientAt c).authorized = _
            simp [PassCommand.HandleRegServer, modifyClient_clientAt, Ne.symm hc]
        | some x =>
          left
          exact (badPassword_sameAuth s b.client c).1
      | ProxyCommand b x =>
        cases hr
        exact Or.inl (sameAuth_modifyClient s _ _ rfl rfl rfl c).1
      | RFC1459UserCommand b u r =>
        cases hr
        left
        show ((RFC1459UserCommand.HandleRegServer s b.client u r).clientAt c).authorized = _
        unfold RFC1459UserCommand.HandleRegServer
        split
        · exact (badPassword_sameAuth s b.client c).1
        · exact (setUserInfo_clientAt s b.client u r c).1
      | RFC2812UserCommand b u r f =>
        cases hr
        left
        show ((RFC2812UserCommand.HandleRegServer s b.client u r f).clientAt c).authorized = _
        unfold RFC2812UserCommand.HandleRegServer
        split
        · exact (badPassword_sameAuth s b.client c).1
        · exact ((setUserInfo_clientAt _ b.client u r c).1).trans
            (flags_sameAuth s b.client f c).1
      | QuitCommand b m r => cases hr; exact Or.inl (sameAuth_quit s _ _ _ c).1
      | PingCommand b x => cases hr
      | PongCommand b => cases hr
      | IdleCommand b => cases hr
      | MOTDCommand b => cases hr
      | Session c => cases hr
  · cases hr : cmd.HandleServer? with
    | none => exact Or.inl (sameAuth_of_frame (frame_numeric s _ _) c).1
    | some h =>
      exact Or.inl (((sameAuth_handleServer _ cmd h hr) c).1.trans
        (sameAuth_preHandle s cmd c).1)

theorem authorized_handle (s : Server) (e : Event) (c : ClientId) (hc : c ≠ s.nextClient) :
    ((s.handle e).clientAt c).authorized = (s.clientAt c).authorized ∨
    ∃ b, e = Event.command (Command.PassCommand b none) ∧ b.client = c := by
  cases e with
  | newConn => left; show ((NewClient s).1.clientAt c).authorized = _; rw [newClient_clientAt s c hc]
  | command cmd =>
    rcases authorized_processCommand s cmd c with h | ⟨b, h1, h2⟩
    · exact Or.inl h
    · exact Or.inr ⟨b, by rw [h1], h2⟩
  | setNickname c2 n => exact Or.inl (sameAuth_setNickname s c2 n c).1
  | changeNickname c2 n => exact Or.inl (sameAuth_changeNickname s c2 n c).1
  | tryRegister c2 => exact Or.inl (tryRegister_clientAt s c2 c).1
  | capBegin c2 =>
    exact Or.inl (sameAuth_modifyClient s c2
      (fun cl => { cl with capState := CapState.CapNegotiating }) rfl rfl rfl c).1
  | capEnd c2 =>
    exact Or.inl ((tryRegister_clientAt _ c2 c).1.trans
      (sameAuth_modifyClient s c2 _ rfl rfl rfl c).1)
  | shutdown => exact Or.inl (sameAuth_of_frame (frame_shutdown s) c).1
  | tick n => exact Or.inl rfl

/-! ### Allocation along the event loop -/

theorem nextClient_quit (s : Server) (c : ClientId) (m r : Text) :
    (Client.Quit s c m r).nextClient = s.nextClient := by
  cases hq : (s.clientAt c).hasQuit with
  | true => simp [Client.Quit, hq]
  | false =>
    obtain ⟨chs, g, w, heq⟩ := quit_spec s c m r hq
    rw [heq]

theorem nextClient_setUserInfo (s : Server) (c : ClientId) (u : Name) (r : Text) :
    (UserCommand.setUserInfo s c u r).nextClient = s.nextClient := by
  rw [setUserInfo_eq, (same_tryRegister _ c).2.1]
  rfl

theorem nextClient_badPassword (s : Server) (c : ClientId) :
    (Client.Quit (Client.Numeric s c Reply.ErrPasswdMismatch) c
      CONN_BAD_PASSWORD CONN_BAD_PASSWORD).nextClient = s.nextClient := by
  rw [nextClient_quit, (frame_numeric s _ _).2.1]

theorem nextClient_processCommand (s : Server) (cmd : Command) :
    (s.processCommand cmd).nextClient = s.nextClient := by
  unfold Server.processCommand
  simp only []
  split
  · cases hr : cmd.HandleRegServer? with
    | none => exact nextClient_quit s _ _ _
    | some h =>
      cases cmd with
      | PassCommand b e =>
        cases hr
        show (PassCommand.HandleRegServer s b.client e).nextClient = _
        unfold PassCommand.HandleRegServer
        split
        · exact nextClient_badPassword s _
        · rfl
      | ProxyCommand b x => cases hr; rfl
      | RFC1459UserCommand b u r =>
        cases hr
        show (RFC1459UserCommand.HandleRegServer s b.client u r).nextClient = _
        unfold RFC1459UserCommand.HandleRegServer
        split
        · exact nextClient_badPassword s _
        · exact nextClient_setUserInfo s _ u r
      | RFC2812UserCommand b u r f =>
        cases hr
        show (RFC2812UserCommand.HandleRegServer s b.client u r f).nextClient = _
        unfold RFC2812UserCommand.HandleRegServer
        split
        · exact nextClient_badPassword s _
        · rw [nextClient_setUserInfo]
          split
          · rw [(frame_numeric _ _ _).2.1]; rfl
          · rfl
      | QuitCommand b m r => cases hr; exact nextClient_quit s _ _ _
      | PingCommand b x => cases hr
      | PongCommand b => cases hr
      | IdleCommand b => cases hr
      | MOTDCommand b => cases hr
      | Session c => cases hr
  · have hp := (same_preHandle s cmd).2.1
    cases hr : cmd.HandleServer? with
    | none => exact (frame_numeric s _ _).2.1
    | some h =>
      cases cmd with
      | PassCommand b e => cases hr; exact ((frame_numeric _ _ _).2.1).trans hp
      | ProxyCommand b x => cases hr
      | RFC1459UserCommand b u r => cases hr; exact ((frame_numeric _ _ _).2.1).trans hp
      | RFC2812UserCommand b u r f => cases hr; exact ((frame_numeric _ _ _).2.1).trans hp
      | QuitCommand b m r => cases hr; exact (nextClient_quit _ _ _ _).trans hp
      | PingCommand b x => cases hr; exact ((frame_reply _ _ _).2.1).trans hp
      | PongCommand b => cases hr; exact hp
      | IdleCommand b => cases hr; exact ((same_idle _ _).2.1).trans hp
      | MOTDCommand b => cases hr; exact ((frame_motd _ _).2.1).trans hp
      | Session c =>
        cases hr
        rcases session_step ((Command.Session c).PreHandleServer s) c with
          h | ⟨target, message, _, e⟩
        · exact h.2.1.trans hp
        · exact (congrArg Server.nextClient e).trans ((nextClient_quit _ _ _ _).trans hp)

theorem nextClient_handle (s : Server) (e : Event) :
    s.nextClient ≤ (s.handle e).nextClient := by
  cases e with
  | newConn =>
    show s.nextClient ≤ (NewClient s).1.nextClient
    simp [NewClient, Client.Touch]
  | command cmd => exact Nat.le_of_eq (nextClient_processCommand s cmd).symm
  | setNickname c n =>
    show s.nextClient ≤ (Client.SetNickname s c n).nextClient
    unfold Client.SetNickname
    split <;> exact Nat.le_refl _
  | changeNickname c n =>
    show s.nextClient ≤ (Client.ChangeNickname s c n).nextClient
    rw [changeNickname_exact]
  | tryRegister c => exact Nat.le_of_eq (same_tryRegister s c).2.1.symm
  | capBegin c => exact Nat.le_refl _
  | capEnd c =>
    exact Nat.le_of_eq
      (same_tryRegister
        (s.modifyClient c (fun cl => { cl with capState := CapState.CapNegotiated })) c).2.1.symm
  | shutdown => exact Nat.le_of_eq (frame_shutdown s).2.1.symm
  | tick n => exact Nat.le_refl _

/-- A client that is not authorized and is registered after a run of the event loop has
had a PASS with the right password processed in between. -/
theorem pass_before_registered (events : List Event) (s : Server) (hi : s.AuthInv)
    (c : ClientId) (hc : c < s.nextClient) (hu : (s.clientAt c).authorized = false)
    (hr : ((s.Run events).clientAt c).registered = true) :
    ∃ b, Event.command (Command.PassCommand b none) ∈ events ∧ b.client = c := by
  induction events generalizing s with
  | nil =>
    have := (hi c).1 hr
    rw [hu] at this
    exact Bool.noConfusion this
  | cons e events ih =>
    cases ha : ((s.handle e).clientAt c).authorized with
    | true =>
      rcases authorized_handle s e c (Nat.ne_of_lt hc) with h | ⟨b, h1, h2⟩
      · rw [ha, hu] at h; exact Bool.noConfusion h
      · exact ⟨b, by rw [h1]; exact List.mem_cons_self _ _, h2⟩
    | false =>
      obtain ⟨b, h1, h2⟩ := ih (s.handle e) (authInv_handle s e hi)
        (Nat.lt_of_lt_of_le hc (nextClient_handle s e)) ha hr
      exact ⟨b, List.mem_cons_of_mem _ h1, h2⟩

theorem badPassword_fields (s : Server) (c : ClientId) :
    ((Client.Quit (Client.Numeric s c Reply.ErrPasswdMismatch) c
        CONN_BAD_PASSWORD CONN_BAD_PASSWORD).clientAt c).hasQuit = true ∧
    ((Client.Quit (Client.Numeric s c Reply.ErrPasswdMismatch) c
        CONN_BAD_PASSWORD CONN_BAD_PASSWORD).clientAt c).username = (s.clientAt c).username ∧
    ((Client.Quit (Client.Numeric s c Reply.ErrPasswdMismatch) c
        CONN_BAD_PASSWORD CONN_BAD_PASSWORD).clientAt c).realname = (s.clientAt c).realname ∧
    ((Client.Quit (Client.Numeric s c Reply.ErrPasswdMismatch) c
        CONN_BAD_PASSWORD CONN_BAD_PASSWORD).clientAt c).registered
      = (s.clientAt c).registered := by
  have hs := badPassword_sameAuth s c c
  refine ⟨quit_hasQuit _ _ _ _, hs.2.1, ?_, hs.2.2⟩
  have hn : ((Client.Numeric s c Reply.ErrPasswdMismatch).clientAt c).realname
      = (s.clientAt c).realname := by
    have := (frame_numeric s c Reply.ErrPasswdMismatch).2.2.2.2.2.2.2 c
    have h1 : ((Client.Numeric s c Reply.ErrPasswdMismatch).clientAt c).view.realname
        = (s.clientAt c).view.realname := congrArg Client.realname this
    exact h1
  rw [← hn]
  generalize Client.Numeric s c Reply.ErrPasswdMismatch = t
  cases hq : (t.clientAt c).hasQuit with
  | true => simp [Client.Quit, hq]
  | false =>
    obtain ⟨chs, hx⟩ := quit_self t c CONN_BAD_PASSWORD CONN_BAD_PASSWORD hq
    rw [hx]
    rfl

/-- C17: a registered client is always authorized.  In every state of the event loop a
client that is registered, or that has a username, is authorized.  `NewClient` creates
a client that is not registered and that is authorized exactly when the server has no
password.  One turn of the loop sets the `authorized` flag of an allocated client only
by a PASS of that client whose check succeeded, so a client that is not authorized
and is registered after a run of the loop has had such a PASS processed in between.
A declaration of identity (either form of USER) by a client that is not authorized is
`Client.Quit` with message and reason "bad password" after the password-mismatch
error: the client is flagged as quit, and its username, real name and `registered`
flag are as before. -/
theorem registered_implies_authorized (s : Server) (h : Reachable s) (c : ClientId) :
    ((s.clientAt c).registered = true → (s.clientAt c).authorized = true) ∧
    ((s.clientAt c).HasUsername = true → (s.clientAt c).authorized = true) ∧
    (((NewClient s).1.clientAt s.nextClient).authorized = s.password.isNone ∧
      ((NewClient s).1.clientAt s.nextClient).registered = false) ∧
    (∀ e, c < s.nextClient → (s.clientAt c).authorized = false →
      ((s.handle e).clientAt c).authorized = true →
      ∃ b, e = Event.command (Command.PassCommand b none) ∧ b.client = c) ∧
    (∀ events, c < s.nextClient → (s.clientAt c).authorized = false →
      ((s.Run events).clientAt c).registered = true →
      ∃ b, Event.command (Command.PassCommand b none) ∈ events ∧ b.client = c) ∧
    (∀ b username realname, b.client = c → (s.clientAt c).authorized = false →
      s.processCommand (Command.RFC1459UserCommand b username realname)
        = Client.Quit (Client.Numeric s c Reply.ErrPasswdMismatch) c
            "bad password" "bad password" ∧
      ((s.processCommand (Command.RFC1459UserCommand b username realname)).clientAt
          c).hasQuit = true ∧
      ((s.processCommand (Command.RFC1459UserCommand b username realname)).clientAt
          c).username = (s.clientAt c).username ∧
      ((s.processCommand (Command.RFC1459UserCommand b username realname)).clientAt
          c).realname = (s.clientAt c).realname ∧
      ((s.processCommand (Command.RFC1459UserCommand b username realname)).clientAt
          c).registered = false) ∧
    (∀ b username realname flags, b.client = c → (s.clientAt c).authorized = false →
      s.processCommand (Command.RFC2812UserCommand b username realname flags)
        = Client.Quit (Client.Numeric s c Reply.ErrPasswdMismatch) c
            "bad password" "bad password" ∧
      ((s.processCommand (Command.RFC2812UserCommand b username realname flags)).clientAt
          c).hasQuit = true ∧
      ((s.processCommand (Command.RFC2812UserCommand b username realname flags)).clientAt
          c).username = (s.clientAt c).username ∧
      ((s.processCommand (Command.RFC2812UserCommand b username realname flags)).clientAt
          c).realname = (s.clientAt c).realname ∧
      ((s.processCommand (Command.RFC2812UserCommand b username realname flags)).clientAt
          c).registered = false) := by
  have hi := authInv_reachable s h
  have hreg : (s.clientAt c).authorized = false → (s.clientAt c).registered = false := by
    intro hu
    cases hr : (s.clientAt c).registered with
    | false => rfl
    | true =>
      have := (hi c).1 hr
      rw [hu] at this
      exact Bool.noConfusion this
  refine ⟨(hi c).1, (hi c).2, ⟨(newClient_authorized s).1, newClient_fresh s⟩,
    fun e hc hu ha => ?_, fun events hc hu hr => pass_before_registered events s hi c hc hu hr,
    fun b u r hb hu => ?_, fun b u r f hb hu => ?_⟩
  · rcases authorized_handle s e c (Nat.ne_of_lt hc) with h1 | h1
    · rw [ha, hu] at h1; exact Bool.noConfusion h1
    · exact h1
  · have e : s.processCommand (Command.RFC1459UserCommand b u r)
        = Client.Quit (Client.Numeric s c Reply.ErrPasswdMismatch) c
            CONN_BAD_PASSWORD CONN_BAD_PASSWORD := by
      subst hb
      simp [Server.processCommand, Command.Client, Command.base, Command.HandleRegServer?,
        RFC1459UserCommand.HandleRegServer, hreg hu, hu]
    have f := badPassword_fields s c
    rw [e]
    exact ⟨rfl, f.1, f.2.1, f.2.2.1, f.2.2.2.trans (hreg hu)⟩
  · have e : s.processCommand (Command.RFC2812UserCommand b u r f)
        = Client.Quit (Client.Numeric s c Reply.ErrPasswdMismatch) c
            CONN_BAD_PASSWORD CONN_BAD_PASSWORD := by
      subst hb
      simp [Server.processCommand, Command.Client, Command.base, Command.HandleRegServer?,
        RFC2812UserCommand.HandleRegServer, hreg hu, hu]
    have f := badPassword_fields s c
    rw [e]
    exact ⟨rfl, f.1, f.2.1, f.2.2.1, f.2.2.2.trans (hreg hu)⟩

theorem registered_implies_authorized_witness :
    (lockedServer.clientAt 0).authorized = false ∧
    ((lockedServer.processCommand
        (Command.RFC1459UserCommand { client := 0, code := "USER" } "a" "Alice")).clientAt
      0).hasQuit = true ∧
    ((lockedServer.processCommand
        (Command.RFC1459UserCommand { client := 0, code := "USER" } "a" "Alice")).clientAt
      0).username = (lockedServer.clientAt 0).username :=
  ⟨by decide,
    ((registered_implies_authorized lockedServer
      (reachable_run _ [Event.newConn] (Reachable.init _ ⟨rfl, rfl, fun _ => rfl⟩) rfl) 0
      ).2.2.2.2.2.1 { client := 0, code := "USER" } "a" "Alice" rfl (by decide)).2.1,
    ((registered_implies_authorized lockedServer
      (reachable_run _ [Event.newConn] (Reachable.init _ ⟨rfl, rfl, fun _ => rfl⟩) rfl) 0
      ).2.2.2.2.2.1 { client := 0, code := "USER" } "a" "Alice" rfl (by decide)).2.2.1⟩

/-! ### The scanner of `Server.MOTD` -/

theorem takeWhile_line (line rest : GoString) (h : (10 : UInt8) ∉ line) :
    (line ++ 10 :: rest).takeWhile (fun b => b != 10) = line := by
  induction line with
  | nil => simp
  | cons a l ih =>
    have ha : a ≠ 10 := fun e => h (by simp [e])
    have hl : (10 : UInt8) ∉ l := fun e => h (by simp [e])
    simp [List.takeWhile_cons, ha, ih hl]

theorem takeWhile_last (line : GoString) (h : (10 : UInt8) ∉ line) :
    line.takeWhile (fun b => b != 10) = line := by
  induction line with
  | nil => simp
  | cons a l ih =>
    have ha : a ≠ 10 := fun e => h (by simp [e])
    have hl : (10 : UInt8) ∉ l := fun e => h (by simp [e])
    simp [List.takeWhile_cons, ha, ih hl]

/-- The scanner on a file of lines shorter than `MaxScanTokenSize`: every line is
delivered, without its line end. -/
theorem scanLoop_join (lines : List GoString) (last : GoString) (fuel : Nat)
    (hl : ∀ line ∈ lines, (10 : UInt8) ∉ line ∧ line.length < MaxScanTokenSize)
    (hlast : (10 : UInt8) ∉ last ∧ last.length < MaxScanTokenSize)
    (hf : (joinLines lines ++ last).length < fuel) :
    scanLoop fuel (joinLines lines ++ last)
      = lines.map dropCR ++ (if last.length > 0 then [dropCR last] else []) := by
  induction lines generalizing fuel with
  | nil =>
    cases fuel with
    | zero => simp at hf
    | succ fuel =>
      simp only [joinLines, List.map_nil, List.flatten_nil, List.nil_append]
      unfold scanLoop
      simp only [takeWhile_last last hlast.1]
      rw [if_neg (by omega), if_neg (by omega)]
  | cons line lines ih =>
    cases fuel with
    | zero => simp at hf
    | succ fuel =>
      have h1 := hl line (by simp)
      have e : joinLines (line :: lines) ++ last = line ++ 10 :: (joinLines lines ++ last) := by
        simp [joinLines]
      rw [e] at hf ⊢
      unfold scanLoop
      simp only [takeWhile_line line _ h1.1]
      rw [if_neg (by omega), if_pos (by simp)]
      have hd : (line ++ 10 :: (joinLines lines ++ last)).drop (line.length + 1)
          = joinLines lines ++ last := by
        rw [List.drop_append_eq_append_drop]
        simp
      rw [hd, ih fuel (fun l h => hl l (by simp [h]))
        (by simp only [List.length_append, List.length_cons] at hf ⊢; omega)]
      simp

/-- The scanner at a line of `MaxScanTokenSize` bytes or more: the loop ends. -/
theorem scanLoop_long (fuel : Nat) (line rest : GoString) (h : (10 : UInt8) ∉ line)
    (hlen : MaxScanTokenSize ≤ line.length) :
    scanLoop fuel (line ++ 10 :: rest) = [] := by
  cases fuel with
  | zero => rfl
  | succ fuel =>
    unfold scanLoop
    simp only [takeWhile_line line _ h]
    rw [if_pos hlen]

/-- What `Server.MOTD` writes for a file of lines shorter than `MaxScanTokenSize`: the
start line, the texts of every line in order, the end line. -/
theorem motd_scanned (s : Server) (c : ClientId) (lines : List GoString) (last : GoString)
    (hfile : s.motdFile ≠ "") (hsrc : s.motdSource = some (joinLines lines ++ last))
    (hl : ∀ line ∈ lines, (10 : UInt8) ∉ line ∧ line.length < MaxScanTokenSize)
    (hlast : (10 : UInt8) ∉ last ∧ last.length < MaxScanTokenSize) :
    scanLines (joinLines lines ++ last)
      = (lines ++ (if last.length > 0 then [last] else [])).map dropCR ∧
    Server.MOTD s c
      = s.modifyClient c (fun cl => cl.wrote
          ([Reply.RplMOTDStart]
            ++ (((lines ++ (if last.length > 0 then [last] else [])).map dropCR).map
                (fun line => (motdLine line).map Reply.RplMOTD)).flatten
            ++ [Reply.RplMOTDEnd])) := by
  have e : scanLines (joinLines lines ++ last)
      = (lines ++ (if last.length > 0 then [last] else [])).map dropCR := by
    unfold scanLines
    rw [scanLoop_join lines last _ hl hlast (Nat.lt_succ_self _)]
    split <;> simp
  refine ⟨e, ?_⟩
  rw [motd_eq]
  apply modifyClient_congr
  simp only [Server.motdReplies, hfile, if_false, hsrc, e]

/-- The scanner on a file whose first line is `n` times the byte `x`, for `n` at least
`MaxScanTokenSize`: no line is delivered. -/
theorem scanLines_long (n : Nat) (hn : MaxScanTokenSize ≤ n) (rest : GoString) :
    scanLines (List.replicate n 120 ++ 10 :: rest) = [] := by
  unfold scanLines
  apply scanLoop_long
  · intro h
    have := List.eq_of_mem_replicate h
    exact absurd this (by decide)
  · rw [List.length_replicate]; exact hn

/-- What `Server.MOTD` writes to a connected client for the file `longMotd`: the start
line and the end line. -/
theorem motd_long (c : ClientId)
    (ho : ((NewClient (sampleServer longMotd)).1.clientAt c).conn.closed = false) :
    ((Server.MOTD (NewClient (sampleServer longMotd)).1 c).clientAt c).conn.written
      = ((NewClient (sampleServer longMotd)).1.clientAt c).conn.written
        ++ [Reply.RplMOTDStart, Reply.RplMOTDEnd] := by
  have e : scanLines longMotd = [] := scanLines_long 65536 (by decide) _
  have h1 : (NewClient (sampleServer longMotd)).1.motdFile = "motd" := rfl
  have h2 : (NewClient (sampleServer longMotd)).1.motdSource = some longMotd := rfl
  have hr : (NewClient (sampleServer longMotd)).1.motdReplies
      = [Reply.RplMOTDStart, Reply.RplMOTDEnd] := by
    unfold Server.motdReplies
    rw [h1, if_neg (by decide), h2]
    simp only [e]
    rfl
  rw [motd_eq, hr]
  simp only [modifyClient_clientAt, if_true]
  exact wrote_written _ _ ho

/-- C1, the counterexample: the MOTD file `longMotd`, whose first line is 65536 times the
byte `x` and whose second line is `ok`, sent to a client that has just connected.  The
scanner stops at the first line: `Server.MOTD` writes the start line and the end line
and passes no text to `RplMOTD`, so the texts for the first line do not concatenate to
the line. -/
theorem motd_long_line_lost :
    longMotd = List.replicate 65536 120 ++ 10 :: [111, 107, 10] ∧
    ((NewClient (sampleServer longMotd)).1.clientAt 0).conn = NewIRCConn ∧
    ((Server.MOTD (NewClient (sampleServer longMotd)).1 0).clientAt 0).conn.written
      = [Reply.RplMOTDStart, Reply.RplMOTDEnd] ∧
    (motdTexts
        ((Server.MOTD (NewClient (sampleServer longMotd)).1 0).clientAt 0).conn.written).flatten
      ≠ List.replicate 65536 120 := by
  have hw := motd_long 0 rfl
  have h0 : ((NewClient (sampleServer longMotd)).1.clientAt 0).conn.written = [] := rfl
  rw [h0, List.nil_append] at hw
  refine ⟨rfl, rfl, hw, ?_⟩
  rw [hw]
  intro h
  have := congrArg List.length h
  rw [List.length_replicate] at this
  exact absurd this (by decide)

/-- C1, as amended.  For a MOTD file made of lines of fewer than `MaxScanTokenSize`
(65536) bytes, each ended by a newline but possibly the last, the scanner delivers
every line, without its line end (the newline and a carriage return before it);
`Server.MOTD` writes the start line, for every line in order one `RplMOTD` per text
of the loop body, and the end line; and the texts of the loop body for a line,
concatenated in emission order, are the line: nothing is lost, repeated or
reordered, whatever the length of the line (zero and the multiples of 80 included). -/
theorem motd_line_preserved (s : Server) (c : ClientId) (lines : List GoString)
    (last : GoString) (hfile : s.motdFile ≠ "")
    (hsrc : s.motdSource = some (joinLines lines ++ last))
    (hl : ∀ line ∈ lines, (10 : UInt8) ∉ line ∧ line.length < MaxScanTokenSize)
    (hlast : (10 : UInt8) ∉ last ∧ last.length < MaxScanTokenSize) :
    scanLines (joinLines lines ++ last)
      = (lines ++ (if last.length > 0 then [last] else [])).map dropCR ∧
    Server.MOTD s c
      = s.modifyClient c (fun cl => cl.wrote
          ([Reply.RplMOTDStart]
            ++ (((lines ++ (if last.length > 0 then [last] else [])).map dropCR).map
                (fun line => (motdLine line).map Reply.RplMOTD)).flatten
            ++ [Reply.RplMOTDEnd])) ∧
    ∀ line : GoString, (motdLine line).flatten = line :=
  ⟨(motd_scanned s c lines last hfile hsrc hl hlast).1,
   (motd_scanned s c lines last hfile hsrc hl hlast).2, motdLine_flatten⟩

/-- The statement of C1 for a file of the two lines `hi` and `yo`, the first ended by a
carriage return and a newline, the second by nothing. -/
theorem motd_line_preserved_witness :
    scanLines [104, 105, 13, 10, 121, 111] = [[104, 105], [121, 111]] ∧
    Server.MOTD (NewClient (sampleServer [104, 105, 13, 10, 121, 111])).1 0
      = (NewClient (sampleServer [104, 105, 13, 10, 121, 111])).1.modifyClient 0
          (fun cl => cl.wrote
            [Reply.RplMOTDStart, Reply.RplMOTD [104, 105], Reply.RplMOTD [121, 111],
              Reply.RplMOTDEnd]) :=
  ⟨(motd_line_preserved (NewClient (sampleServer [104, 105, 13, 10, 121, 111])).1 0
      [[104, 105, 13]] [121, 111] (by decide) rfl (by decide) (by decide)).1,
   (motd_line_preserved (NewClient (sampleServer [104, 105, 13, 10, 121, 111])).1 0
      [[104, 105, 13]] [121, 111] (by decide) rfl (by decide) (by decide)).2.1⟩

/-- C2, the counterexample: the MOTD file `longMotd`, whose first line has 65536 bytes,
sent to a client that has just connected.  The line is longer than 80 bytes and
ceil(65536/80) is 820, but `Server.MOTD` writes no `RplMOTD` line at all, neither for
this line nor for the line after it. -/
theorem motd_long_line_count :
    (List.replicate 65536 (120 : UInt8)).length > MOTD_MAX_LINE_LENGTH ∧
    ((List.replicate 65536 (120 : UInt8)).length + 79) / 80 = 820 ∧
    (motdTexts
        ((Server.MOTD (NewClient (sampleServer longMotd)).1 0).clientAt 0).conn.written).length
      = 0 := by
  have hw := motd_long 0 rfl
  have h0 : ((NewClient (sampleServer longMotd)).1.clientAt 0).conn.written = [] := rfl
  rw [h0, List.nil_append] at hw
  rw [hw, List.length_replicate]
  exact ⟨by decide, by decide, rfl⟩

/-- C2, as amended.  For a MOTD file made of lines of fewer than `MaxScanTokenSize`
(65536) bytes, each ended by a newline but possibly the last, `Server.MOTD` writes the
start line, for every line in order (taken without its line end) one `RplMOTD` per
text of the loop body, and the end line.  For a line of length n > 80 the loop body
gives exactly ceil(n/80) texts, each but the last of length 80 and the last of length
between 1 and 80; for n = 81 the lengths are 80 and 1; for n <= 80 it gives one text,
the line. -/
theorem motd_line_count (s : Server) (c : ClientId) (lines : List GoString)
    (last : GoString) (hfile : s.motdFile ≠ "")
    (hsrc : s.motdSource = some (joinLines lines ++ last))
    (hl : ∀ line ∈ lines, (10 : UInt8) ∉ line ∧ line.length < MaxScanTokenSize)
    (hlast : (10 : UInt8) ∉ last ∧ last.length < MaxScanTokenSize) :
    Server.MOTD s c
      = s.modifyClient c (fun cl => cl.wrote
          ([Reply.RplMOTDStart]
            ++ (((lines ++ (if last.length > 0 then [last] else [])).map dropCR).map
                (fun line => (motdLine line).map Reply.RplMOTD)).flatten
            ++ [Reply.RplMOTDEnd])) ∧
    ∀ line : GoString,
      (line.length ≤ MOTD_MAX_LINE_LENGTH → motdLine line = [line]) ∧
      (line.length > MOTD_MAX_LINE_LENGTH →
        (motdLine line).length = (line.length + 79) / 80 ∧
        ∃ init final, motdLine line = init ++ [final] ∧
          (∀ x ∈ init, x.length = 80) ∧ 1 ≤ final.length ∧ final.length ≤ 80) ∧
      (line.length = 81 → (motdLine line).map List.length = [80, 1]) :=
  ⟨(motd_scanned s c lines last hfile hsrc hl hlast).2, motdLine_count⟩

/-- The statement of C2 for a file of one line of 81 bytes: the texts of the line have
the lengths 80 and 1. -/
theorem motd_line_count_witness :
    (motdLine (List.replicate 81 120)).map List.length = [80, 1] ∧
    (motdLine (List.replicate 160 120)).length = (160 + 79) / 80 :=
  ⟨((motd_line_count (NewClient (sampleServer (joinLines [List.replicate 81 120] ++ []))).1 0
      [List.replicate 81 120] [] (by decide) rfl (by decide) (by decide)).2
        (List.replicate 81 120)).2.2 (by simp),
   by simpa using (((motd_line_count
      (NewClient (sampleServer (joinLines [List.replicate 81 120] ++ []))).1 0
      [List.replicate 81 120] [] (by decide) rfl (by decide) (by decide)).2
        (List.replicate 160 120)).2.1 (by simp [MOTD_MAX_LINE_LENGTH])).1⟩

/-! ### Joining a channel -/

theorem reply_channelAt (s : Server) (c : ClientId) (r : Reply) :
    (Client.Reply s c r).1.channelAt = s.channelAt := by
  rw [reply_eq]; rfl

theorem reply_channels (s : Server) (c c2 : ClientId) (r : Reply) :
    ((Client.Reply s c r).1.clientAt c2).channels = (s.clientAt c2).channels := by
  rw [reply_eq, modifyClient_clientAt]
  split
  · rename_i h; rw [h]; rfl
  · rfl

theorem broadcast_channelAt (s : Server) (members : MemberSet) (r : Reply) :
    (Channel.broadcast s members r).channelAt = s.channelAt := by
  unfold Channel.broadcast
  induction members generalizing s with
  | nil => rfl
  | cons m l ih => rw [List.foldl_cons, ih, reply_channelAt]

theorem broadcast_channels (s : Server) (members : MemberSet) (r : Reply) (c : ClientId) :
    ((Channel.broadcast s members r).clientAt c).channels = (s.clientAt c).channels := by
  unfold Channel.broadcast
  induction members generalizing s with
  | nil => rfl
  | cons m l ih => rw [List.foldl_cons, ih, reply_channels]

theorem names_channelAt (s : Server) (ch : ChanId) (c : ClientId) :
    (Channel.Names s ch c).channelAt = s.channelAt := by
  unfold Channel.Names Client.Numeric
  simp only [reply_channelAt]

theorem names_channels (s : Server) (ch : ChanId) (c c2 : ClientId) :
    ((Channel.Names s ch c).clientAt c2).channels = (s.clientAt c2).channels := by
  unfold Channel.Names Client.Numeric
  simp only [reply_channels]

theorem getTopic_channelAt (s : Server) (ch : ChanId) (c : ClientId) :
    (Channel.GetTopic s ch c).channelAt = s.channelAt := by
  unfold Channel.GetTopic Client.Numeric
  split <;> exact reply_channelAt _ _ _

theorem getTopic_channels (s : Server) (ch : ChanId) (c c2 : ClientId) :
    ((Channel.GetTopic s ch c).clientAt c2).channels = (s.clientAt c2).channels := by
  unfold Channel.GetTopic Client.Numeric
  split <;> exact reply_channels _ _ _ _

/-- A join that is not rejected: the channel is in the channel set of the client and the
client is among the members of the channel, as the first one with operator status. -/
theorem join_member (s : Server) (ch : ChanId) (c : ClientId) (key : Text)
    (h1 : (s.channelAt ch).key = "") (h2 : (s.channelAt ch).userLimit = 0)
    (h3 : (s.channelAt ch).lists = []) :
    ((Channel.Join s ch c key).clientAt c).channels = ChannelSet.Add (s.clientAt c).channels ch ∧
    ((Channel.Join s ch c key).channelAt ch).members
      = (if (s.channelAt ch).members.length == 0 then
          MemberSet.Remove (s.channelAt ch).members c ++ [(c, [ChannelMode.ChannelOperator])]
        else MemberSet.Add (s.channelAt ch).members c) := by
  unfold Channel.Join
  simp only [h1, h2, h3, Channel.listMatches, List.any_nil, bne_self_eq_false, Bool.false_and,
    Nat.lt_irrefl, decide_False, if_false, Bool.false_eq_true]
  rw [names_channels, getTopic_channels, broadcast_channels, names_channelAt,
    getTopic_channelAt, broadcast_channelAt]
  constructor
  · simp [Server.modifyChannel, modifyClient_clientAt]
  · simp [Server.modifyChannel, Server.modifyClient]

theorem preHandle_channels (s : Server) (c : ClientId) :
    (BaseCommand.PreHandleServer s c).channels = s.channels ∧
    (BaseCommand.PreHandleServer s c).nextChannel = s.nextChannel := ⟨rfl, rfl⟩

/-- A JOIN of a registered client for one channel name that is not in the index: the
channel is made and joined. -/
theorem processCommand_join (s : Server) (b : BaseCommand) (name : Name) (key : Text)
    (hr : (s.clientAt b.client).registered = true) (hn : name.IsChannel = true)
    (hg : ChannelNameMap.Get s.channels name = none) :
    s.processCommand (Command.Session (SessionCommand.JoinCommand b [(name, key)] false))
      = Channel.Join (NewChannel (BaseCommand.PreHandleServer s b.client) name).1
          s.nextChannel b.client key := by
  have hg2 : ChannelNameMap.Get (BaseCommand.PreHandleServer s b.client).channels name = none :=
    hg
  simp only [Server.processCommand, Command.Client, Command.base, SessionCommand.base, hr,
    Command.HandleServer?, Command.PreHandleServer, SessionCommand.HandleServer,
    JoinCommand.HandleServer, List.foldl_cons, List.foldl_nil, hn, hg2, Bool.not_true,
    Bool.false_eq_true, if_false]
  rfl

theorem joined_eq :
    joinedServer
      = Channel.Join (NewChannel (BaseCommand.PreHandleServer registeredServer 0) "#a").1 0 0 "" :=
  processCommand_join registeredServer { client := 0, code := "JOIN" } "#a" ""
    (by decide) (by decide) (by decide)

/-- The event loop reaches states with clients in channels: after `alice` has registered
and joined `#a`, she is the one member of the channel, with operator status. -/
theorem reachable_joined :
    Reachable joinedServer ∧ (joinedServer.clientAt 0).channels = [0] ∧
    (joinedServer.channelAt 0).members = [(0, [ChannelMode.ChannelOperator])] := by
  refine ⟨Reachable.step _ _ (reachable_run _ registration (reachable_sample []) (by decide))
    (by decide), ?_⟩
  rw [joined_eq]
  have hj := join_member (NewChannel (BaseCommand.PreHandleServer registeredServer 0) "#a").1
    0 0 "" rfl rfl rfl
  have h0 : ((NewChannel (BaseCommand.PreHandleServer registeredServer 0) "#a").1.clientAt
      0).channels = [] := by decide
  have h1 : ((NewChannel (BaseCommand.PreHandleServer registeredServer 0) "#a").1.channelAt
      0).members = [] := by decide
  rw [hj.1, hj.2, h0, h1]
  exact ⟨rfl, rfl⟩

/-- A command of server.go:389-746 from a registered client: the hook of `BaseCommand`,
then the handler. -/
theorem processCommand_session (s : Server) (cmd : SessionCommand) (c : ClientId)
    (hb : cmd.base.client = c) (hr : (s.clientAt c).registered = true) :
    s.processCommand (Command.Session cmd)
      = cmd.HandleServer (BaseCommand.PreHandleServer s c) := by
  subst hb
  simp only [Server.processCommand, Command.Client, Command.base, hr, Command.HandleServer?,
    Command.PreHandleServer, Bool.not_true, Bool.false_eq_true, if_false]

theorem handle_command (s : Server) (cmd : Command) :
    s.handle (Event.command cmd) = s.processCommand cmd := rfl

theorem processCommand_quit (s : Server) (b : BaseCommand) (message reason : Text)
    (c : ClientId) (hb : b.client = c) (hr : (s.clientAt c).registered = true) :
    s.processCommand (Command.QuitCommand b message reason)
      = Client.Quit s c message reason := by
  subst hb
  simp only [Server.processCommand, Command.Client, Command.base, hr, Command.HandleServer?,
    Command.PreHandleServer, Bool.not_true, Bool.false_eq_true, if_false]

theorem joined_client :
    joinedServer.nextClient = 1 ∧ (joinedServer.clientAt 0).registered = true ∧
    (joinedServer.clientAt 0).hasQuit = false := by
  have hs := same_of_talk (talk_of_frame (frame_joinCommand
    (BaseCommand.PreHandleServer registeredServer 0) 0 [("#a", "")] false))
  have hk := keeps_of_talk (talk_of_frame (frame_joinCommand
    (BaseCommand.PreHandleServer registeredServer 0) 0 [("#a", "")] false))
  have e : joinedServer
      = JoinCommand.HandleServer (BaseCommand.PreHandleServer registeredServer 0) 0
          [("#a", "")] false := by
    unfold joinedServer
    rw [handle_command, processCommand_session registeredServer
      (SessionCommand.JoinCommand { client := 0, code := "JOIN" } [("#a", "")] false) 0 rfl
      (by decide)]
    rfl
  rw [e, hs.2.1, (hk 0).1, (hs.2.2 0).2.1]
  decide

theorem departed_eq : departedServer = Client.Quit joinedServer 0 "bye" "bye" := by
  unfold departedServer
  rw [handle_command, processCommand_quit joinedServer { client := 0, code := "QUIT" }
    "bye" "bye" 0 rfl joined_client.2.1]

theorem reachable_departed : Reachable departedServer :=
  Reachable.step _ _ reachable_joined.1
    (by
      show decide (0 < joinedServer.nextClient) = true
      rw [joined_client.1]
      rfl)

/-- C7: a client that has quit receives no further output.  In every state of the event
loop, a reply addressed to a client whose `hasQuit` is set leaves the state as it is,
so nothing is written to its transport, and returns `io.EOF`.  The states of the event
loop are those reached through new connections, the commands of `irc/server.go`
(registration, liveness, and the channel, message, lookup and operator commands), the
nickname and capability events, shutdown and the passing of time.  The same holds in
every state that differs from such a state at most in channels, history, written
lines, user modes and away messages, as the states do in which a handler sends its
replies. -/
theorem reply_after_quit (s : Server) (h : Reachable s) (c : ClientId)
    (hq : (s.clientAt c).hasQuit = true) (reply : Reply) :
    Client.Reply s c reply = (s, some IOError.EOF) ∧
    ∀ t, s.Talk t → Client.Reply t c reply = (t, some IOError.EOF) := by
  have hclosed : (s.clientAt c).conn.closed = true := by
    rw [(inv_reachable s h).1 c]; exact hq
  have key : ∀ t : Server, (t.clientAt c).conn.closed = true →
      Client.Reply t c reply = (t, some IOError.EOF) := by
    intro t ht
    unfold Client.Reply
    simp only [write_closed _ _ ht]
    congr 1
    exact modifyClient_id t c _ rfl
  refine ⟨key s hclosed, fun t ht => key t ?_⟩
  rw [((same_of_talk ht).2.2 c).2.2]
  exact hclosed

/-- The statement of C7 for `alice` after she has registered, joined the channel `#a`
and quit. -/
theorem reply_after_quit_witness :
    Client.Reply departedServer 0 Reply.RplWelcome = (departedServer, some IOError.EOF) :=
  (reply_after_quit departedServer reachable_departed 0
    (by rw [departed_eq]; exact quit_hasQuit _ _ _ _) Reply.RplWelcome).1

/-! ### The registry -/

/-- C8, the counterexample, in two sessions of the sample server.  After a client has
connected and has been given the nickname `alice`, and before it has declared a
username, it is in the registry under its nickname although it is not registered (and
has not quit).  After a client with the nickname `alice` has sent PING before
registering, which quits it, and its USER command has been processed, it is in the
registry under its nickname, and registered, although it has quit. -/
theorem registry_not_bijection :
    ((sampleServer []).admitsAll [Event.newConn, Event.setNickname 0 "alice"] = true ∧
      ((sampleServer []).Run [Event.newConn, Event.setNickname 0 "alice"]).clients.Get
          (((sampleServer []).Run [Event.newConn, Event.setNickname 0 "alice"]).clientAt 0).nick
        = some 0 ∧
      (((sampleServer []).Run [Event.newConn, Event.setNickname 0 "alice"]).clientAt
          0).registered = false ∧
      (((sampleServer []).Run [Event.newConn, Event.setNickname 0 "alice"]).clientAt
          0).hasQuit = false) ∧
    ((sampleServer []).admitsAll lateUser = true ∧
      ((sampleServer []).Run lateUser).clients.Get
          (((sampleServer []).Run lateUser).clientAt 0).nick = some 0 ∧
      (((sampleServer []).Run lateUser).clientAt 0).registered = true ∧
      (((sampleServer []).Run lateUser).clientAt 0).hasQuit = true) := by
  decide

/-- C8, as amended.  In every state of the event loop, an allocated client that has not
quit is in the registry under its current nickname if and only if it has a nickname,
whether or not it is registered; in particular a registered client that has not quit
is in the registry under its current nickname.  `Client.Quit` of such a client takes
it out of the registry. -/
theorem registry_bijection (s : Server) (h : Reachable s) (c : ClientId)
    (hc : c < s.nextClient) (hq : (s.clientAt c).hasQuit = false) :
    (s.clients.Get (s.clientAt c).nick = some c ↔ (s.clientAt c).HasNick = true) ∧
    ((s.clientAt c).registered = true → s.clients.Get (s.clientAt c).nick = some c) ∧
    ((s.clientAt c).HasNick = true → ∀ message reason,
      (Client.Quit s c message reason).clients.Get (s.clientAt c).nick = none) := by
  obtain ⟨_, hB, hD⟩ := inv_reachable s h
  have hiff : s.clients.Get (s.clientAt c).nick = some c ↔ (s.clientAt c).HasNick = true := by
    constructor
    · intro hg
      have := (hB _ c hg).2.1
      simpa [Client.HasNick] using this
    · intro hn
      exact hD c hc hq (by simpa [Client.HasNick] using hn)
  refine ⟨hiff, fun hr => hiff.mpr (registered_hasNick s h c hr), fun hn message reason => ?_⟩
  obtain ⟨chs, g, w, heq⟩ := quit_spec s c message reason hq
  have hne : (s.clientAt c).nick ≠ "" := by simpa [Client.HasNick] using hn
  rw [heq]
  show (s.clients.Remove c (s.clientAt c)).byNick.get (s.clientAt c).nick.ToLower = none
  rw [registry_remove_get, if_pos ⟨hne, hiff.mpr hn, rfl⟩]

/-- The statement of C8 for the client of the sample server that has a nickname and is
not registered, and for `alice` in the channel `#a`: she is in the registry, and not
after her quit. -/
theorem registry_bijection_witness :
    (((sampleServer []).Run [Event.newConn, Event.setNickname 0 "alice"]).clients.Get
        (((sampleServer []).Run [Event.newConn, Event.setNickname 0 "alice"]).clientAt 0).nick
      = some 0 ↔
      (((sampleServer []).Run [Event.newConn, Event.setNickname 0 "alice"]).clientAt 0).HasNick
        = true) ∧
    joinedServer.clients.Get (joinedServer.clientAt 0).nick = some 0 :=
  ⟨(registry_bijection _
      (reachable_run _ [Event.newConn, Event.setNickname 0 "alice"] (reachable_sample [])
        (by decide)) 0 (by decide) (by decide)).1,
   (registry_bijection joinedServer reachable_joined.1 0
      (by rw [joined_client.1]; decide) joined_client.2.2).2.1 joined_client.2.1⟩

end Ergonomadic
